import Mathlib

/-! prisma-user-service: authentication, context propagation, CORS and profile access

A shallow embedding of `pkg/utils/jwt_utils.go`, `pkg/utils/context_utils.go`,
`pkg/middleware/jwt_middleware.go`, `pkg/middleware/cors_middleware.go`, the handlers
`UpdateProfile` and `DeleteProfile` of `internal/handlers/user_handler.go`, and
`ValidateCredentials` of `service/user_service.go`.

Conventions of the embedding

* A Go `string` is a Lean `String`.  The code only compares strings for equality, splits on
  the ASCII space and tests prefixes and suffixes; on well-formed UTF-8 these agree bytewise
  and characterwise.
* A Go `error` is its `Error()` text; a `(T, error)` result is an `Except String T`.
* An `http.Handler` is a function from the response writer state and the request to the new
  response writer state.  A middleware is a function from handlers to handlers, so a call of
  `next.ServeHTTP(w, r)` is the application `next w r`.
* `http.Header` is a map from canonical header names to value lists, kept as an association
  list.  Every header name in the source is already in canonical form.
* The library `github.com/golang-jwt/jwt/v5` is not part of the repository.  The middleware
  takes its parser as a parameter `parse`; the claims about the token codec instantiate it
  with `ParseWithClaims`, a model of the version 5 parser over an abstract wire encoding
  and MAC (`JWTCodec`).
* An instant is an `Int`, nanoseconds since the Unix epoch; a numeric date of the claims is
  an `Int`, whole seconds.  Every `time.Now()` is an explicit clock reading.
* The profile service, the user repository, the JSON decoding of a request body and the
  bcrypt comparison are parameters of the code that calls them; the calls made are kept in
  a log next to the result.
-/

namespace PrismaUser

/-! ## Go standard library: strings -/

/-- Go `strings.HasPrefix(s, p)`. -/
def HasPrefix (s p : String) : Bool :=
  p.data.isPrefixOf s.data

/-- Go `strings.HasSuffix(s, suffix)`. -/
def HasSuffix (s suffix : String) : Bool :=
  suffix.data.isSuffixOf s.data

/-- Go `strings.TrimPrefix(s, p)`: `s` without the leading `p`, or `s` itself. -/
def TrimPrefix (s p : String) : String :=
  if HasPrefix s p then String.mk (s.data.drop p.data.length) else s

/-- Go `strings.Split(s, sep)` for a one-byte separator: the pieces of `s` between the
occurrences of `sep`; always at least one piece. -/
def Split (s : String) (sep : Char) : List String :=
  (s.data.splitOn sep).map String.mk

/-- Go `strings.Join(elems, sep)`. -/
def Join : List String → String → String
  | [], _ => ""
  | [e], _ => e
  | e :: rest, sep => e ++ sep ++ Join rest sep

/-- Go conversion `string(n)` of an integer: the UTF-8 text of the code point `n`, and
U+FFFD when `n` is not a valid code point. -/
def runeToString (n : Int) : String :=
  if 0 ≤ n ∧ n.toNat.isValidChar then String.singleton (Char.ofNat n.toNat)
  else String.singleton (Char.ofNat 0xFFFD)

/-! ## pkg/utils/jwt_utils.go: claims -/

/-- The `jwt.RegisteredClaims` embedded in `JWTClaim`; numeric dates are seconds, `none`
for a nil `*NumericDate`. -/
structure RegisteredClaims where
  Issuer : String
  Subject : String
  Audience : List String
  ExpiresAt : Option Int
  NotBefore : Option Int
  IssuedAt : Option Int
  ID : String
  deriving DecidableEq, Repr

/-- The struct `JWTClaim`. -/
structure JWTClaim where
  UserID : String
  Email : String
  Role : String
  Registered : RegisteredClaims
  deriving DecidableEq, Repr

/-! ## Go standard library: context -/

/-- A context key: an interface value, equal to another one when both the dynamic type and
the value agree.  `contextKey` is the unexported string type of `context_utils.go`. -/
inductive Key where
  | contextKey (name : String)
  | foreign (typ : String) (repr : String)
  deriving DecidableEq, Repr

/-- A value stored in a context (`interface{}`): the nil interface, a `*JWTClaim` (`none`
for the nil pointer), or a value of any other type. -/
inductive Any where
  | nil
  | jwtClaim (p : Option JWTClaim)
  | foreign (typ : String) (repr : String)
  deriving DecidableEq, Repr

/-- A `context.Context`: the background context, a child made by `context.WithValue`, or a
child made by any other constructor (`WithCancel`, `WithTimeout`, ...), which stores no
value of its own. -/
inductive Context where
  | background
  | withValue (parent : Context) (key : Key) (val : Any)
  | derived (parent : Context)
  deriving DecidableEq, Repr

/-- Go `ctx.Value(key)`: the value of the nearest ancestor that stores `key`, else nil. -/
def Context.Value : Context → Key → Any
  | .background, _ => Any.nil
  | .withValue parent k v, key => if k = key then v else parent.Value key
  | .derived parent, key => parent.Value key

/-! ## pkg/utils/context_utils.go -/

/-- The constant `userClaimsKey contextKey = "user_claims"`. -/
def userClaimsKey : Key := Key.contextKey "user_claims"

/-- `SetUserContext(ctx, claims)`: `context.WithValue(ctx, userClaimsKey, claims)`. -/
def SetUserContext (ctx : Context) (claims : Option JWTClaim) : Context :=
  Context.withValue ctx userClaimsKey (Any.jwtClaim claims)

/-- `GetUserFromContext(ctx)`: the type assertion `ctx.Value(userClaimsKey).(*JWTClaim)`
succeeds exactly on a stored `*JWTClaim` (a nil pointer included). -/
def GetUserFromContext (ctx : Context) : Except String (Option JWTClaim) :=
  match ctx.Value userClaimsKey with
  | Any.jwtClaim claims => Except.ok claims
  | _ => Except.error "user claims not found in context"

/-! ## Go standard library: net/http -/

/-- An `http.Header`: canonical header name to its list of values. -/
abbrev Header := List (String × List String)

/-- Go `h.Values(key)`: all values stored under `key`, empty when absent. -/
def Header.Values (h : Header) (key : String) : List String :=
  match h.find? (fun p => p.1 == key) with
  | some p => p.2
  | none => []

/-- Go `h.Get(key)`: the first value stored under `key`, the empty string when absent. -/
def Header.Get (h : Header) (key : String) : String :=
  match h.Values key with
  | [] => ""
  | v :: _ => v

/-- Go `h.Set(key, value)`: replaces whatever is stored under `key` by the single value. -/
def Header.Set (h : Header) (key value : String) : Header :=
  (key, [value]) :: h.filter (fun p => p.1 != key)

/-- Go `h.Add(key, value)`: appends `value` to the values stored under `key`. -/
def Header.Add (h : Header) (key value : String) : Header :=
  (key, h.Values key ++ [value]) :: h.filter (fun p => p.1 != key)

/-- The struct `ErrorResponse` with its single JSON field `error`. -/
structure ErrorResponse where
  Error : String
  deriving DecidableEq, Repr

/-- One write to a response body: the JSON document of an `ErrorResponse` (as written by
`json.NewEncoder(w).Encode`), the JSON document of a map with the single key `message`, or
raw bytes written by some other handler. -/
inductive Chunk where
  | json (v : ErrorResponse)
  | bytes (b : String)
  | message (text : String)
  deriving DecidableEq, Repr

/-- The observable state of an `http.ResponseWriter`: the header map returned by
`Header()`, the status committed by the first `WriteHeader` (`none` while nothing has been
written), and the body written so far. -/
structure ResponseWriter where
  header : Header
  status : Option Nat
  body : List Chunk
  deriving DecidableEq, Repr

/-- Go `w.Header().Set(key, value)`. -/
def ResponseWriter.SetHeader (w : ResponseWriter) (key value : String) : ResponseWriter :=
  { w with header := w.header.Set key value }

/-- Go `w.Header().Add(key, value)`. -/
def ResponseWriter.AddHeader (w : ResponseWriter) (key value : String) : ResponseWriter :=
  { w with header := w.header.Add key value }

/-- Go `w.WriteHeader(code)`: the first call commits the status, later calls are ignored. -/
def ResponseWriter.WriteHeader (w : ResponseWriter) (code : Nat) : ResponseWriter :=
  match w.status with
  | none => { w with status := some code }
  | some _ => w

/-- Go `w.Write(data)`: commits status 200 when no status was written, then appends. -/
def ResponseWriter.Write (w : ResponseWriter) (data : Chunk) : ResponseWriter :=
  let w1 := w.WriteHeader 200
  { w1 with body := w1.body ++ [data] }

/-- Go `json.NewEncoder(w).Encode(v)` for an `ErrorResponse`. -/
def ResponseWriter.EncodeJSON (w : ResponseWriter) (v : ErrorResponse) : ResponseWriter :=
  w.Write (Chunk.json v)

/-- The parts of an `*http.Request` the middleware and the handlers read: method, header,
context, the route variables `mux.Vars(r)` and the bytes of the body. -/
structure Request where
  Method : String
  Header : Header
  ctx : Context
  Vars : List (String × String) := []
  Body : String := ""
  deriving DecidableEq, Repr

/-- The lookup `mux.Vars(r)[name]`: the route variable, the empty string when absent. -/
def Request.Var (r : Request) (name : String) : String :=
  match r.Vars.find? (fun p => p.1 == name) with
  | some p => p.2
  | none => ""

/-- Go `r.WithContext(ctx)`. -/
def Request.WithContext (r : Request) (ctx : Context) : Request :=
  { r with ctx := ctx }

/-- An `http.Handler`: `ServeHTTP(w, r)` as a function on the response writer state. -/
abbrev Handler := ResponseWriter → Request → ResponseWriter

/-- The constant `http.StatusUnauthorized`. -/
def StatusUnauthorized : Nat := 401

/-- The constant `http.StatusForbidden`. -/
def StatusForbidden : Nat := 403

/-- The constant `http.StatusNoContent`. -/
def StatusNoContent : Nat := 204

/-- The constant `http.MethodOptions`. -/
def MethodOptions : String := "OPTIONS"

/-! ## The external JWT library -/

/-- A `jwt.SigningMethod`: the HMAC family (`*jwt.SigningMethodHMAC`) or any other. -/
inductive SigningMethod where
  | HMAC (name : String)
  | other (name : String)
  deriving DecidableEq, Repr

/-- A parsed `jwt.Token`: its signing method, the `alg` entry of its header (`none` when
absent), the decoded claims and the `Valid` flag. -/
structure Token where
  Method : SigningMethod
  alg : Option String
  Claims : JWTClaim
  Valid : Bool
  deriving DecidableEq, Repr

/-- A `jwt.Keyfunc`: given the parsed token, the verification key or an error. -/
abbrev Keyfunc := Token → Except String String

/-- The library function `jwt.ParseWithClaims(tokenString, &JWTClaim{}, keyFunc)`. -/
abbrev Parser := String → Keyfunc → Except String Token

/-! ## pkg/utils/jwt_utils.go: verification and extraction -/

/-- The key function that `ValidateJWT` hands to the parser: only an HMAC method gets the
secret. -/
def keyFunc (secret : String) : Keyfunc := fun token =>
  match token.Method with
  | SigningMethod.HMAC _ => Except.ok secret
  | SigningMethod.other _ =>
      Except.error ("unexpected signing method: " ++ (token.alg.getD "<nil>"))

/-- `ValidateJWT(tokenString, secret)`. -/
def ValidateJWT (parse : Parser) (tokenString secret : String) : Except String JWTClaim :=
  match parse tokenString (keyFunc secret) with
  | Except.error err => Except.error ("invalid token: " ++ err)
  | Except.ok token =>
      if !token.Valid then Except.error "invalid token claims"
      else Except.ok token.Claims

/-- `extractToken(r)`: the second of exactly two space-separated pieces of the
Authorization header when the first is `Bearer`, else the empty string. -/
def extractToken (r : Request) : String :=
  let bearToken := r.Header.Get "Authorization"
  match Split bearToken ' ' with
  | [first, second] => if first = "Bearer" then second else ""
  | _ => ""

/-- `GetJWTClaims(r, secret)`. -/
def GetJWTClaims (parse : Parser) (r : Request) (secret : String) : Except String JWTClaim :=
  let tokenString := extractToken r
  if tokenString = "" then Except.error "no token found"
  else ValidateJWT parse tokenString secret

/-! ## pkg/middleware/jwt_middleware.go -/

/-- The struct `JWTMiddleware`. -/
structure JWTMiddleware where
  jwtSecret : String
  deriving DecidableEq, Repr

/-- `NewJWTMiddleware(secret)`. -/
def NewJWTMiddleware (secret : String) : JWTMiddleware :=
  { jwtSecret := secret }

/-- `(m *JWTMiddleware) ValidateJWT(next)`. -/
def JWTMiddleware.ValidateJWT (parse : Parser) (m : JWTMiddleware) (next : Handler) :
    Handler := fun w r =>
  match GetJWTClaims parse r m.jwtSecret with
  | Except.error err =>
      let w1 := w.SetHeader "Content-Type" "application/json"
      let w2 := w1.WriteHeader StatusUnauthorized
      w2.EncodeJSON { Error := "unauthorized: " ++ err }
  | Except.ok claims =>
      let ctx := SetUserContext r.ctx (some claims)
      next w (r.WithContext ctx)

/-- `(m *JWTMiddleware) RequireRole(role)`. -/
def JWTMiddleware.RequireRole (parse : Parser) (m : JWTMiddleware) (role : String)
    (next : Handler) : Handler := fun w r =>
  match GetJWTClaims parse r m.jwtSecret with
  | Except.error err =>
      let w1 := w.SetHeader "Content-Type" "application/json"
      let w2 := w1.WriteHeader StatusUnauthorized
      w2.EncodeJSON { Error := "unauthorized: " ++ err }
  | Except.ok claims =>
      if claims.Role ≠ role then
        let w1 := w.SetHeader "Content-Type" "application/json"
        let w2 := w1.WriteHeader StatusForbidden
        w2.EncodeJSON { Error := "forbidden: insufficient permissions" }
      else
        let ctx := SetUserContext r.ctx (some claims)
        next w (r.WithContext ctx)

/-! ## pkg/middleware/cors_middleware.go -/

/-- The struct `CORS`; `maxAge` is the preflight cache time in seconds. -/
structure CORS where
  allowedOrigins : List String
  allowedMethods : List String
  allowedHeaders : List String
  maxAge : Int
  deriving DecidableEq, Repr

/-- `NewCORS()`: the default policy. -/
def NewCORS : CORS :=
  { allowedOrigins := ["*"]
    allowedMethods := ["GET", "POST", "PUT", "PATCH", "DELETE", "OPTIONS"]
    allowedHeaders := ["Accept", "Authorization", "Content-Type", "X-CSRF-Token",
      "X-Request-ID"]
    maxAge := 86400 }

/-- `(c *CORS) WithOrigins(origins...)`. -/
def CORS.WithOrigins (c : CORS) (origins : List String) : CORS :=
  { c with allowedOrigins := origins }

/-- `(c *CORS) WithMethods(methods...)`. -/
def CORS.WithMethods (c : CORS) (methods : List String) : CORS :=
  { c with allowedMethods := methods }

/-- `(c *CORS) WithHeaders(headers...)`. -/
def CORS.WithHeaders (c : CORS) (headers : List String) : CORS :=
  { c with allowedHeaders := headers }

/-- `(c *CORS) WithMaxAge(seconds)`. -/
def CORS.WithMaxAge (c : CORS) (seconds : Int) : CORS :=
  { c with maxAge := seconds }

/-- The `for ... range c.allowedOrigins` loop of `isAllowedOrigin`. -/
def originLoop (origin : String) : List String → Bool
  | [] => false
  | allowedOrigin :: rest =>
      if allowedOrigin = "*" then true
      else if allowedOrigin = origin then true
      else if HasPrefix allowedOrigin "*." &&
          HasSuffix origin (TrimPrefix allowedOrigin "*") then true
      else originLoop origin rest

/-- `(c *CORS) isAllowedOrigin(origin)`. -/
def CORS.isAllowedOrigin (c : CORS) (origin : String) : Bool :=
  if c.allowedOrigins.length = 0 then true
  else originLoop origin c.allowedOrigins

/-- The part of `Handler` after the origin check: the preflight branch for `OPTIONS`, else
the headers of an actual request and the call of the wrapped handler. -/
def CORS.afterOriginCheck (c : CORS) (next : Handler) (origin : String) : Handler :=
  fun w r =>
  if r.Method = MethodOptions then
    let w1 := w.SetHeader "Access-Control-Allow-Methods" (Join c.allowedMethods ",")
    let w2 := w1.SetHeader "Access-Control-Allow-Headers" (Join c.allowedHeaders ",")
    let w3 := w2.SetHeader "Access-Control-Max-Age" (runeToString c.maxAge)
    let w4 := w3.SetHeader "Access-Control-Allow-Credentials" "true"
    let w5 := w4.AddHeader "Vary" "Origin"
    let w6 := w5.AddHeader "Vary" "Access-Control-Request-Method"
    let w7 := w6.AddHeader "Vary" "Access-Control-Request-Headers"
    w7.WriteHeader StatusNoContent
  else if origin ≠ "" then
    let w1 := w.SetHeader "Access-Control-Allow-Credentials" "true"
    let w2 := w1.AddHeader "Vary" "Origin"
    next w2 r
  else
    next w r

/-- `(c *CORS) Handler(next)`. -/
def CORS.Handler (c : CORS) (next : Handler) : Handler := fun w r =>
  let origin := r.Header.Get "Origin"
  if origin ≠ "" then
    if !c.isAllowedOrigin origin then
      w.WriteHeader StatusForbidden
    else
      c.afterOriginCheck next origin (w.SetHeader "Access-Control-Allow-Origin" origin) r
  else
    c.afterOriginCheck next origin w r

/-! ## Specification vocabulary -/

/-- The wrapped handler is invoked exactly once, on writer state `w1` and request `r1`, and
its result is the result: whatever `next` is, the outcome is `next w1 r1`. -/
def InvokesNextWith (mw : Handler → Handler) (w : ResponseWriter) (r : Request)
    (w1 : ResponseWriter) (r1 : Request) : Prop :=
  ∀ next : Handler, mw next w r = next w1 r1

/-- The wrapped handler is invoked (exactly once, on some writer state and request). -/
def InvokesNext (mw : Handler → Handler) (w : ResponseWriter) (r : Request) : Prop :=
  ∃ w1 r1, InvokesNextWith mw w r w1 r1

/-- The string `o` ends with the string `s`. -/
def EndsWith (o s : String) : Prop :=
  ∃ p : String, o = p ++ s

/-- A policy entry matches an origin: the entry is `*`, or the entry is the origin, or the
entry is `*.` followed by a domain `d` and the origin ends with `.` followed by `d`. -/
def MatchesEntry (entry origin : String) : Prop :=
  entry = "*" ∨ entry = origin ∨
    ∃ d : String, entry = "*." ++ d ∧ EndsWith origin ("." ++ d)

/-- Some ancestor of the context (the context itself included) was produced by
`SetUserContext`. -/
def Context.installsClaims : Context → Bool
  | .background => false
  | .withValue parent k v =>
      (k == userClaimsKey && (match v with | Any.jwtClaim _ => true | _ => false)) ||
        parent.installsClaims
  | .derived parent => parent.installsClaims

/-- The context `ctx1` is `ctx` or is derived from `ctx` in steps none of which stores a
value under `key`. -/
inductive DerivedWithout (key : Key) (ctx : Context) : Context → Prop where
  | same : DerivedWithout key ctx ctx
  | value (c : Context) (k : Key) (v : Any) :
      DerivedWithout key ctx c → k ≠ key → DerivedWithout key ctx (Context.withValue c k v)
  | plain (c : Context) : DerivedWithout key ctx c → DerivedWithout key ctx (Context.derived c)

/-! ## Sample inputs -/

/-- A sample claims value with the given role. -/
def sampleClaims (role : String) : JWTClaim :=
  { UserID := "u1"
    Email := "u1@example.com"
    Role := role
    Registered :=
      { Issuer := ""
        Subject := ""
        Audience := []
        ExpiresAt := some 7200
        NotBefore := some 3600
        IssuedAt := some 3600
        ID := "" } }

/-- A sample parser: it knows the token `tok-admin` (an HS256 token with role `admin`)
and `tok-user` (role `user`), asks the key function for the key, and rejects every other
token as malformed. -/
def sampleParse : Parser := fun tokenString keyf =>
  let known : Option String :=
    if tokenString = "tok-admin" then some "admin"
    else if tokenString = "tok-user" then some "user"
    else none
  match known with
  | none => Except.error "token is malformed"
  | some role =>
      let token : Token :=
        { Method := SigningMethod.HMAC "HS256"
          alg := some "HS256"
          Claims := sampleClaims role
          Valid := true }
      match keyf token with
      | Except.ok _ => Except.ok token
      | Except.error err => Except.error err

/-- A sample request with the given method, Authorization and Origin header values. -/
def sampleRequest (method : String) (authorization : List String) (origin : List String) :
    Request :=
  { Method := method
    Header := [("Authorization", authorization), ("Origin", origin)]
    ctx := Context.background }

/-- A fresh response writer: no header, no status, no body. -/
def freshWriter : ResponseWriter :=
  { header := [], status := none, body := [] }

/-- A sample wrapped handler: replies 200 with a fixed body. -/
def sampleNext : Handler := fun w _ =>
  (w.WriteHeader 200).Write (Chunk.bytes "ok")

/-! ## Go standard library: time -/

/-- Go `int64` arithmetic: the value of `n` after wrapping to 64 bits, two's complement. -/
def wrapInt64 (n : Int) : Int :=
  (n + 9223372036854775808) % 18446744073709551616 - 9223372036854775808

/-- The constant `time.Hour`: a `time.Duration`, int64 nanoseconds. -/
def Hour : Int := 3600000000000

/-- The constant `time.Second` in nanoseconds. -/
def Second : Int := 1000000000

/-- The expression `time.Hour * time.Duration(expiresHours)`: an int64 product, which wraps
around on overflow. -/
def hoursDuration (expiresHours : Int) : Int :=
  wrapInt64 (Hour * expiresHours)

/-- Library `jwt.NewNumericDate(t)`: the instant `t` (nanoseconds since the Unix epoch)
truncated to `jwt.TimePrecision`, one second; kept as its Unix seconds. -/
def NewNumericDate (t : Int) : Int :=
  t / Second

/-! ## pkg/utils/jwt_utils.go: the claims of GenerateJWT -/

/-- The claims value built by `GenerateJWT`.  The struct literal reads the clock three
times, in the order of its fields: `t1` for `ExpiresAt`, `t2` for `IssuedAt`, `t3` for
`NotBefore` (each an instant in nanoseconds since the Unix epoch). -/
def GenerateJWT.claims (userID email role : String) (expiresHours : Int) (t1 t2 t3 : Int) :
    JWTClaim :=
  { UserID := userID
    Email := email
    Role := role
    Registered :=
      { Issuer := ""
        Subject := ""
        Audience := []
        ExpiresAt := some (NewNumericDate (t1 + hoursDuration expiresHours))
        NotBefore := some (NewNumericDate t3)
        IssuedAt := some (NewNumericDate t2)
        ID := "" } }

/-- The token object `jwt.NewWithClaims(jwt.SigningMethodHS256, claims)` that `GenerateJWT`
signs. -/
def NewWithClaimsHS256 (claims : JWTClaim) : Token :=
  { Method := SigningMethod.HMAC "HS256"
    alg := some "HS256"
    Claims := claims
    Valid := false }

/-! ## The external JWT library: a model of `github.com/golang-jwt/jwt/v5`

The library is not part of the repository.  `ParseWithClaims` below follows the order of
checks of its version 5 parser: decode the segments, look up the method named by `alg`,
decode the signature, ask the key function for the key, verify the signature, and only
then validate the registered claims (`exp` and `nbf` by default).  The wire encoding
(base64url and JSON) and the hash function are fields of `JWTCodec`. -/

/-- A byte string. -/
abbrev Bytes := List Nat

/-- Go `[]byte(s)`: the UTF-8 bytes of a string. -/
def toBytes (s : String) : Bytes :=
  s.data.flatMap (fun c => (String.utf8EncodeChar c).map UInt8.toNat)

/-- What the parser reads off a token string of three dot-separated segments: the `alg`
entry of the decoded header (`none` when absent), the decoded claims, the signing input
(the first two segments with their dot) and the decoded signature (`none` when the third
segment is not base64url). -/
structure Segments where
  alg : Option String
  claims : JWTClaim
  signingInput : String
  signature : Option Bytes
  deriving DecidableEq, Repr

/-- The parts of the library kept abstract: `SigningString` is `token.SigningString()`,
`attach` appends the encoded signature to the signing string, `decode` is the decoding
done by `ParseUnverified` (an error text for a malformed token), and `hmac` is the HMAC of
the named method (`HS256`, `HS384`, `HS512`) for a key and a message. -/
structure JWTCodec where
  SigningString : Token → String
  attach : String → Bytes → String
  decode : String → Except String Segments
  hmac : String → Bytes → Bytes → Bytes

/-- Library `jwt.GetSigningMethod(alg)`: the methods the library registers; the HMAC
methods are values of `*jwt.SigningMethodHMAC`, all others are of other types. -/
def GetSigningMethod (alg : String) : Option SigningMethod :=
  if alg ∈ ["HS256", "HS384", "HS512"] then some (SigningMethod.HMAC alg)
  else if alg ∈ ["RS256", "RS384", "RS512", "PS256", "PS384", "PS512", "ES256", "ES384",
      "ES512", "EdDSA", "none"] then some (SigningMethod.other alg)
  else none

/-- Library `method.Sign(signingString, key)` for a `[]byte` key: an HMAC method returns the
MAC, every other method refuses the key type. -/
def SigningMethod.Sign (codec : JWTCodec) (method : SigningMethod) (signingString : String)
    (key : String) : Except String Bytes :=
  match method with
  | SigningMethod.HMAC name =>
      Except.ok (codec.hmac name (toBytes key) (toBytes signingString))
  | SigningMethod.other _ => Except.error "key is of invalid type"

/-- Library `method.Verify(signingString, sig, key)` for a `[]byte` key: an HMAC method
recomputes the MAC and compares, every other method refuses the key type. -/
def SigningMethod.Verify (codec : JWTCodec) (method : SigningMethod) (signingString : String)
    (sig : Bytes) (key : String) : Except String Unit :=
  match method with
  | SigningMethod.HMAC name =>
      if codec.hmac name (toBytes key) (toBytes signingString) = sig then Except.ok ()
      else Except.error "signature is invalid"
  | SigningMethod.other _ => Except.error "key is of invalid type"

/-- Library `token.SignedString(key)`. -/
def Token.SignedString (codec : JWTCodec) (token : Token) (key : String) :
    Except String String :=
  let sstr := codec.SigningString token
  match token.Method.Sign codec sstr key with
  | Except.error err => Except.error err
  | Except.ok sig => Except.ok (codec.attach sstr sig)

/-- Library `Validator.Validate(claims)` with the default options at the instant `now`
(nanoseconds): `exp` must be after `now`, `nbf` must not be after `now`; `iat`, audience,
issuer and subject are not checked.  The failures are joined with a comma. -/
def Validate (now : Int) (claims : JWTClaim) : Except String Unit :=
  let expired : List String :=
    match claims.Registered.ExpiresAt with
    | none => []
    | some exp => if now < exp * Second then [] else ["token is expired"]
  let notYet : List String :=
    match claims.Registered.NotBefore with
    | none => []
    | some nbf => if now < nbf * Second then ["token is not valid yet"] else []
  match expired ++ notYet with
  | [] => Except.ok ()
  | errs => Except.error (Join errs ", ")

/-- Library `jwt.ParseWithClaims(tokenString, &JWTClaim{}, keyFunc)` at the instant `now`
of the validation. -/
def ParseWithClaims (codec : JWTCodec) (now : Int) : Parser := fun tokenString keyFunc =>
  match codec.decode tokenString with
  | Except.error err => Except.error err
  | Except.ok seg =>
      match seg.alg with
      | none => Except.error "token is unverifiable: signing method (alg) is unspecified"
      | some alg =>
          match GetSigningMethod alg with
          | none =>
              Except.error "token is unverifiable: signing method (alg) is unavailable"
          | some method =>
              let token : Token :=
                { Method := method
                  alg := some alg
                  Claims := seg.claims
                  Valid := false }
              match seg.signature with
              | none => Except.error "token is malformed: could not base64 decode signature"
              | some sig =>
                  match keyFunc token with
                  | Except.error err =>
                      Except.error
                        ("token is unverifiable: error while executing keyfunc: " ++ err)
                  | Except.ok key =>
                      match method.Verify codec seg.signingInput sig key with
                      | Except.error err =>
                          Except.error ("token signature is invalid: " ++ err)
                      | Except.ok _ =>
                          match Validate now seg.claims with
                          | Except.error err =>
                              Except.error ("token has invalid claims: " ++ err)
                          | Except.ok _ => Except.ok { token with Valid := true }

/-- HMAC key block of RFC 2104 as in Go `crypto/hmac`: a key longer than the block size is
hashed, then the key is padded with zero bytes to the block size. -/
def hmacKeyBlock (H : Bytes → Bytes) (blockSize : Nat) (key : Bytes) : Bytes :=
  let k := if key.length > blockSize then H key else key
  k ++ List.replicate (blockSize - k.length) 0

/-- HMAC of RFC 2104 over the hash function `H`: the hash of the outer-padded key block
followed by the hash of the inner-padded key block and the message. -/
def HMAC (H : Bytes → Bytes) (blockSize : Nat) (key msg : Bytes) : Bytes :=
  let block := hmacKeyBlock H blockSize key
  H (block.map (fun b => b ^^^ 0x5c) ++ H (block.map (fun b => b ^^^ 0x36) ++ msg))

/-- The block size of the hash behind an HMAC method: 64 bytes for SHA-256, 128 bytes for
SHA-384 and SHA-512. -/
def hmacBlockSize (alg : String) : Nat :=
  if alg = "HS256" then 64 else 128

/-! ## pkg/utils/jwt_utils.go: GenerateJWT -/

/-- `GenerateJWT(userID, email, role, secret, expiresHours)` with the clock readings
`t1 t2 t3` of its three `time.Now()` calls. -/
def GenerateJWT (codec : JWTCodec) (userID email role secret : String) (expiresHours : Int)
    (t1 t2 t3 : Int) : Except String String :=
  let claims := GenerateJWT.claims userID email role expiresHours t1 t2 t3
  let token := NewWithClaimsHS256 claims
  token.SignedString codec secret

/-! ## Sample inputs for the token codec -/

/-- A toy hash: four lower-case letters computed from the bytes. -/
def sampleHash (b : Bytes) : Bytes :=
  let h := b.foldl (fun acc x => (acc * 31 + x) % 456976) 7
  [97 + h % 26, 97 + h / 26 % 26, 97 + h / 676 % 26, 97 + h / 17576 % 26]

/-- A toy wire format that knows one claims value: the signing string is the `alg` name
followed by `.claims`, the signature is appended as text after a dot, and decoding returns
the known claims.  The MAC is the RFC 2104 construction over `sampleHash`. -/
def sampleCodec (claims : JWTClaim) : JWTCodec :=
  { SigningString := fun token => token.alg.getD "" ++ ".claims"
    attach := fun sstr sig => sstr ++ "." ++ String.mk (sig.map Char.ofNat)
    decode := fun tokenString =>
      match Split tokenString '.' with
      | [h, c, s] =>
          if c = "claims" then
            Except.ok
              { alg := if h = "" then none else some h
                claims := claims
                signingInput := h ++ "." ++ c
                signature := some (s.data.map Char.toNat) }
          else Except.error "token is malformed: could not JSON decode claim"
      | _ => Except.error "token is malformed: token contains an invalid number of segments"
    hmac := fun alg key msg => HMAC sampleHash (hmacBlockSize alg) key msg }

deriving instance DecidableEq for Except

/-- The wire encoding round-trips on `token` signed with `sig`: decoding the signed string
gives back the `alg` header, the claims, the signing string and the signature. -/
def JWTCodec.RoundTrips (codec : JWTCodec) (token : Token) (sig : Bytes) : Prop :=
  codec.decode (codec.attach (codec.SigningString token) sig) =
    Except.ok
      { alg := token.alg
        claims := token.Claims
        signingInput := codec.SigningString token
        signature := some sig }

/-! ## The MongoDB driver: object ids -/

/-- A `primitive.ObjectID` (twelve bytes), kept as its canonical rendering: 24 lower-case
hexadecimal digits. -/
structure ObjectID where
  hex : String
  deriving DecidableEq, Repr

/-- A hexadecimal digit, in either case. -/
def isHexDigit (c : Char) : Bool :=
  c.isDigit || ('a' ≤ c && c ≤ 'f') || ('A' ≤ c && c ≤ 'F')

/-- Library `primitive.ObjectIDFromHex(s)`: `s` must be 24 hexadecimal digits. -/
def ObjectIDFromHex (s : String) : Except String ObjectID :=
  if s.data.length = 24 ∧ s.data.all isHexDigit then
    Except.ok { hex := String.mk (s.data.map Char.toLower) }
  else Except.error "the provided hex string is not a valid ObjectID"

/-- Library `id.Hex()`: the lower-case hexadecimal rendering. -/
def ObjectID.Hex (id : ObjectID) : String :=
  id.hex

/-! ## internal/models/user.go -/

/-- The struct `Address`. -/
structure Address where
  Street : String
  City : String
  State : String
  PostalCode : String
  Country : String
  deriving DecidableEq, Repr

/-- The struct `UserProfile`; the two times are instants in nanoseconds. -/
structure UserProfile where
  ID : ObjectID
  AuthID : ObjectID
  Email : String
  Username : String
  FirstName : String
  LastName : String
  PhoneNumber : String
  Address : Address
  Avatar : String
  Status : String
  CreatedAt : Int
  UpdatedAt : Int
  deriving DecidableEq, Repr

/-- The struct `UpdateProfileRequest`: every field is optional (a nil pointer is `none`). -/
structure UpdateProfileRequest where
  Username : Option String
  FirstName : Option String
  LastName : Option String
  PhoneNumber : Option String
  Address : Option Address
  deriving DecidableEq, Repr

/-- The struct `ProfileResponse`, which embeds `UserProfile`. -/
structure ProfileResponse where
  UserProfile : UserProfile
  deriving DecidableEq, Repr

/-! ## internal/handlers/user_handler.go -/

/-- The methods of `*services.UserService` that the profile handlers call, over a store of
type `σ`: `GetProfile` reads the store, `UpdateProfile` and `DeleteProfile` return their
error result and the store they leave. -/
structure UserServiceOps (σ : Type) where
  GetProfile : σ → ObjectID → Except String ProfileResponse
  UpdateProfile : σ → ObjectID → UpdateProfileRequest → Except String Unit × σ
  DeleteProfile : σ → ObjectID → Except String Unit × σ

/-- A call of a service method made by a handler, with its arguments. -/
inductive ServiceCall where
  | GetProfile (userID : ObjectID)
  | UpdateProfile (userID : ObjectID) (req : UpdateProfileRequest)
  | DeleteProfile (userID : ObjectID)
  deriving DecidableEq, Repr

/-- What a profile handler leaves behind: the response writer, the store, the service calls
it made in order, and whether it stopped in a panic (a nil pointer dereference). -/
structure HandlerResult (σ : Type) where
  w : ResponseWriter
  db : σ
  calls : List ServiceCall
  panicked : Bool
  deriving DecidableEq, Repr

/-- The struct `UserHandler`. -/
structure UserHandler (σ : Type) where
  userService : UserServiceOps σ
  jwtSecret : String

/-- The constant `http.StatusBadRequest`. -/
def StatusBadRequest : Nat := 400

/-- The constant `http.StatusNotFound`. -/
def StatusNotFound : Nat := 404

/-- The constant `http.StatusInternalServerError`. -/
def StatusInternalServerError : Nat := 500

/-- `(h *UserHandler) sendError(w, message, status)`. -/
def UserHandler.sendError {σ : Type} (_h : UserHandler σ) (w : ResponseWriter)
    (message : String) (status : Nat) : ResponseWriter :=
  let w1 := w.SetHeader "Content-Type" "application/json"
  let w2 := w1.WriteHeader status
  w2.EncodeJSON { Error := message }

/-- `(h *UserHandler) UpdateProfile(w, r)`.  `decodeBody` is the JSON decoding of the
request body into an `UpdateProfileRequest`; `claims` is the `*JWTClaim` read from the
context, whose first dereference is in the ownership comparison. -/
def UserHandler.UpdateProfile {σ : Type} (h : UserHandler σ)
    (decodeBody : String → Except String UpdateProfileRequest)
    (w : ResponseWriter) (r : Request) (db : σ) : HandlerResult σ :=
  match GetUserFromContext r.ctx with
  | Except.error err =>
      { w := h.sendError w err StatusUnauthorized, db := db, calls := [], panicked := false }
  | Except.ok claims =>
      match ObjectIDFromHex (r.Var "id") with
      | Except.error _ =>
          { w := h.sendError w "Invalid user ID" StatusBadRequest, db := db, calls := [],
            panicked := false }
      | Except.ok userID =>
          match h.userService.GetProfile db userID with
          | Except.error _ =>
              { w := h.sendError w "Profile not found" StatusNotFound, db := db,
                calls := [ServiceCall.GetProfile userID], panicked := false }
          | Except.ok profile =>
              match claims with
              | none =>
                  { w := w, db := db, calls := [ServiceCall.GetProfile userID],
                    panicked := true }
              | some claims =>
                  if profile.UserProfile.AuthID.Hex ≠ claims.UserID then
                    { w := h.sendError w "Unauthorized to modify this profile"
                        StatusForbidden,
                      db := db, calls := [ServiceCall.GetProfile userID],
                      panicked := false }
                  else
                    match decodeBody r.Body with
                    | Except.error _ =>
                        { w := h.sendError w "Invalid request body" StatusBadRequest,
                          db := db, calls := [ServiceCall.GetProfile userID],
                          panicked := false }
                    | Except.ok req =>
                        match h.userService.UpdateProfile db userID req with
                        | (Except.error err, db1) =>
                            { w := h.sendError w err StatusBadRequest, db := db1,
                              calls := [ServiceCall.GetProfile userID,
                                ServiceCall.UpdateProfile userID req],
                              panicked := false }
                        | (Except.ok _, db1) =>
                            { w := (w.SetHeader "Content-Type" "application/json").Write
                                (Chunk.message "Profile updated successfully"),
                              db := db1,
                              calls := [ServiceCall.GetProfile userID,
                                ServiceCall.UpdateProfile userID req],
                              panicked := false }

/-- `(h *UserHandler) DeleteProfile(w, r)`. -/
def UserHandler.DeleteProfile {σ : Type} (h : UserHandler σ)
    (w : ResponseWriter) (r : Request) (db : σ) : HandlerResult σ :=
  match GetUserFromContext r.ctx with
  | Except.error err =>
      { w := h.sendError w err StatusUnauthorized, db := db, calls := [], panicked := false }
  | Except.ok claims =>
      match ObjectIDFromHex (r.Var "id") with
      | Except.error _ =>
          { w := h.sendError w "Invalid user ID" StatusBadRequest, db := db, calls := [],
            panicked := false }
      | Except.ok userID =>
          match h.userService.GetProfile db userID with
          | Except.error _ =>
              { w := h.sendError w "Profile not found" StatusNotFound, db := db,
                calls := [ServiceCall.GetProfile userID], panicked := false }
          | Except.ok profile =>
              match claims with
              | none =>
                  { w := w, db := db, calls := [ServiceCall.GetProfile userID],
                    panicked := true }
              | some claims =>
                  if profile.UserProfile.AuthID.Hex ≠ claims.UserID ∧
                      claims.Role ≠ "admin" then
                    { w := h.sendError w "Unauthorized to delete this profile"
                        StatusForbidden,
                      db := db, calls := [ServiceCall.GetProfile userID],
                      panicked := false }
                  else
                    match h.userService.DeleteProfile db userID with
                    | (Except.error err, db1) =>
                        { w := h.sendError w err StatusInternalServerError, db := db1,
                          calls := [ServiceCall.GetProfile userID,
                            ServiceCall.DeleteProfile userID],
                          panicked := false }
                    | (Except.ok _, db1) =>
                        { w := (w.SetHeader "Content-Type" "application/json").Write
                            (Chunk.message "Profile deleted successfully"),
                          db := db1,
                          calls := [ServiceCall.GetProfile userID,
                            ServiceCall.DeleteProfile userID],
                          panicked := false }

/-! ## Sample inputs for the profile handlers -/

/-- A sample profile with the given id and owner. -/
def sampleProfile (id authID : String) : UserProfile :=
  { ID := { hex := id }
    AuthID := { hex := authID }
    Email := "neo@example.com"
    Username := "neo"
    FirstName := "Thomas"
    LastName := "Anderson"
    PhoneNumber := "+10000000000"
    Address :=
      { Street := "1 Main St", City := "Zion", State := "", PostalCode := "", Country := "NZ" }
    Avatar := ""
    Status := "active"
    CreatedAt := 0
    UpdatedAt := 0 }

/-- A sample service over a list of profiles: lookup by id, rename on update, mark inactive
on delete. -/
def sampleService : UserServiceOps (List UserProfile) :=
  { GetProfile := fun db id =>
      match db.find? (fun p => p.ID == id) with
      | some p => Except.ok { UserProfile := p }
      | none => Except.error "profile not found"
    UpdateProfile := fun db id req =>
      (Except.ok (), db.map (fun p =>
        if p.ID = id then { p with Username := req.Username.getD p.Username } else p))
    DeleteProfile := fun db id =>
      (Except.ok (), db.map (fun p => if p.ID = id then { p with Status := "inactive" } else p)) }

/-- A sample handler over the sample service. -/
def sampleHandler : UserHandler (List UserProfile) :=
  { userService := sampleService, jwtSecret := "s3cret" }

/-- A sample body decoder: the body `rename neo2` asks for the username `neo2`, every other
body is not valid JSON. -/
def sampleDecodeBody (body : String) : Except String UpdateProfileRequest :=
  if body = "rename neo2" then
    Except.ok
      { Username := some "neo2", FirstName := none, LastName := none, PhoneNumber := none,
        Address := none }
  else Except.error "invalid character"

/-- A sample profile request: the claims of user `userID` with role `role` in the context,
the route variable `id`, and a body. -/
def sampleProfileRequest (method userID role id body : String) : Request :=
  { Method := method
    Header := []
    ctx := SetUserContext Context.background
      (some { sampleClaims role with UserID := userID })
    Vars := [("id", id)]
    Body := body }

/-- A sample store: one profile with id `a…a` owned by the user `b…b`. -/
def sampleStore : List UserProfile :=
  [sampleProfile "aaaaaaaaaaaaaaaaaaaaaaaa" "bbbbbbbbbbbbbbbbbbbbbbbb"]

/-! ## models/user.go, repository/user_repository.go, service/user_service.go -/

/-- The struct `User` of package `models`; `Role` is a `UserRole` string and the three
times are instants in nanoseconds. -/
structure User where
  ID : ObjectID
  Email : String
  Password : String
  Name : String
  Role : String
  Phone : String
  Address : String
  CreatedAt : Int
  UpdatedAt : Int
  LastLoginAt : Int
  IsActive : Bool
  deriving DecidableEq, Repr

/-- The methods of `*repository.UserRepository` that `ValidateCredentials` calls, over a
store of type `σ`: `GetByEmail` reads the store, `UpdateLastLogin` returns its error result
and the store it leaves. -/
structure UserRepositoryOps (σ : Type) where
  GetByEmail : σ → String → Except String User
  UpdateLastLogin : σ → ObjectID → Except String Unit × σ

/-- An effect of `ValidateCredentials`: a repository call, the bcrypt comparison, or a line
written with `log.Printf`. -/
inductive Effect where
  | GetByEmail (email : String)
  | CompareHashAndPassword (hash : String) (password : String)
  | UpdateLastLogin (id : ObjectID)
  | LogPrintf (line : String)
  deriving DecidableEq, Repr

/-- What `ValidateCredentials` leaves behind: its result, the store, and its effects in
order. -/
structure CredentialsResult (σ : Type) where
  result : Except String User
  db : σ
  trace : List Effect
  deriving DecidableEq, Repr

/-- The struct `UserService` of package `service`. -/
structure service.UserService (σ : Type) where
  repo : UserRepositoryOps σ

/-- `(s *UserService) ValidateCredentials(ctx, email, password)` of package `service`.
`compare` is `bcrypt.CompareHashAndPassword` on the stored hash and the password. -/
def service.UserService.ValidateCredentials {σ : Type} (s : service.UserService σ)
    (compare : String → String → Except String Unit) (db : σ) (email password : String) :
    CredentialsResult σ :=
  match s.repo.GetByEmail db email with
  | Except.error _ =>
      { result := Except.error "invalid credentials", db := db,
        trace := [Effect.GetByEmail email] }
  | Except.ok user =>
      if !user.IsActive then
        { result := Except.error "user is not active", db := db,
          trace := [Effect.GetByEmail email] }
      else
        match compare user.Password password with
        | Except.error _ =>
            { result := Except.error "invalid credentials", db := db,
              trace := [Effect.GetByEmail email,
                Effect.CompareHashAndPassword user.Password password] }
        | Except.ok _ =>
            match s.repo.UpdateLastLogin db user.ID with
            | (Except.error err, db1) =>
                { result := Except.ok user, db := db1,
                  trace := [Effect.GetByEmail email,
                    Effect.CompareHashAndPassword user.Password password,
                    Effect.UpdateLastLogin user.ID,
                    Effect.LogPrintf ("Failed to update last login: " ++ err)] }
            | (Except.ok _, db1) =>
                { result := Except.ok user, db := db1,
                  trace := [Effect.GetByEmail email,
                    Effect.CompareHashAndPassword user.Password password,
                    Effect.UpdateLastLogin user.ID] }

/-! ## Sample inputs for the credential check -/

/-- A sample user with the given email, stored hash and activity flag. -/
def sampleUser (email hash : String) (active : Bool) : User :=
  { ID := { hex := "dddddddddddddddddddddddd" }
    Email := email
    Password := hash
    Name := "Trinity"
    Role := "USER"
    Phone := ""
    Address := ""
    CreatedAt := 0
    UpdatedAt := 0
    LastLoginAt := 0
    IsActive := active }

/-- A sample repository over a list of users; with `down = true` the last-login update
fails and leaves the store as it is, otherwise it stamps the user. -/
def sampleRepository (down : Bool) : UserRepositoryOps (List User) :=
  { GetByEmail := fun db email =>
      match db.find? (fun u => u.Email == email) with
      | some u => Except.ok u
      | none => Except.error "user not found"
    UpdateLastLogin := fun db id =>
      if down then (Except.error "connection lost", db)
      else (Except.ok (), db.map (fun u => if u.ID = id then { u with LastLoginAt := 1 } else u)) }

/-- A sample password comparison: the stored hash of a password is `hash:` followed by the
password. -/
def sampleCompare (hash password : String) : Except String Unit :=
  if hash = "hash:" ++ password then Except.ok ()
  else Except.error "hashedPassword is not the hash of the given password"

/-! ## Go standard library: len, unicode.IsSpace, strings.TrimSpace -/

/-- Go `len(s)` of a string: its number of bytes. -/
def len (s : String) : Nat :=
  (toBytes s).length

/-- Go `utf8.RuneCountInString(s)`: the number of characters. -/
def RuneCountInString (s : String) : Nat :=
  s.data.length

/-- Go `unicode.IsSpace(c)`: tab, line feed, vertical tab, form feed, carriage return,
space, U+0085, U+00A0 and the further characters with the White_Space property. -/
def isSpace (c : Char) : Bool :=
  (0x09 ≤ c.toNat && c.toNat ≤ 0x0D) || c.toNat = 0x20 || c.toNat = 0x85 ||
    c.toNat = 0xA0 || c.toNat = 0x1680 || (0x2000 ≤ c.toNat && c.toNat ≤ 0x200A) ||
    c.toNat = 0x2028 || c.toNat = 0x2029 || c.toNat = 0x202F || c.toNat = 0x205F ||
    c.toNat = 0x3000

/-- Go `strings.TrimSpace(s)`: `s` without its leading and trailing white space. -/
def TrimSpace (s : String) : String :=
  String.mk ((s.data.dropWhile isSpace).reverse.dropWhile isSpace).reverse

/-! ## The regular expressions of the validators

Each pattern of the source is anchored at both ends (Go's `$` matches at the end of the
text only), so a match is a condition on the whole string. -/

/-- A character of the class `[a-zA-Z0-9_-]`. -/
def isUsernameChar (c : Char) : Bool :=
  c.isAlpha || c.isDigit || c = '_' || c = '-'

/-- The match of `^[a-zA-Z0-9_-]+$`. -/
def matchUsername (s : String) : Bool :=
  !s.data.isEmpty && s.data.all isUsernameChar

/-- A character of the class `[a-zA-Z\s-]`; `\s` is tab, line feed, form feed, carriage
return or space. -/
def isNameChar (c : Char) : Bool :=
  c.isAlpha || c = '\t' || c = '\n' || c.toNat = 0x0C || c = '\r' || c = ' ' || c = '-'

/-- The match of `^[a-zA-Z\s-]+$`. -/
def matchName (s : String) : Bool :=
  !s.data.isEmpty && s.data.all isNameChar

/-- The match of `^\+?[0-9]{10,15}$`: an optional plus sign, then ten to fifteen digits. -/
def matchPhoneNumber (s : String) : Bool :=
  let digits := match s.data with
    | '+' :: rest => rest
    | l => l
  decide (10 ≤ digits.length) && decide (digits.length ≤ 15) && digits.all Char.isDigit

/-- The match of `[0-9]` anywhere in the string. -/
def matchDigit (s : String) : Bool :=
  s.data.any Char.isDigit

/-- The match of `[A-Za-z]` anywhere in the string. -/
def matchLetter (s : String) : Bool :=
  s.data.any Char.isAlpha

/-! ## pkg/utils/validator.go -/

/-- `ValidatePassword(password)` of package `utils`. -/
def ValidatePassword (password : String) : Except String Unit :=
  if len password < 8 then Except.error "password must be at least 8 characters"
  else
    let hasNumber := matchDigit password
    let hasLetter := matchLetter password
    if !hasNumber || !hasLetter then
      Except.error "password must contain both letters and numbers"
    else Except.ok ()

/-- `ValidateUsername(username)` of package `utils`; the pattern compiles, so the branch
for a pattern error is never taken. -/
def ValidateUsername (username : String) : Except String Unit :=
  let length := RuneCountInString username
  if length < 3 ∨ length > 30 then
    Except.error "username must be between 3 and 30 characters"
  else if !matchUsername username then
    Except.error "username can only contain letters, numbers, underscores, and hyphens"
  else Except.ok ()

/-! ## internal/services/user_service.go: the validation helpers -/

/-- `validateUsername(username)` of package `services`. -/
def validateUsername (username : String) : Except String Unit :=
  let username := TrimSpace username
  if len username < 3 ∨ len username > 30 then
    Except.error "username must be between 3 and 30 characters"
  else if !matchUsername username then
    Except.error "username can only contain letters, numbers, underscores, and hyphens"
  else Except.ok ()

/-- `validateName(name)` of package `services`. -/
def validateName (name : String) : Except String Unit :=
  let name := TrimSpace name
  if len name < 1 ∨ len name > 50 then
    Except.error "name must be between 1 and 50 characters"
  else if !matchName name then
    Except.error "name can only contain letters, spaces, and hyphens"
  else Except.ok ()

/-- `validatePhoneNumber(phone)` of package `services`. -/
def validatePhoneNumber (phone : String) : Except String Unit :=
  let phone := TrimSpace phone
  if !matchPhoneNumber phone then Except.error "invalid phone number format"
  else Except.ok ()

/-- `validateAddress(addr)` of package `services`; `none` is the nil pointer. -/
def validateAddress (addr : Option Address) : Except String Unit :=
  match addr with
  | none => Except.error "address is required"
  | some addr =>
      if TrimSpace addr.Street = "" then Except.error "street is required"
      else if TrimSpace addr.City = "" then Except.error "city is required"
      else if TrimSpace addr.Country = "" then Except.error "country is required"
      else Except.ok ()

/-! ## internal/repository/mongodb and internal/services/user_service.go -/

/-- A value of the update document `bson.M`: a string or an address. -/
inductive UpdateValue where
  | str (s : String)
  | address (a : Address)
  deriving DecidableEq, Repr

/-- The update document `bson.M` that the service hands to the repository: its keys with
their values, in the order the service sets them. -/
abbrev UpdateSet := List (String × UpdateValue)

/-- The methods of `*mongodb.UserRepository` that the profile service calls, over a store
of type `σ`: the two lookups read the store (`none` is the nil profile of a missing
document), `UpdateProfile` and `DeleteProfile` return their error result and the store they
leave. -/
structure mongodb.UserRepositoryOps (σ : Type) where
  GetProfileByID : σ → ObjectID → Except String (Option UserProfile)
  GetProfileByUsername : σ → String → Except String (Option UserProfile)
  UpdateProfile : σ → ObjectID → UpdateSet → Except String Unit × σ
  DeleteProfile : σ → ObjectID → Except String Unit × σ

/-- A call of a repository method made by the profile service, with its arguments. -/
inductive RepoCall where
  | GetProfileByID (id : ObjectID)
  | GetProfileByUsername (username : String)
  | UpdateProfile (id : ObjectID) (update : UpdateSet)
  | DeleteProfile (id : ObjectID)
  deriving DecidableEq, Repr

/-- What a method of the profile service leaves behind: its error result, the store, and
the repository calls it made in order. -/
structure ServiceResult (σ : Type) where
  result : Except String Unit
  db : σ
  calls : List RepoCall
  deriving DecidableEq, Repr

/-- The struct `UserService` of package `services`. -/
structure services.UserService (σ : Type) where
  repo : mongodb.UserRepositoryOps σ

/-- The block `if req.Username != nil` of `UpdateProfile`: validation, the duplicate check
through the repository, and the entry `username` of the update document.  Returns the
error or the document, and the repository calls made. -/
def services.UserService.usernameBlock {σ : Type} (s : services.UserService σ) (db : σ)
    (userID : ObjectID) (req : UpdateProfileRequest) (update : UpdateSet) :
    Except String UpdateSet × List RepoCall :=
  match req.Username with
  | none => (Except.ok update, [])
  | some username =>
      match validateUsername username with
      | Except.error err => (Except.error err, [])
      | Except.ok _ =>
          match s.repo.GetProfileByUsername db username with
          | Except.error err => (Except.error err, [RepoCall.GetProfileByUsername username])
          | Except.ok existingProfile =>
              match existingProfile with
              | some existing =>
                  if existing.ID ≠ userID then
                    (Except.error "username already exists",
                      [RepoCall.GetProfileByUsername username])
                  else
                    (Except.ok (update ++ [("username", UpdateValue.str username)]),
                      [RepoCall.GetProfileByUsername username])
              | none =>
                  (Except.ok (update ++ [("username", UpdateValue.str username)]),
                    [RepoCall.GetProfileByUsername username])

/-- The blocks `if req.FirstName != nil`, `if req.LastName != nil`,
`if req.PhoneNumber != nil` and `if req.Address != nil` of `UpdateProfile`, in this order:
each validates its field and adds its entry to the update document. -/
def services.UserService.fieldBlocks (req : UpdateProfileRequest) (update : UpdateSet) :
    Except String UpdateSet :=
  let afterFirst : Except String UpdateSet :=
    match req.FirstName with
    | none => Except.ok update
    | some v =>
        match validateName v with
        | Except.error err => Except.error err
        | Except.ok _ => Except.ok (update ++ [("first_name", UpdateValue.str v)])
  match afterFirst with
  | Except.error err => Except.error err
  | Except.ok update1 =>
      let afterLast : Except String UpdateSet :=
        match req.LastName with
        | none => Except.ok update1
        | some v =>
            match validateName v with
            | Except.error err => Except.error err
            | Except.ok _ => Except.ok (update1 ++ [("last_name", UpdateValue.str v)])
      match afterLast with
      | Except.error err => Except.error err
      | Except.ok update2 =>
          let afterPhone : Except String UpdateSet :=
            match req.PhoneNumber with
            | none => Except.ok update2
            | some v =>
                match validatePhoneNumber v with
                | Except.error err => Except.error err
                | Except.ok _ => Except.ok (update2 ++ [("phone_number", UpdateValue.str v)])
          match afterPhone with
          | Except.error err => Except.error err
          | Except.ok update3 =>
              match req.Address with
              | none => Except.ok update3
              | some a =>
                  match validateAddress (some a) with
                  | Except.error err => Except.error err
                  | Except.ok _ => Except.ok (update3 ++ [("address", UpdateValue.address a)])

/-- `(s *UserService) UpdateProfile(ctx, userID, req)` of package `services`. -/
def services.UserService.UpdateProfile {σ : Type} (s : services.UserService σ) (db : σ)
    (userID : ObjectID) (req : UpdateProfileRequest) : ServiceResult σ :=
  match s.repo.GetProfileByID db userID with
  | Except.error err =>
      { result := Except.error err, db := db, calls := [RepoCall.GetProfileByID userID] }
  | Except.ok none =>
      { result := Except.error "profile not found", db := db,
        calls := [RepoCall.GetProfileByID userID] }
  | Except.ok (some _) =>
      match s.usernameBlock db userID req [] with
      | (Except.error err, calls1) =>
          { result := Except.error err, db := db,
            calls := RepoCall.GetProfileByID userID :: calls1 }
      | (Except.ok update1, calls1) =>
          match services.UserService.fieldBlocks req update1 with
          | Except.error err =>
              { result := Except.error err, db := db,
                calls := RepoCall.GetProfileByID userID :: calls1 }
          | Except.ok update =>
              if update.length = 0 then
                { result := Except.ok (), db := db,
                  calls := RepoCall.GetProfileByID userID :: calls1 }
              else
                { result := (s.repo.UpdateProfile db userID update).1
                  db := (s.repo.UpdateProfile db userID update).2
                  calls := RepoCall.GetProfileByID userID ::
                    (calls1 ++ [RepoCall.UpdateProfile userID update]) }

/-- `(s *UserService) GetProfile(ctx, userID)` of package `services`. -/
def services.UserService.GetProfile {σ : Type} (s : services.UserService σ) (db : σ)
    (userID : ObjectID) : Except String ProfileResponse :=
  match s.repo.GetProfileByID db userID with
  | Except.error err => Except.error err
  | Except.ok none => Except.error "profile not found"
  | Except.ok (some profile) => Except.ok { UserProfile := profile }

/-- `(s *UserService) DeleteProfile(ctx, userID)` of package `services`. -/
def services.UserService.DeleteProfile {σ : Type} (s : services.UserService σ) (db : σ)
    (userID : ObjectID) : Except String Unit × σ :=
  s.repo.DeleteProfile db userID

/-- The profile service as the handlers call it. -/
def services.UserService.ops {σ : Type} (s : services.UserService σ) : UserServiceOps σ :=
  { GetProfile := s.GetProfile
    UpdateProfile := fun db userID req =>
      ((s.UpdateProfile db userID req).result, (s.UpdateProfile db userID req).db)
    DeleteProfile := s.DeleteProfile }

/-! ## service/user_service.go and repository/user_repository.go: listing -/

/-- The options `options.Find()` that the repository's `List` builds. -/
structure FindOptions where
  Skip : Int
  Limit : Int
  SortKeys : List (String × Int)
  deriving DecidableEq, Repr

/-- The options of `(r *UserRepository) List(ctx, page, limit)` of package `repository`:
the skip offset `(page - 1) * limit` is an int64 expression. -/
def repository.UserRepository.listOptions (page limit : Int) : FindOptions :=
  { Skip := wrapInt64 (wrapInt64 (page - 1) * limit)
    Limit := limit
    SortKeys := [("created_at", -1)] }

/-- `(r *UserRepository) List(ctx, page, limit)` of package `repository`; `find` is the
query of the collection with the options. -/
def repository.UserRepository.List {α : Type} (find : FindOptions → α) (page limit : Int) :
    α :=
  find (repository.UserRepository.listOptions page limit)

/-- `(s *UserService) ListUsers(ctx, page, limit)` of package `service`; `list` is the
repository's `List`. -/
def service.UserService.ListUsers {α : Type} (list : Int → Int → α) (page limit : Int) :
    α :=
  let page1 := if page < 1 then 1 else page
  let limit1 := if limit < 1 ∨ limit > 100 then 10 else limit
  list page1 limit1

/-! ## Specification vocabulary for the profile update -/

/-- The entries of the supplied fields of a request with the supplied values, in the order
username, first_name, last_name, phone_number, address. -/
def suppliedUpdate (req : UpdateProfileRequest) : UpdateSet :=
  (match req.Username with
    | some v => [("username", UpdateValue.str v)]
    | none => []) ++
  (match req.FirstName with
    | some v => [("first_name", UpdateValue.str v)]
    | none => []) ++
  (match req.LastName with
    | some v => [("last_name", UpdateValue.str v)]
    | none => []) ++
  (match req.PhoneNumber with
    | some v => [("phone_number", UpdateValue.str v)]
    | none => []) ++
  (match req.Address with
    | some a => [("address", UpdateValue.address a)]
    | none => [])

/-- A supplied username passes its validator and the lookup by username finds no profile
or the profile being updated. -/
def UsernameAccepted {σ : Type} (s : services.UserService σ) (db : σ) (userID : ObjectID)
    (req : UpdateProfileRequest) : Prop :=
  ∀ u : String, req.Username = some u →
    validateUsername u = Except.ok () ∧
    (s.repo.GetProfileByUsername db u = Except.ok none ∨
      ∃ p : UserProfile, s.repo.GetProfileByUsername db u = Except.ok (some p) ∧ p.ID = userID)

/-- Every supplied field other than the username passes its validator. -/
def FieldsValid (req : UpdateProfileRequest) : Prop :=
  (∀ v : String, req.FirstName = some v → validateName v = Except.ok ()) ∧
  (∀ v : String, req.LastName = some v → validateName v = Except.ok ()) ∧
  (∀ v : String, req.PhoneNumber = some v → validatePhoneNumber v = Except.ok ()) ∧
  (∀ a : Address, req.Address = some a → validateAddress (some a) = Except.ok ())

/-- At least one field of the request is supplied. -/
def SomeFieldSupplied (req : UpdateProfileRequest) : Prop :=
  req.Username ≠ none ∨ req.FirstName ≠ none ∨ req.LastName ≠ none ∨
    req.PhoneNumber ≠ none ∨ req.Address ≠ none

/-! ## Sample inputs for the profile service -/

/-- A sample repository over a list of profiles; an update renames the profile when the
document has a username entry. -/
def sampleProfileRepository : mongodb.UserRepositoryOps (List UserProfile) :=
  { GetProfileByID := fun db id => Except.ok (db.find? (fun p => p.ID == id))
    GetProfileByUsername := fun db name => Except.ok (db.find? (fun p => p.Username == name))
    UpdateProfile := fun db id update =>
      (Except.ok (), db.map (fun p =>
        if p.ID = id then
          match update.find? (fun e => e.1 == "username") with
          | some (_, UpdateValue.str v) => { p with Username := v }
          | _ => p
        else p))
    DeleteProfile := fun db id =>
      (Except.ok (), db.map (fun p => if p.ID = id then { p with Status := "inactive" } else p)) }

/-- A sample request that supplies only the given username. -/
def renameRequest (username : String) : UpdateProfileRequest :=
  { Username := some username, FirstName := none, LastName := none, PhoneNumber := none,
    Address := none }

/-- The username lookup the service makes for a request: one repository call when a
username is supplied (and passes its validator), none otherwise. -/
def usernameLookups (req : UpdateProfileRequest) : List RepoCall :=
  match req.Username with
  | some u => [RepoCall.GetProfileByUsername u]
  | none => []

/-- A sample repository like `sampleProfileRepository` whose lookup by username fails, as
`FindOne` does on a lost connection or an expired context. -/
def failingLookupRepository : mongodb.UserRepositoryOps (List UserProfile) :=
  { GetProfileByID := sampleProfileRepository.GetProfileByID
    GetProfileByUsername := fun _ _ => Except.error "context deadline exceeded"
    UpdateProfile := sampleProfileRepository.UpdateProfile
    DeleteProfile := sampleProfileRepository.DeleteProfile }

/-- A profile of the store other than `userID` holds the username `u`. -/
def HeldByOther (db : List UserProfile) (userID : ObjectID) (u : String) : Prop :=
  ∃ p ∈ db, p.Username = u ∧ p.ID ≠ userID

instance (db : List UserProfile) (userID : ObjectID) (u : String) :
    Decidable (HeldByOther db userID u) := by
  unfold HeldByOther
  exact inferInstance


/-! ## A sample wire format that carries the claims -/

/-- The decimal text of an optional numeric date; the empty text when it is absent. -/
def wireDate : Option Int → String
  | none => ""
  | some n => toString n

/-- The number written by a list of decimal digits; `none` for the empty list and for a
list with another character. -/
def parseDigits (cs : List Char) : Option Nat :=
  if cs = [] then none
  else
    cs.foldl
      (fun acc c =>
        match acc with
        | none => none
        | some n => if c.isDigit then some (n * 10 + (c.toNat - 48)) else none)
      (some 0)

/-- The optional numeric date written by a text: absent for the empty text, otherwise a
decimal number with an optional minus sign; `none` when the text is neither. -/
def parseWireDate (s : String) : Option (Option Int) :=
  match s.data with
  | [] => some none
  | '-' :: cs => (parseDigits cs).map (fun n => some (-(n : Int)))
  | cs => (parseDigits cs).map (fun n => some (n : Int))

/-- The claims text of the sample wire format: user id, email, role and the three numeric
dates `exp`, `nbf`, `iat`, separated by commas. -/
def wirePayload (claims : JWTClaim) : String :=
  Join [claims.UserID, claims.Email, claims.Role, wireDate claims.Registered.ExpiresAt,
    wireDate claims.Registered.NotBefore, wireDate claims.Registered.IssuedAt] ","

/-- The claims written by a claims text of the sample wire format. -/
def parseWirePayload (payload : String) : Option JWTClaim :=
  match Split payload ',' with
  | [userID, email, role, exp, nbf, iat] =>
      match parseWireDate exp, parseWireDate nbf, parseWireDate iat with
      | some e, some n, some i =>
          some
            { UserID := userID
              Email := email
              Role := role
              Registered :=
                { Issuer := ""
                  Subject := ""
                  Audience := []
                  ExpiresAt := e
                  NotBefore := n
                  IssuedAt := i
                  ID := "" } }
      | _, _, _ => none
  | _ => none

/-- A toy wire format that writes the claims into the token: the signing string is the
`alg` name, a dot, and the claims text; the signature is appended as text after a dot.
Decoding takes the text before the first dot as the header, the text after the last dot as
the signature, and parses the claims out of the text in between, so it gives back claims
whose text fields hold no comma and whose issuer, subject, audience and id are empty.  The
MAC is the RFC 2104 construction over `sampleHash`. -/
def wireCodec : JWTCodec :=
  { SigningString := fun token => token.alg.getD "" ++ "." ++ wirePayload token.Claims
    attach := fun sstr sig => sstr ++ "." ++ String.mk (sig.map Char.ofNat)
    decode := fun tokenString =>
      match Split tokenString '.' with
      | h :: p :: q :: rest =>
          let payload := Join (p :: q :: rest).dropLast "."
          match parseWirePayload payload with
          | some claims =>
              Except.ok
                { alg := if h = "" then none else some h
                  claims := claims
                  signingInput := h ++ "." ++ payload
                  signature := some (((q :: rest).getLastD "").data.map Char.toNat) }
          | none => Except.error "token is malformed: could not JSON decode claim"
      | _ => Except.error "token is malformed: token contains an invalid number of segments"
    hmac := fun alg key msg => HMAC sampleHash (hmacBlockSize alg) key msg }

/-! ## Lemmas on the string functions -/

theorem splitOn_piece_free (sep : Char) (l : List Char) :
    ∀ piece ∈ l.splitOn sep, sep ∉ piece := by
  induction l with
  | nil =>
      intro piece hp
      simp [List.splitOn, List.splitOnP_nil] at hp
      simp [hp]
  | cons c cs ih =>
      intro piece hp
      rw [List.splitOn, List.splitOnP_cons] at hp
      by_cases hc : (c == sep) = true
      · rw [if_pos hc] at hp
        rcases List.mem_cons.mp hp with h | h
        · simp [h]
        · exact ih piece h
      · rw [if_neg hc] at hp
        have hne : List.splitOnP (fun x => x == sep) cs ≠ [] := List.splitOnP_ne_nil _ _
        cases hs : List.splitOnP (fun x => x == sep) cs with
        | nil => exact absurd hs hne
        | cons p ps =>
            rw [hs] at hp
            simp only [List.modifyHead_cons, List.mem_cons] at hp
            have ihp : ∀ q ∈ p :: ps, sep ∉ q := by
              intro q hq
              apply ih q
              rw [List.splitOn, hs]
              exact hq
            rcases hp with h | h
            · subst h
              intro hmem
              rcases List.mem_cons.mp hmem with h1 | h1
              · exact hc (by simp [h1])
              · exact ihp p (List.mem_cons_self _ _) h1
            · exact ihp piece (List.mem_cons_of_mem _ h)

theorem splitOn_eq_pair (sep : Char) (l a b : List Char) :
    l.splitOn sep = [a, b] ↔ l = a ++ sep :: b ∧ sep ∉ a ∧ sep ∉ b := by
  constructor
  · intro h
    have hj := List.intercalate_splitOn l sep
    rw [h] at hj
    have hfree := splitOn_piece_free sep l
    rw [h] at hfree
    refine ⟨?_, hfree a (by simp), hfree b (by simp)⟩
    rw [← hj]
    simp [List.intercalate, List.intersperse]
  · rintro ⟨hl, ha, hb⟩
    have hj := List.splitOn_intercalate [a, b] sep
      (by intro p hp; simp at hp; rcases hp with h | h <;> simp [h, ha, hb]) (by simp)
    have : [sep].intercalate [a, b] = l := by
      rw [hl]
      simp [List.intercalate, List.intersperse]
    rw [this] at hj
    exact hj

theorem bearer_data (t : String) :
    ("Bearer " ++ t).data = "Bearer".data ++ ' ' :: t.data := by
  rw [String.data_append]
  rfl

theorem extractToken_of_bearer (r : Request) (t : String)
    (hh : r.Header.Get "Authorization" = "Bearer " ++ t) (hs : ' ' ∉ t.data) :
    extractToken r = t := by
  have hsplit : (r.Header.Get "Authorization").data.splitOn ' ' = ["Bearer".data, t.data] := by
    rw [splitOn_eq_pair]
    refine ⟨?_, by decide, hs⟩
    rw [hh, bearer_data]
  simp [extractToken, Split, hsplit]

theorem extractToken_ne_empty (r : Request) (t : String)
    (he : extractToken r = t) (hne : t ≠ "") :
    r.Header.Get "Authorization" = "Bearer " ++ t ∧ ' ' ∉ t.data := by
  unfold extractToken Split at he
  simp only at he
  cases hsplit : (r.Header.Get "Authorization").data.splitOn ' ' with
  | nil => rw [hsplit] at he; exact absurd he.symm hne
  | cons a rest =>
    cases rest with
    | nil => rw [hsplit] at he; exact absurd he.symm hne
    | cons b rest2 =>
      cases rest2 with
      | cons c rest3 => rw [hsplit] at he; exact absurd he.symm hne
      | nil =>
        rw [hsplit] at he
        simp only [List.map_cons, List.map_nil] at he
        by_cases hb : String.mk a = "Bearer"
        · rw [if_pos hb] at he
          obtain ⟨hl, -, hfree⟩ := (splitOn_eq_pair ' ' _ a b).mp hsplit
          have ha : a = "Bearer".data := by rw [← hb]
          have htb : t.data = b := by rw [← he]
          refine ⟨?_, by rw [htb]; exact hfree⟩
          apply String.ext
          rw [bearer_data, hl, ha, htb]
        · rw [if_neg hb] at he
          exact absurd he.symm hne

/-- Header forms that are not `Bearer <token>`: a missing header, a lower-case scheme, two
spaces, a third segment, an empty token, a bare scheme. -/
theorem extractToken_rejected_forms :
    extractToken (sampleRequest "GET" [] []) = "" ∧
    extractToken (sampleRequest "GET" ["bearer abc"] []) = "" ∧
    extractToken (sampleRequest "GET" ["Bearer  abc"] []) = "" ∧
    extractToken (sampleRequest "GET" ["Bearer abc def"] []) = "" ∧
    extractToken (sampleRequest "GET" ["Bearer "] []) = "" ∧
    extractToken (sampleRequest "GET" ["Bearer"] []) = "" ∧
    extractToken (sampleRequest "GET" ["Bearer abc"] []) = "abc" := by
  decide

/-! ## C4: token extraction -/

/-- C4: `extractToken` returns a non-empty token `t` exactly when the Authorization header
value is `Bearer`, one space and `t`, with `t` non-empty and free of spaces; on every other
header value it returns the empty string and `GetJWTClaims` fails with `no token found`,
whatever the parser is (the verifier is not consulted). -/
theorem extractToken_bearer_form (r : Request) :
    (∀ t : String, (extractToken r = t ∧ t ≠ "") ↔
        (r.Header.Get "Authorization" = "Bearer " ++ t ∧ t ≠ "" ∧ ' ' ∉ t.data)) ∧
    ((¬ ∃ t : String, t ≠ "" ∧ ' ' ∉ t.data ∧
          r.Header.Get "Authorization" = "Bearer " ++ t) →
        extractToken r = "" ∧
        ∀ (parse : Parser) (secret : String),
          GetJWTClaims parse r secret = Except.error "no token found") := by
  refine ⟨?_, ?_⟩
  · intro t
    constructor
    · rintro ⟨he, hne⟩
      obtain ⟨h1, h2⟩ := extractToken_ne_empty r t he hne
      exact ⟨h1, hne, h2⟩
    · rintro ⟨hh, hne, hs⟩
      exact ⟨extractToken_of_bearer r t hh hs, hne⟩
  · intro hno
    have hempty : extractToken r = "" := by
      by_contra hne
      obtain ⟨h1, h2⟩ := extractToken_ne_empty r (extractToken r) rfl hne
      exact hno ⟨extractToken r, hne, h2, h1⟩
    refine ⟨hempty, ?_⟩
    intro parse secret
    simp [GetJWTClaims, hempty]

/-- C4 at a concrete request: the header `Bearer tok-admin` yields the token `tok-admin`. -/
theorem extractToken_bearer_form_witness :
    extractToken (sampleRequest "GET" ["Bearer tok-admin"] []) = "tok-admin" ∧
      ("tok-admin" : String) ≠ "" :=
  ((extractToken_bearer_form (sampleRequest "GET" ["Bearer tok-admin"] [])).1
    "tok-admin").mpr ⟨by decide, by decide, by decide⟩

/-! ## C5: claims in the request context -/

theorem Value_of_derivedWithout (key : Key) (ctx ctx1 : Context)
    (h : DerivedWithout key ctx ctx1) : ctx1.Value key = ctx.Value key := by
  induction h with
  | same => rfl
  | value c k v _ hk ih => simp [Context.Value, hk, ih]
  | plain c _ ih => simp [Context.Value, ih]

theorem Value_of_not_installsClaims (ctx : Context) (h : ctx.installsClaims = false)
    (p : Option JWTClaim) : ctx.Value userClaimsKey ≠ Any.jwtClaim p := by
  induction ctx with
  | background => simp [Context.Value]
  | withValue parent k v ih =>
      simp only [Context.installsClaims, Bool.or_eq_false_iff, Bool.and_eq_false_iff] at h
      obtain ⟨hkv, hparent⟩ := h
      by_cases hk : k = userClaimsKey
      · simp only [Context.Value, hk, if_true]
        rcases hkv with h1 | h1
        · simp [hk] at h1
        · cases v <;> simp at h1 ⊢
      · simp only [Context.Value, hk, if_false]
        exact ih hparent
  | derived parent ih =>
      simp only [Context.Value]
      exact ih (by simpa [Context.installsClaims] using h)

/-- C5: reading the claims back from `SetUserContext ctx C` returns exactly `C` without
error, also from every context derived from it in steps that store nothing under the claims
key; and on a context none of whose ancestors was produced by `SetUserContext` the lookup
fails with `user claims not found in context` and returns no claims. -/
theorem context_claims_roundtrip (ctx : Context) (C : Option JWTClaim) :
    GetUserFromContext (SetUserContext ctx C) = Except.ok C ∧
    (∀ ctx1 : Context, DerivedWithout userClaimsKey (SetUserContext ctx C) ctx1 →
        GetUserFromContext ctx1 = Except.ok C) ∧
    (ctx.installsClaims = false →
        GetUserFromContext ctx = Except.error "user claims not found in context") := by
  have h0 : (SetUserContext ctx C).Value userClaimsKey = Any.jwtClaim C := by
    simp [SetUserContext, Context.Value]
  refine ⟨?_, ?_, ?_⟩
  · simp [GetUserFromContext, h0]
  · intro ctx1 hd
    have h1 := Value_of_derivedWithout userClaimsKey _ ctx1 hd
    simp [GetUserFromContext, h1, h0]
  · intro hno
    have h2 := Value_of_not_installsClaims ctx hno
    unfold GetUserFromContext
    cases hv : ctx.Value userClaimsKey with
    | nil => rfl
    | jwtClaim p => exact absurd hv (h2 p)
    | foreign typ repr => rfl

/-- C5 at concrete contexts: the claims survive a foreign value and a cancellation layer,
and the background context holds none. -/
theorem context_claims_roundtrip_witness :
    GetUserFromContext
        (Context.derived
          (Context.withValue (SetUserContext Context.background (some (sampleClaims "user")))
            (Key.foreign "string" "request-id") (Any.foreign "string" "r-17"))) =
      Except.ok (some (sampleClaims "user")) ∧
    GetUserFromContext Context.background =
      Except.error "user claims not found in context" :=
  ⟨(context_claims_roundtrip Context.background (some (sampleClaims "user"))).2.1 _
      (DerivedWithout.plain _ (DerivedWithout.value _ _ _ DerivedWithout.same (by decide))),
    (context_claims_roundtrip Context.background none).2.2 (by decide)⟩

/-! ## The JWT middleware -/

theorem WriteHeader_of_none (w : ResponseWriter) (code : Nat) (hw : w.status = none) :
    w.WriteHeader code = { w with status := some code } := by
  simp [ResponseWriter.WriteHeader, hw]

theorem error_reply_of_none (w : ResponseWriter) (code : Nat) (msg : String)
    (hw : w.status = none) :
    ((w.SetHeader "Content-Type" "application/json").WriteHeader code).EncodeJSON
        { Error := msg } =
      { header := w.header.Set "Content-Type" "application/json"
        status := some code
        body := w.body ++ [Chunk.json { Error := msg }] } := by
  simp [ResponseWriter.EncodeJSON, ResponseWriter.Write, ResponseWriter.WriteHeader,
    ResponseWriter.SetHeader, hw]

theorem not_invokesNext_of_const (mw : Handler → Handler) (w : ResponseWriter) (r : Request)
    (w1 : ResponseWriter) (h : ∀ next : Handler, mw next w r = w1) :
    ¬ InvokesNext mw w r := by
  rintro ⟨w2, r2, hinv⟩
  have h1 := hinv (fun _ _ => { w1 with body := Chunk.bytes "" :: w1.body })
  rw [h] at h1
  have h2 := congrArg (fun x => x.body.length) h1
  simp at h2

theorem GetJWTClaims_error_iff (parse : Parser) (r : Request) (secret cause : String) :
    GetJWTClaims parse r secret = Except.error cause ↔
      (extractToken r = "" ∧ cause = "no token found") ∨
      (extractToken r ≠ "" ∧
        ValidateJWT parse (extractToken r) secret = Except.error cause) := by
  unfold GetJWTClaims
  by_cases he : extractToken r = ""
  · simp [he, eq_comm]
  · simp [he]

theorem GetJWTClaims_ok_iff (parse : Parser) (r : Request) (secret : String) (C : JWTClaim) :
    GetJWTClaims parse r secret = Except.ok C ↔
      (extractToken r ≠ "" ∧ ValidateJWT parse (extractToken r) secret = Except.ok C) := by
  unfold GetJWTClaims
  by_cases he : extractToken r = ""
  · simp [he]
  · simp [he]

/-! ## C2: the 401 reply of ValidateJWT -/

/-- C2: when token extraction fails (cause `no token found`) or the codec `ValidateJWT`
returns an error with text `cause`, the `ValidateJWT` middleware replies on a writer on
which nothing was written with status 401 and the JSON body whose error field is
`unauthorized: ` followed by `cause`; the outcome does not depend on the wrapped handler,
which is not invoked. -/
theorem ValidateJWT_unauthorized (parse : Parser) (m : JWTMiddleware) (w : ResponseWriter)
    (r : Request) (cause : String) (hw : w.status = none)
    (hfail : (extractToken r = "" ∧ cause = "no token found") ∨
      (extractToken r ≠ "" ∧
        ValidateJWT parse (extractToken r) m.jwtSecret = Except.error cause)) :
    (∀ next : Handler, m.ValidateJWT parse next w r =
      { header := w.header.Set "Content-Type" "application/json"
        status := some 401
        body := w.body ++ [Chunk.json { Error := "unauthorized: " ++ cause }] }) ∧
    ¬ InvokesNext (m.ValidateJWT parse) w r := by
  have herr := (GetJWTClaims_error_iff parse r m.jwtSecret cause).mpr hfail
  have hall : ∀ next : Handler, m.ValidateJWT parse next w r =
      { header := w.header.Set "Content-Type" "application/json"
        status := some 401
        body := w.body ++ [Chunk.json { Error := "unauthorized: " ++ cause }] } := by
    intro next
    simp only [JWTMiddleware.ValidateJWT, herr, StatusUnauthorized]
    exact error_reply_of_none w 401 _ hw
  exact ⟨hall, not_invokesNext_of_const _ w r _ hall⟩

/-- C2 at concrete requests: no Authorization header, and a token the parser rejects. -/
theorem ValidateJWT_unauthorized_witness :
    (NewJWTMiddleware "s3cret").ValidateJWT sampleParse sampleNext freshWriter
        (sampleRequest "GET" [] []) =
      { header := [("Content-Type", ["application/json"])]
        status := some 401
        body := [Chunk.json { Error := "unauthorized: no token found" }] } ∧
    (NewJWTMiddleware "s3cret").ValidateJWT sampleParse sampleNext freshWriter
        (sampleRequest "GET" ["Bearer forged"] []) =
      { header := [("Content-Type", ["application/json"])]
        status := some 401
        body := [Chunk.json
          { Error := "unauthorized: invalid token: token is malformed" }] } :=
  ⟨(ValidateJWT_unauthorized sampleParse (NewJWTMiddleware "s3cret") freshWriter
      (sampleRequest "GET" [] []) "no token found" rfl
      (Or.inl ⟨by decide, rfl⟩)).1 sampleNext,
    (ValidateJWT_unauthorized sampleParse (NewJWTMiddleware "s3cret") freshWriter
      (sampleRequest "GET" ["Bearer forged"] []) "invalid token: token is malformed" rfl
      (Or.inr ⟨by decide, rfl⟩)).1 sampleNext⟩

/-! ## C3: the success path of ValidateJWT -/

/-- C3: when the token of the request is extracted and verified to claims `C`, the
`ValidateJWT` middleware hands over to the wrapped handler exactly once: for every wrapped
handler the outcome is its result on the untouched writer (no status, header or body
written by the middleware) and on the request with a context that is a child of the
inbound context and from which `GetUserFromContext` returns exactly `C` without error. -/
theorem ValidateJWT_success (parse : Parser) (m : JWTMiddleware) (w : ResponseWriter)
    (r : Request) (C : JWTClaim)
    (hverified : extractToken r ≠ "" ∧
      ValidateJWT parse (extractToken r) m.jwtSecret = Except.ok C) :
    InvokesNextWith (m.ValidateJWT parse) w r w
        (r.WithContext (SetUserContext r.ctx (some C))) ∧
    (r.WithContext (SetUserContext r.ctx (some C))).ctx =
        Context.withValue r.ctx userClaimsKey (Any.jwtClaim (some C)) ∧
    (r.WithContext (SetUserContext r.ctx (some C))).Method = r.Method ∧
    (r.WithContext (SetUserContext r.ctx (some C))).Header = r.Header ∧
    GetUserFromContext (r.WithContext (SetUserContext r.ctx (some C))).ctx =
        Except.ok (some C) := by
  have hok := (GetJWTClaims_ok_iff parse r m.jwtSecret C).mpr hverified
  refine ⟨?_, rfl, rfl, rfl, ?_⟩
  · intro next
    simp only [JWTMiddleware.ValidateJWT, hok]
  · simp [Request.WithContext, GetUserFromContext, SetUserContext, Context.Value]

/-- C3 at a concrete request: a known token reaches the wrapped handler, which replies,
and the claims are readable from the context the handler receives. -/
theorem ValidateJWT_success_witness :
    (NewJWTMiddleware "s3cret").ValidateJWT sampleParse sampleNext freshWriter
        (sampleRequest "GET" ["Bearer tok-user"] []) =
      { header := [], status := some 200, body := [Chunk.bytes "ok"] } ∧
    GetUserFromContext
        ((sampleRequest "GET" ["Bearer tok-user"] []).WithContext
          (SetUserContext (sampleRequest "GET" ["Bearer tok-user"] []).ctx
            (some (sampleClaims "user")))).ctx =
      Except.ok (some (sampleClaims "user")) :=
  have h := ValidateJWT_success sampleParse (NewJWTMiddleware "s3cret") freshWriter
    (sampleRequest "GET" ["Bearer tok-user"] []) (sampleClaims "user")
    ⟨by decide, rfl⟩
  ⟨(h.1 sampleNext).trans (by decide), h.2.2.2.2⟩

/-! ## C1: the role gate -/

/-- C1: the handler produced by `RequireRole role` invokes the wrapped handler if and only
if extraction and verification succeed with claims whose `Role` equals `role` as a string
(then exactly once, on the untouched writer and the request carrying the claims); when
verification succeeds with a different `Role` it replies 403 with the error text
`forbidden: insufficient permissions`, and when extraction or verification fails it replies
401 with `unauthorized: ` and the cause, in both cases whatever the wrapped handler is. -/
theorem RequireRole_exact_match (parse : Parser) (m : JWTMiddleware) (role : String)
    (w : ResponseWriter) (r : Request) (hw : w.status = none) :
    (InvokesNext (m.RequireRole parse role) w r ↔
      ∃ C : JWTClaim, GetJWTClaims parse r m.jwtSecret = Except.ok C ∧ C.Role = role) ∧
    (∀ C : JWTClaim, GetJWTClaims parse r m.jwtSecret = Except.ok C → C.Role = role →
      InvokesNextWith (m.RequireRole parse role) w r w
        (r.WithContext (SetUserContext r.ctx (some C)))) ∧
    (∀ C : JWTClaim, GetJWTClaims parse r m.jwtSecret = Except.ok C → C.Role ≠ role →
      ∀ next : Handler, m.RequireRole parse role next w r =
        { header := w.header.Set "Content-Type" "application/json"
          status := some 403
          body := w.body ++
            [Chunk.json { Error := "forbidden: insufficient permissions" }] }) ∧
    (∀ cause : String, GetJWTClaims parse r m.jwtSecret = Except.error cause →
      ∀ next : Handler, m.RequireRole parse role next w r =
        { header := w.header.Set "Content-Type" "application/json"
          status := some 401
          body := w.body ++ [Chunk.json { Error := "unauthorized: " ++ cause }] }) := by
  have hgrant : ∀ C : JWTClaim, GetJWTClaims parse r m.jwtSecret = Except.ok C →
      C.Role = role → InvokesNextWith (m.RequireRole parse role) w r w
        (r.WithContext (SetUserContext r.ctx (some C))) := by
    intro C hok hrole next
    simp [JWTMiddleware.RequireRole, hok, hrole]
  have hdeny : ∀ C : JWTClaim, GetJWTClaims parse r m.jwtSecret = Except.ok C →
      C.Role ≠ role → ∀ next : Handler, m.RequireRole parse role next w r =
        { header := w.header.Set "Content-Type" "application/json"
          status := some 403
          body := w.body ++
            [Chunk.json { Error := "forbidden: insufficient permissions" }] } := by
    intro C hok hrole next
    simp only [JWTMiddleware.RequireRole, hok, StatusForbidden]
    rw [if_pos hrole]
    exact error_reply_of_none w 403 _ hw
  have hfail : ∀ cause : String, GetJWTClaims parse r m.jwtSecret = Except.error cause →
      ∀ next : Handler, m.RequireRole parse role next w r =
        { header := w.header.Set "Content-Type" "application/json"
          status := some 401
          body := w.body ++ [Chunk.json { Error := "unauthorized: " ++ cause }] } := by
    intro cause herr next
    simp only [JWTMiddleware.RequireRole, herr, StatusUnauthorized]
    exact error_reply_of_none w 401 _ hw
  refine ⟨?_, hgrant, hdeny, hfail⟩
  constructor
  · intro hinv
    cases hres : GetJWTClaims parse r m.jwtSecret with
    | error cause =>
        exact absurd hinv (not_invokesNext_of_const _ w r _ (hfail cause hres))
    | ok C =>
        by_cases hrole : C.Role = role
        · exact ⟨C, rfl, hrole⟩
        · exact absurd hinv (not_invokesNext_of_const _ w r _ (hdeny C hres hrole))
  · rintro ⟨C, hok, hrole⟩
    exact ⟨w, _, hgrant C hok hrole⟩

/-- C1 at concrete requests: a token with role `admin` passes `RequireRole "admin"`, is
refused with 403 by `RequireRole "ADMIN"` and by `RequireRole "seller"`, and a request
without a token gets 401. -/
theorem RequireRole_exact_match_witness :
    (NewJWTMiddleware "s3cret").RequireRole sampleParse "admin" sampleNext freshWriter
        (sampleRequest "GET" ["Bearer tok-admin"] []) =
      { header := [], status := some 200, body := [Chunk.bytes "ok"] } ∧
    (NewJWTMiddleware "s3cret").RequireRole sampleParse "ADMIN" sampleNext freshWriter
        (sampleRequest "GET" ["Bearer tok-admin"] []) =
      { header := [("Content-Type", ["application/json"])]
        status := some 403
        body := [Chunk.json { Error := "forbidden: insufficient permissions" }] } ∧
    (NewJWTMiddleware "s3cret").RequireRole sampleParse "seller" sampleNext freshWriter
        (sampleRequest "GET" ["Bearer tok-admin"] []) =
      { header := [("Content-Type", ["application/json"])]
        status := some 403
        body := [Chunk.json { Error := "forbidden: insufficient permissions" }] } ∧
    (NewJWTMiddleware "s3cret").RequireRole sampleParse "admin" sampleNext freshWriter
        (sampleRequest "GET" [] []) =
      { header := [("Content-Type", ["application/json"])]
        status := some 401
        body := [Chunk.json { Error := "unauthorized: no token found" }] } :=
  ⟨((RequireRole_exact_match sampleParse (NewJWTMiddleware "s3cret") "admin" freshWriter
      (sampleRequest "GET" ["Bearer tok-admin"] []) rfl).2.1
      (sampleClaims "admin") rfl rfl sampleNext).trans (by decide),
    (RequireRole_exact_match sampleParse (NewJWTMiddleware "s3cret") "ADMIN" freshWriter
      (sampleRequest "GET" ["Bearer tok-admin"] []) rfl).2.2.1
      (sampleClaims "admin") rfl (by decide) sampleNext,
    (RequireRole_exact_match sampleParse (NewJWTMiddleware "s3cret") "seller" freshWriter
      (sampleRequest "GET" ["Bearer tok-admin"] []) rfl).2.2.1
      (sampleClaims "admin") rfl (by decide) sampleNext,
    (RequireRole_exact_match sampleParse (NewJWTMiddleware "s3cret") "admin" freshWriter
      (sampleRequest "GET" [] []) rfl).2.2.2
      "no token found" rfl sampleNext⟩

/-! ## The CORS origin test -/

theorem HasSuffix_iff (o s : String) : HasSuffix o s = true ↔ EndsWith o s := by
  unfold HasSuffix EndsWith
  rw [List.isSuffixOf_iff_suffix]
  constructor
  · rintro ⟨t, ht⟩
    refine ⟨String.mk t, ?_⟩
    apply String.ext
    rw [String.data_append, ← ht]
  · rintro ⟨p, hp⟩
    refine ⟨p.data, ?_⟩
    rw [hp, String.data_append]

theorem star_dot_data (d : String) : ("*." ++ d).data = '*' :: '.' :: d.data := by
  rw [String.data_append]
  rfl

theorem dot_data (d : String) : ("." ++ d).data = '.' :: d.data := by
  rw [String.data_append]
  rfl

theorem HasPrefix_star_dot_iff (e : String) :
    HasPrefix e "*." = true ↔ ∃ d : String, e = "*." ++ d := by
  unfold HasPrefix
  rw [List.isPrefixOf_iff_prefix]
  constructor
  · rintro ⟨t, ht⟩
    refine ⟨String.mk t, ?_⟩
    apply String.ext
    rw [star_dot_data, ← ht]
    rfl
  · rintro ⟨d, hd⟩
    refine ⟨d.data, ?_⟩
    rw [hd, star_dot_data]
    rfl

theorem TrimPrefix_star (d : String) : TrimPrefix ("*." ++ d) "*" = "." ++ d := by
  have hp : HasPrefix ("*." ++ d) "*" = true := by
    unfold HasPrefix
    rw [List.isPrefixOf_iff_prefix, star_dot_data]
    exact ⟨'.' :: d.data, rfl⟩
  unfold TrimPrefix
  rw [if_pos hp]
  apply String.ext
  rw [star_dot_data, dot_data]
  rfl

theorem star_dot_ne_star (d : String) : "*." ++ d ≠ "*" := by
  intro h
  have h1 := congrArg String.data h
  rw [star_dot_data] at h1
  exact absurd h1 (by simp)

theorem star_dot_injective (d1 d2 : String) (h : "*." ++ d1 = "*." ++ d2) : d1 = d2 := by
  have h1 := congrArg String.data h
  rw [star_dot_data, star_dot_data] at h1
  apply String.ext
  simpa using h1

theorem originLoop_cons (o e : String) (rest : List String) :
    originLoop o (e :: rest) = true ↔ MatchesEntry e o ∨ originLoop o rest = true := by
  unfold MatchesEntry
  rw [originLoop]
  by_cases h1 : e = "*"
  · simp [h1]
  by_cases h2 : e = o
  · simp [h2]
  rw [if_neg h1, if_neg h2]
  by_cases h3 : HasPrefix e "*." = true
  · obtain ⟨d, hd⟩ := (HasPrefix_star_dot_iff e).mp h3
    by_cases h4 : HasSuffix o (TrimPrefix e "*") = true
    · have hend : EndsWith o ("." ++ d) := by
        rw [hd, TrimPrefix_star] at h4
        exact (HasSuffix_iff o _).mp h4
      simp only [h3, h4, Bool.and_self, if_true, true_iff]
      exact Or.inl (Or.inr (Or.inr ⟨d, hd, hend⟩))
    · have hnot : ¬ ∃ d1 : String, e = "*." ++ d1 ∧ EndsWith o ("." ++ d1) := by
        rintro ⟨d1, hd1, hend⟩
        apply h4
        rw [hd1, TrimPrefix_star]
        exact (HasSuffix_iff o _).mpr hend
      simp [h3, h4, h1, h2, hnot]
  · have hnot : ¬ ∃ d1 : String, e = "*." ++ d1 ∧ EndsWith o ("." ++ d1) := by
      rintro ⟨d1, hd1, -⟩
      exact h3 ((HasPrefix_star_dot_iff e).mpr ⟨d1, hd1⟩)
    simp [h3, h1, h2, hnot]

theorem originLoop_iff (o : String) (l : List String) :
    originLoop o l = true ↔ ∃ e ∈ l, MatchesEntry e o := by
  induction l with
  | nil => simp [originLoop]
  | cons e rest ih => rw [originLoop_cons, ih]; simp

theorem matches_wildcard_iff (d o : String) :
    MatchesEntry ("*." ++ d) o ↔ EndsWith o ("." ++ d) := by
  constructor
  · rintro (h | h | ⟨d1, hd1, hend⟩)
    · exact absurd h (star_dot_ne_star d)
    · refine ⟨"*", ?_⟩
      rw [← h]
      apply String.ext
      rw [star_dot_data, String.data_append, dot_data]
      rfl
    · rw [star_dot_injective d d1 hd1]
      exact hend
  · intro h
    exact Or.inr (Or.inr ⟨d, rfl, h⟩)

/-! ## C6: the wildcard-subdomain entry -/

/-- C6: in any policy, an entry `*.` followed by `d` makes `isAllowedOrigin` accept an origin
exactly when the origin ends with `.` followed by `d` (a literal suffix match including the
dot): the policy accepts the origin iff it ends so or the other entries accept it.  With
the policy `*.example.com` alone, `https://evil.com` and `https://evilexample.com` are
rejected and `https://app.example.com` is accepted. -/
theorem wildcard_entry_suffix_match (c : CORS) (d o : String) (before after : List String) :
    ((c.WithOrigins (before ++ ("*." ++ d) :: after)).isAllowedOrigin o = true ↔
      EndsWith o ("." ++ d) ∨ originLoop o (before ++ after) = true) ∧
    ((c.WithOrigins ["*." ++ d]).isAllowedOrigin o = true ↔ EndsWith o ("." ++ d)) ∧
    (c.WithOrigins ["*.example.com"]).isAllowedOrigin "https://evil.com" = false ∧
    (c.WithOrigins ["*.example.com"]).isAllowedOrigin "https://evilexample.com" = false ∧
    (c.WithOrigins ["*.example.com"]).isAllowedOrigin "https://app.example.com" = true := by
  have hgen : ∀ pre post : List String,
      (c.WithOrigins (pre ++ ("*." ++ d) :: post)).isAllowedOrigin o = true ↔
        EndsWith o ("." ++ d) ∨ originLoop o (pre ++ post) = true := by
    intro pre post
    have hlen : ¬ (pre ++ ("*." ++ d) :: post).length = 0 := by simp
    simp only [CORS.isAllowedOrigin, CORS.WithOrigins, if_neg hlen]
    rw [originLoop_iff, originLoop_iff]
    constructor
    · rintro ⟨e, he, hm⟩
      rcases List.mem_append.mp he with h | h
      · exact Or.inr ⟨e, List.mem_append.mpr (Or.inl h), hm⟩
      · rcases List.mem_cons.mp h with h1 | h1
        · rw [h1] at hm
          exact Or.inl ((matches_wildcard_iff d o).mp hm)
        · exact Or.inr ⟨e, List.mem_append.mpr (Or.inr h1), hm⟩
    · rintro (h | ⟨e, he, hm⟩)
      · exact ⟨"*." ++ d, by simp, (matches_wildcard_iff d o).mpr h⟩
      · rcases List.mem_append.mp he with h | h
        · exact ⟨e, by simp [h], hm⟩
        · exact ⟨e, by simp [h], hm⟩
  refine ⟨hgen before after, ?_, ?_, ?_, ?_⟩
  · have h := hgen [] []
    simpa [originLoop] using h
  · simp only [CORS.isAllowedOrigin, CORS.WithOrigins]
    decide
  · simp only [CORS.isAllowedOrigin, CORS.WithOrigins]
    decide
  · simp only [CORS.isAllowedOrigin, CORS.WithOrigins]
    decide

/-! ## Lemmas on the header map -/

theorem find_filter_other (h : Header) (k k1 : String) (hk : k1 ≠ k) :
    (h.filter (fun p => p.1 != k)).find? (fun p => p.1 == k1) =
      h.find? (fun p => p.1 == k1) := by
  induction h with
  | nil => rfl
  | cons a rest ih =>
      by_cases ha : a.1 = k
      · have hf : (a.1 != k) = false := by simp [ha]
        have hne : (a.1 == k1) = false := by
          rw [ha]
          simpa using fun h1 : k = k1 => hk h1.symm
        rw [List.filter_cons, hf, List.find?_cons, hne]
        simpa using ih
      · have hf : (a.1 != k) = true := by simp [ha]
        rw [List.filter_cons, hf]
        simp only [if_true, List.find?_cons]
        rw [ih]

theorem Values_Set_same (h : Header) (k v : String) : (h.Set k v).Values k = [v] := by
  simp [Header.Set, Header.Values, List.find?_cons]

theorem Values_Set_other (h : Header) (k v k1 : String) (hk : k1 ≠ k) :
    (h.Set k v).Values k1 = h.Values k1 := by
  have hne : (k == k1) = false := by simpa using fun h1 : k = k1 => hk h1.symm
  simp only [Header.Set, Header.Values, List.find?_cons, hne]
  rw [find_filter_other h k k1 hk]

theorem Values_Add_same (h : Header) (k v : String) :
    (h.Add k v).Values k = h.Values k ++ [v] := by
  simp [Header.Add, Header.Values, List.find?_cons]

theorem Values_Add_other (h : Header) (k v k1 : String) (hk : k1 ≠ k) :
    (h.Add k v).Values k1 = h.Values k1 := by
  have hne : (k == k1) = false := by simpa using fun h1 : k = k1 => hk h1.symm
  simp only [Header.Add, Header.Values, List.find?_cons, hne]
  rw [find_filter_other h k k1 hk]

theorem intercalate_go_eq (sep : String) (l : List String) :
    ∀ acc : String, String.intercalate.go acc sep l =
      match l with
      | [] => acc
      | _ :: _ => acc ++ sep ++ Join l sep := by
  induction l with
  | nil => intro acc; rfl
  | cons e rest ih =>
      intro acc
      rw [String.intercalate.go, ih]
      cases rest with
      | nil => rfl
      | cons e1 rest1 =>
          simp only [Join]
          simp only [String.append_assoc]

theorem Join_eq_intercalate (l : List String) (sep : String) :
    Join l sep = String.intercalate sep l := by
  cases l with
  | nil => rfl
  | cons e rest =>
      rw [String.intercalate, intercalate_go_eq]
      cases rest with
      | nil => rfl
      | cons e1 rest1 => simp only [Join, String.append_assoc]

theorem isAllowedOrigin_false_iff (c : CORS) (o : String) :
    c.isAllowedOrigin o = false ↔
      c.allowedOrigins ≠ [] ∧ ∀ e ∈ c.allowedOrigins, ¬ MatchesEntry e o := by
  unfold CORS.isAllowedOrigin
  by_cases hl : c.allowedOrigins = []
  · simp [hl]
  · have hlen : ¬ c.allowedOrigins.length = 0 := by
      simpa [List.length_eq_zero] using hl
    rw [if_neg hlen]
    constructor
    · intro hf
      refine ⟨hl, ?_⟩
      intro e he hm
      have ht := (originLoop_iff o c.allowedOrigins).mpr ⟨e, he, hm⟩
      rw [hf] at ht
      exact absurd ht (by simp)
    · rintro ⟨-, hno⟩
      cases hloop : originLoop o c.allowedOrigins with
      | false => rfl
      | true =>
          obtain ⟨e, he, hm⟩ := (originLoop_iff o c.allowedOrigins).mp hloop
          exact absurd hm (hno e he)

/-! ## C7: an origin that matches no entry -/

/-- C7 as stated fails on the empty policy: with no allowed origin configured the origin
`https://evil.com` matches no entry, yet the request is accepted, gets CORS headers and
reaches the wrapped handler instead of a 403. -/
theorem empty_policy_accepts_unmatched_origin :
    (NewCORS.WithOrigins []).allowedOrigins = [] ∧
    (sampleRequest "GET" [] ["https://evil.com"]).Header.Get "Origin" = "https://evil.com" ∧
    (∀ e ∈ (NewCORS.WithOrigins []).allowedOrigins, ¬ MatchesEntry e "https://evil.com") ∧
    (NewCORS.WithOrigins []).Handler sampleNext freshWriter
        (sampleRequest "GET" [] ["https://evil.com"]) =
      { header := [("Vary", ["Origin"]), ("Access-Control-Allow-Credentials", ["true"]),
          ("Access-Control-Allow-Origin", ["https://evil.com"])]
        status := some 200
        body := [Chunk.bytes "ok"] } ∧
    ((NewCORS.WithOrigins []).Handler sampleNext freshWriter
        (sampleRequest "OPTIONS" [] ["https://evil.com"])).status = some 204 := by
  refine ⟨rfl, by decide, ?_, by decide, by decide⟩
  intro e he
  simp [CORS.WithOrigins] at he

/-- C7 (amended): for every policy with at least one allowed origin and every request whose
non-empty Origin matches no entry (not equal to an entry, no entry `*`, no entry `*.d` with
the origin ending in `.d`), whatever the method, the CORS handler commits status 403 on a
writer on which nothing was written, leaves the header map and the body untouched (no
Access-Control header, empty body), and does not invoke the wrapped handler. -/
theorem rejected_origin_forbidden (c : CORS) (w : ResponseWriter) (r : Request)
    (hpolicy : c.allowedOrigins ≠ [])
    (horigin : r.Header.Get "Origin" ≠ "")
    (hnomatch : ∀ e ∈ c.allowedOrigins, ¬ MatchesEntry e (r.Header.Get "Origin"))
    (hw : w.status = none) :
    (∀ next : Handler, c.Handler next w r =
      { header := w.header, status := some 403, body := w.body }) ∧
    ¬ InvokesNext c.Handler w r := by
  have hrej : c.isAllowedOrigin (r.Header.Get "Origin") = false :=
    (isAllowedOrigin_false_iff c _).mpr ⟨hpolicy, hnomatch⟩
  have hall : ∀ next : Handler, c.Handler next w r =
      { header := w.header, status := some 403, body := w.body } := by
    intro next
    simp only [CORS.Handler, if_pos horigin, hrej, Bool.not_false, if_true, StatusForbidden]
    rw [WriteHeader_of_none w 403 hw]
  exact ⟨hall, not_invokesNext_of_const _ w r _ hall⟩

/-- C7 (amended) at concrete requests: `https://evil.com` and `https://evilexample.com`
against the policy `*.example.com`, as a GET and as a preflight. -/
theorem rejected_origin_forbidden_witness :
    (NewCORS.WithOrigins ["*.example.com"]).Handler sampleNext freshWriter
        (sampleRequest "GET" [] ["https://evil.com"]) =
      { header := [], status := some 403, body := [] } ∧
    (NewCORS.WithOrigins ["*.example.com"]).Handler sampleNext freshWriter
        (sampleRequest "OPTIONS" [] ["https://evilexample.com"]) =
      { header := [], status := some 403, body := [] } :=
  ⟨(rejected_origin_forbidden (NewCORS.WithOrigins ["*.example.com"]) freshWriter
      (sampleRequest "GET" [] ["https://evil.com"]) (by decide) (by decide)
      ((isAllowedOrigin_false_iff _ _).mp (by decide)).2 rfl).1 sampleNext,
    (rejected_origin_forbidden (NewCORS.WithOrigins ["*.example.com"]) freshWriter
      (sampleRequest "OPTIONS" [] ["https://evilexample.com"]) (by decide) (by decide)
      ((isAllowedOrigin_false_iff _ _).mp (by decide)).2 rfl).1 sampleNext⟩

/-! ## C8: requests without an Origin header -/

/-- C8 as stated fails for the method OPTIONS: a preflight-shaped request without Origin is
answered by the CORS handler itself with status 204, Access-Control and Vary headers, and
the wrapped handler (which would have replied 200 with a body) is not invoked. -/
theorem options_without_origin_short_circuits :
    (sampleRequest "OPTIONS" [] []).Header.Get "Origin" = "" ∧
    (NewCORS.Handler sampleNext freshWriter (sampleRequest "OPTIONS" [] [])).status =
      some 204 ∧
    (NewCORS.Handler sampleNext freshWriter (sampleRequest "OPTIONS" [] [])).body = [] ∧
    (NewCORS.Handler sampleNext freshWriter (sampleRequest "OPTIONS" [] [])).header.Values
        "Access-Control-Allow-Methods" = ["GET,POST,PUT,PATCH,DELETE,OPTIONS"] ∧
    (NewCORS.Handler sampleNext freshWriter (sampleRequest "OPTIONS" [] [])).header.Values
        "Vary" = ["Origin", "Access-Control-Request-Method", "Access-Control-Request-Headers"] ∧
    sampleNext freshWriter (sampleRequest "OPTIONS" [] []) =
      { header := [], status := some 200, body := [Chunk.bytes "ok"] } := by
  decide

/-- C8 (amended): for every request whose method is not OPTIONS and that carries no Origin
header (or an empty one), the CORS handler invokes the wrapped handler exactly once on the
untouched writer (no Access-Control header, no Vary header, no status written) and on the
unchanged request. -/
theorem no_origin_passes_through (c : CORS) (w : ResponseWriter) (r : Request)
    (hmethod : r.Method ≠ "OPTIONS") (horigin : r.Header.Get "Origin" = "") :
    InvokesNextWith c.Handler w r w r := by
  intro next
  have hm : ¬ r.Method = MethodOptions := hmethod
  simp [CORS.Handler, CORS.afterOriginCheck, horigin, hm]

/-- C8 (amended) at a concrete request: a GET without Origin under the default policy. -/
theorem no_origin_passes_through_witness :
    NewCORS.Handler sampleNext freshWriter (sampleRequest "GET" [] []) =
      { header := [], status := some 200, body := [Chunk.bytes "ok"] } :=
  (no_origin_passes_through NewCORS freshWriter (sampleRequest "GET" [] [])
    (by decide) (by decide) sampleNext).trans (by decide)

/-! ## C9: an actual request from an accepted origin -/

/-- C9: for every request whose method is not OPTIONS and whose non-empty Origin `o` the
policy accepts, the CORS handler invokes the wrapped handler exactly once, on the unchanged
request and on a writer whose header map has Access-Control-Allow-Origin set to exactly `o`
(the literal origin, not the pattern), Access-Control-Allow-Credentials set to `true` and
one more Vary entry `Origin`; status and body are left to the wrapped handler. -/
theorem accepted_origin_headers (c : CORS) (w : ResponseWriter) (r : Request)
    (hmethod : r.Method ≠ "OPTIONS") (horigin : r.Header.Get "Origin" ≠ "")
    (haccept : c.isAllowedOrigin (r.Header.Get "Origin") = true) :
    ∃ w1 : ResponseWriter,
      InvokesNextWith c.Handler w r w1 r ∧
      w1.header.Values "Access-Control-Allow-Origin" = [r.Header.Get "Origin"] ∧
      w1.header.Values "Access-Control-Allow-Credentials" = ["true"] ∧
      w1.header.Values "Vary" = w.header.Values "Vary" ++ ["Origin"] ∧
      w1.status = w.status ∧ w1.body = w.body := by
  refine ⟨{ w with header :=
      ((w.header.Set "Access-Control-Allow-Origin" (r.Header.Get "Origin")).Set
        "Access-Control-Allow-Credentials" "true").Add "Vary" "Origin" }, ?_, ?_, ?_, ?_, rfl, rfl⟩
  · intro next
    have hm : ¬ r.Method = MethodOptions := hmethod
    simp [CORS.Handler, CORS.afterOriginCheck, horigin, haccept, hm,
      ResponseWriter.SetHeader, ResponseWriter.AddHeader]
  · simp only
    rw [Values_Add_other _ _ _ _ (by decide), Values_Set_other _ _ _ _ (by decide),
      Values_Set_same]
  · simp only
    rw [Values_Add_other _ _ _ _ (by decide), Values_Set_same]
  · simp only
    rw [Values_Add_same, Values_Set_other _ _ _ _ (by decide),
      Values_Set_other _ _ _ _ (by decide)]

/-- C9 at a concrete request: a GET from `https://app.example.com` under the policy
`*.example.com` reaches the wrapped handler with the literal origin echoed. -/
theorem accepted_origin_headers_witness :
    ∃ w1 : ResponseWriter,
      (NewCORS.WithOrigins ["*.example.com"]).Handler sampleNext freshWriter
          (sampleRequest "GET" [] ["https://app.example.com"]) =
        sampleNext w1 (sampleRequest "GET" [] ["https://app.example.com"]) ∧
      w1.header.Values "Access-Control-Allow-Origin" = ["https://app.example.com"] ∧
      w1.header.Values "Access-Control-Allow-Credentials" = ["true"] ∧
      w1.header.Values "Vary" = ["Origin"] ∧
      w1.status = none ∧ w1.body = [] :=
  (accepted_origin_headers (NewCORS.WithOrigins ["*.example.com"]) freshWriter
    (sampleRequest "GET" [] ["https://app.example.com"])
    (by decide) (by decide) (by decide)).imp
    (fun _ h => ⟨h.1 sampleNext, h.2.1, h.2.2.1, h.2.2.2.1, h.2.2.2.2.1, h.2.2.2.2.2⟩)

/-! ## C10: the preflight reply -/

/-- C10: for every OPTIONS request whose non-empty Origin the policy accepts, the CORS
handler replies by itself, whatever the wrapped handler is (it is never invoked): on a
writer on which nothing was written it commits status 204 and writes no body, sets
Access-Control-Allow-Methods and Access-Control-Allow-Headers to the policy lists joined by
a comma in policy order, Access-Control-Allow-Credentials to `true`, and appends the three
Vary entries in order.  Under the default policy of `NewCORS` every origin is accepted and
the methods value is `GET,POST,PUT,PATCH,DELETE,OPTIONS`, which contains GET, POST, PUT
and DELETE. -/
theorem preflight_reply (c : CORS) (w : ResponseWriter) (r : Request)
    (hmethod : r.Method = "OPTIONS") (horigin : r.Header.Get "Origin" ≠ "")
    (haccept : c.isAllowedOrigin (r.Header.Get "Origin") = true)
    (hw : w.status = none) :
    (∃ w1 : ResponseWriter,
      (∀ next : Handler, c.Handler next w r = w1) ∧
      w1.status = some 204 ∧ w1.body = w.body ∧
      w1.header.Values "Access-Control-Allow-Methods" =
        [String.intercalate "," c.allowedMethods] ∧
      w1.header.Values "Access-Control-Allow-Headers" =
        [String.intercalate "," c.allowedHeaders] ∧
      w1.header.Values "Access-Control-Allow-Credentials" = ["true"] ∧
      w1.header.Values "Access-Control-Allow-Origin" = [r.Header.Get "Origin"] ∧
      w1.header.Values "Vary" = w.header.Values "Vary" ++
        ["Origin", "Access-Control-Request-Method", "Access-Control-Request-Headers"]) ∧
    ¬ InvokesNext c.Handler w r ∧
    (∀ origin : String, NewCORS.isAllowedOrigin origin = true) ∧
    String.intercalate "," NewCORS.allowedMethods = "GET,POST,PUT,PATCH,DELETE,OPTIONS" ∧
    (∀ method ∈ ["GET", "POST", "PUT", "DELETE"],
      method ∈ Split "GET,POST,PUT,PATCH,DELETE,OPTIONS" ',') := by
  have hall : ∀ next : Handler, c.Handler next w r =
      { header := (((((((w.header.Set "Access-Control-Allow-Origin"
            (r.Header.Get "Origin")).Set
          "Access-Control-Allow-Methods" (Join c.allowedMethods ",")).Set
          "Access-Control-Allow-Headers" (Join c.allowedHeaders ",")).Set
          "Access-Control-Max-Age" (runeToString c.maxAge)).Set
          "Access-Control-Allow-Credentials" "true").Add "Vary" "Origin").Add
          "Vary" "Access-Control-Request-Method").Add
          "Vary" "Access-Control-Request-Headers"
        status := some 204
        body := w.body } := by
    intro next
    have hm : r.Method = MethodOptions := hmethod
    simp [CORS.Handler, CORS.afterOriginCheck, horigin, haccept, hm,
      ResponseWriter.SetHeader, ResponseWriter.AddHeader, ResponseWriter.WriteHeader, hw,
      StatusNoContent]
  refine ⟨⟨_, hall, rfl, rfl, ?_, ?_, ?_, ?_, ?_⟩,
    not_invokesNext_of_const _ w r _ hall, ?_, ?_, by decide⟩
  · simp only
    rw [Values_Add_other _ _ _ _ (by decide), Values_Add_other _ _ _ _ (by decide),
      Values_Add_other _ _ _ _ (by decide), Values_Set_other _ _ _ _ (by decide),
      Values_Set_other _ _ _ _ (by decide), Values_Set_other _ _ _ _ (by decide),
      Values_Set_same, Join_eq_intercalate]
  · simp only
    rw [Values_Add_other _ _ _ _ (by decide), Values_Add_other _ _ _ _ (by decide),
      Values_Add_other _ _ _ _ (by decide), Values_Set_other _ _ _ _ (by decide),
      Values_Set_other _ _ _ _ (by decide), Values_Set_same, Join_eq_intercalate]
  · simp only
    rw [Values_Add_other _ _ _ _ (by decide), Values_Add_other _ _ _ _ (by decide),
      Values_Add_other _ _ _ _ (by decide), Values_Set_same]
  · simp only
    rw [Values_Add_other _ _ _ _ (by decide), Values_Add_other _ _ _ _ (by decide),
      Values_Add_other _ _ _ _ (by decide), Values_Set_other _ _ _ _ (by decide),
      Values_Set_other _ _ _ _ (by decide), Values_Set_other _ _ _ _ (by decide),
      Values_Set_other _ _ _ _ (by decide), Values_Set_same]
  · simp only
    rw [Values_Add_same, Values_Add_same, Values_Add_same,
      Values_Set_other _ _ _ _ (by decide), Values_Set_other _ _ _ _ (by decide),
      Values_Set_other _ _ _ _ (by decide), Values_Set_other _ _ _ _ (by decide),
      Values_Set_other _ _ _ _ (by decide)]
    simp
  · intro origin
    simp [CORS.isAllowedOrigin, NewCORS, originLoop]
  · rw [← Join_eq_intercalate]
    decide

/-- C10 at a concrete request: a preflight from `https://app.example.com` under the default
policy gets 204, no body, the joined methods and the three Vary entries, although the
wrapped handler would have replied 200. -/
theorem preflight_reply_witness :
    ∃ w1 : ResponseWriter,
      NewCORS.Handler sampleNext freshWriter
          (sampleRequest "OPTIONS" [] ["https://app.example.com"]) = w1 ∧
      w1.status = some 204 ∧ w1.body = [] ∧
      w1.header.Values "Access-Control-Allow-Methods" =
        [String.intercalate "," NewCORS.allowedMethods] ∧
      w1.header.Values "Access-Control-Allow-Credentials" = ["true"] ∧
      w1.header.Values "Vary" =
        ["Origin", "Access-Control-Request-Method", "Access-Control-Request-Headers"] :=
  (preflight_reply NewCORS freshWriter
    (sampleRequest "OPTIONS" [] ["https://app.example.com"])
    (by decide) (by decide) (by decide) rfl).1.imp
    (fun _ h => ⟨h.1 sampleNext, h.2.1, h.2.2.1, h.2.2.2.1, h.2.2.2.2.2.1,
      h.2.2.2.2.2.2.2⟩)

/-! ## C11: the Access-Control-Max-Age header -/

theorem toDigitsCore_length_ge (b : Nat) : ∀ (fuel n : Nat) (ds : List Char),
    ds.length ≤ (Nat.toDigitsCore b fuel n ds).length := by
  intro fuel
  induction fuel with
  | zero => intro n ds; simp [Nat.toDigitsCore]
  | succ f ih =>
      intro n ds
      simp only [Nat.toDigitsCore]
      split
      · simp
      · exact Nat.le_trans (by simp) (ih _ _)

theorem decimal_length_ge_two (n : Nat) (h : 10 ≤ n) : 2 ≤ (toString n).length := by
  show 2 ≤ (Nat.repr n).length
  unfold Nat.repr Nat.toDigits
  simp only [Nat.toDigitsCore]
  have h1 : ¬ n / 10 = 0 := by omega
  rw [if_neg h1]
  cases hn : n with
  | zero => omega
  | succ m =>
      simp only [Nat.toDigitsCore]
      split
      · simp [String.length, List.asString]
      · refine Nat.le_trans ?_ (by
          simpa [String.length, List.asString] using toDigitsCore_length_ge 10 _ _ _)
        simp

theorem runeToString_length (n : Int) : (runeToString n).length = 1 := by
  unfold runeToString
  split <;> simp [String.singleton, String.length]

theorem runeToString_ne_decimal (n : Nat) : runeToString (n : Int) ≠ toString n := by
  by_cases h : 10 ≤ n
  · intro heq
    have h1 := runeToString_length (n : Int)
    have h2 := decimal_length_ge_two n h
    rw [heq] at h1
    omega
  · have hlt : n < 10 := by omega
    interval_cases n <;> decide

theorem preflight_max_age_value (c : CORS) (w : ResponseWriter) (r : Request)
    (next : Handler) (hmethod : r.Method = "OPTIONS")
    (horigin : r.Header.Get "Origin" = "" ∨
      c.isAllowedOrigin (r.Header.Get "Origin") = true) :
    (c.Handler next w r).header.Values "Access-Control-Max-Age" =
      [runeToString c.maxAge] := by
  have hm : r.Method = MethodOptions := hmethod
  have hrest : ∀ w0 : ResponseWriter,
      (c.afterOriginCheck next (r.Header.Get "Origin") w0 r).header.Values
        "Access-Control-Max-Age" = [runeToString c.maxAge] := by
    intro w0
    have hhead : (c.afterOriginCheck next (r.Header.Get "Origin") w0 r).header =
        ((((((w0.header.Set
          "Access-Control-Allow-Methods" (Join c.allowedMethods ",")).Set
          "Access-Control-Allow-Headers" (Join c.allowedHeaders ",")).Set
          "Access-Control-Max-Age" (runeToString c.maxAge)).Set
          "Access-Control-Allow-Credentials" "true").Add "Vary" "Origin").Add
          "Vary" "Access-Control-Request-Method").Add
          "Vary" "Access-Control-Request-Headers" := by
      simp only [CORS.afterOriginCheck, hm, if_true, ResponseWriter.SetHeader,
        ResponseWriter.AddHeader, ResponseWriter.WriteHeader]
      split <;> rfl
    rw [hhead, Values_Add_other _ _ _ _ (by decide), Values_Add_other _ _ _ _ (by decide),
      Values_Add_other _ _ _ _ (by decide), Values_Set_other _ _ _ _ (by decide),
      Values_Set_same]
  unfold CORS.Handler
  simp only
  by_cases ho : r.Header.Get "Origin" = ""
  · rw [if_neg (by simpa using ho)]
    exact hrest w
  · rcases horigin with h | h
    · exact absurd h ho
    · rw [if_pos ho]
      simp only [h, Bool.not_true, Bool.false_eq_true, if_false]
      exact hrest _

/-- C11 (the code differs): on a preflight the Access-Control-Max-Age header is set to the
Go conversion `string(c.maxAge)`, the text of the code point with that number, not to the
decimal representation.  Under the default policy the value is the single character with
code 86400 and not `86400`; for every policy the value is `runeToString c.maxAge`, which
is the decimal representation of no number `n ≥ 0`. -/
theorem max_age_header_is_code_point :
    (NewCORS.Handler sampleNext freshWriter
        (sampleRequest "OPTIONS" [] ["https://app.example.com"])).header.Values
          "Access-Control-Max-Age" = [String.singleton (Char.ofNat 86400)] ∧
    String.singleton (Char.ofNat 86400) ≠ "86400" ∧
    ((NewCORS.WithMaxAge 600).Handler sampleNext freshWriter
        (sampleRequest "OPTIONS" [] ["https://app.example.com"])).header.Values
          "Access-Control-Max-Age" = [String.singleton (Char.ofNat 600)] ∧
    (∀ (c : CORS) (w : ResponseWriter) (r : Request) (next : Handler),
      r.Method = "OPTIONS" →
      (r.Header.Get "Origin" = "" ∨ c.isAllowedOrigin (r.Header.Get "Origin") = true) →
      (c.Handler next w r).header.Values "Access-Control-Max-Age" =
        [runeToString c.maxAge]) ∧
    (∀ n : Nat, runeToString (n : Int) ≠ toString n) := by
  refine ⟨by decide, by decide, by decide, ?_, runeToString_ne_decimal⟩
  intro c w r next hm ho
  exact preflight_max_age_value c w r next hm ho

/-! ## C18, C19: the timestamps of GenerateJWT -/

theorem hoursDuration_in_range (h : Int) (hlo : -2562047 ≤ h) (hhi : h ≤ 2562047) :
    hoursDuration h = 3600000000000 * h := by
  unfold hoursDuration wrapInt64 Hour
  omega

theorem hoursDuration_wrapped_once (h : Int) (hlo : 2562048 ≤ h) (hhi : h ≤ 5124095) :
    hoursDuration h = 3600000000000 * h - 18446744073709551616 := by
  unfold hoursDuration wrapInt64 Hour
  omega

theorem GenerateJWT_claims_timestamps_aux (userID email role : String)
    (expiresHours now : Int) (hlo : -2562047 ≤ expiresHours) (hhi : expiresHours ≤ 2562047) :
    (GenerateJWT.claims userID email role expiresHours now now now).Registered.ExpiresAt =
      some (now / Second + 3600 * expiresHours) := by
  have hd := hoursDuration_in_range expiresHours hlo hhi
  simp only [GenerateJWT.claims, NewNumericDate, hd, Second]
  congr 1
  omega

theorem GenerateJWT_claims_expiry_aux (userID email role : String)
    (expiresHours t1 t2 t3 : Int) (hlo : -2562047 ≤ expiresHours)
    (hhi : expiresHours ≤ 2562047) :
    (GenerateJWT.claims userID email role expiresHours t1 t2 t3).Registered.ExpiresAt =
      some (t1 / Second + 3600 * expiresHours) := by
  have hd := hoursDuration_in_range expiresHours hlo hhi
  simp only [GenerateJWT.claims, NewNumericDate, hd, Second]
  congr 1
  omega

/-- C18 as stated fails in three ways.  With the clock reading half a second past a whole
second, `issued_at` is the whole second, an earlier instant than the reading.  The claims
are built from three clock reads: when the read for `expires_at` falls just before a whole
second and the read for `issued_at` just after it, `expires_at - issued_at` is one second
short of the expiry, and when the reads for `issued_at` and `not_before` straddle a whole
second, the two timestamps differ.  With `expiresHours = 2562048` the int64 product
`time.Hour * 2562048` wraps to a negative duration, so `expires_at` lies centuries before
`issued_at` instead of 2562048 hours after it. -/
theorem GenerateJWT_claims_not_clock_exact :
    (GenerateJWT.claims "u1" "u1@example.com" "user" 1 1700000000500000000
        1700000000500000000 1700000000500000000).Registered.IssuedAt = some 1700000000 ∧
    (1700000000 : Int) * Second ≠ 1700000000500000000 ∧
    (GenerateJWT.claims "u1" "u1@example.com" "user" 1 1700000000999999000
        1700000001000001000 1700000001000002000).Registered.ExpiresAt =
      some 1700003600 ∧
    (GenerateJWT.claims "u1" "u1@example.com" "user" 1 1700000000999999000
        1700000001000001000 1700000001000002000).Registered.IssuedAt =
      some 1700000001 ∧
    (1700003600 : Int) - 1700000001 ≠ 1 * 3600 ∧
    (GenerateJWT.claims "u1" "u1@example.com" "user" 1 1700000000999997000
        1700000000999999000 1700000001000001000).Registered.IssuedAt =
      some 1700000000 ∧
    (GenerateJWT.claims "u1" "u1@example.com" "user" 1 1700000000999997000
        1700000000999999000 1700000001000001000).Registered.NotBefore =
      some 1700000001 ∧
    hoursDuration 2562048 = -9223371273709551616 ∧
    (GenerateJWT.claims "u1" "u1@example.com" "user" 2562048 1700000000000000000
        1700000000000000000 1700000000000000000).Registered.ExpiresAt =
      some (-7523371274) ∧
    (GenerateJWT.claims "u1" "u1@example.com" "user" 2562048 1700000000000000000
        1700000000000000000 1700000000000000000).Registered.IssuedAt = some 1700000000 ∧
    (-7523371274 : Int) - 1700000000 ≠ 2562048 * 3600 := by
  decide

/-- C18 (amended): for the three clock reads of one `GenerateJWT` call, `t1` for
`expires_at`, `t2` for `issued_at` and `t3` for `not_before`, and `expiresHours` between
-2562047 and 2562047 (so that `time.Hour * expiresHours` fits in int64), the claims it
signs have `issued_at = t2` and `not_before = t3` truncated to the whole second and
`expires_at` the whole second of `t1` plus `expiresHours` hours.  So
`issued_at = not_before` exactly when `t2` and `t3` fall in the same whole second, and
`expires_at - issued_at` is the expiry plus the difference of the whole seconds of `t1` and
`t2`: exactly the expiry when the two fall in the same whole second, and never more than
the expiry when the clock does not go back.  Both equalities hold when the three reads
return one reading.  `UserID`, `Email` and `Role` are the arguments and the token is
created with method HS256. -/
theorem GenerateJWT_claims_timestamps (userID email role : String)
    (expiresHours t1 t2 t3 : Int)
    (hlo : -2562047 ≤ expiresHours) (hhi : expiresHours ≤ 2562047) :
    (GenerateJWT.claims userID email role expiresHours t1 t2 t3).Registered.IssuedAt =
      some (t2 / Second) ∧
    (GenerateJWT.claims userID email role expiresHours t1 t2 t3).Registered.NotBefore =
      some (t3 / Second) ∧
    (GenerateJWT.claims userID email role expiresHours t1 t2 t3).Registered.ExpiresAt =
      some (t1 / Second + 3600 * expiresHours) ∧
    (∀ t : Int, (t / Second) * Second ≤ t ∧ t < (t / Second) * Second + Second) ∧
    ((GenerateJWT.claims userID email role expiresHours t1 t2 t3).Registered.IssuedAt =
        (GenerateJWT.claims userID email role expiresHours t1 t2 t3).Registered.NotBefore ↔
      t2 / Second = t3 / Second) ∧
    (∀ exp iat : Int,
      (GenerateJWT.claims userID email role expiresHours t1 t2 t3).Registered.ExpiresAt =
        some exp →
      (GenerateJWT.claims userID email role expiresHours t1 t2 t3).Registered.IssuedAt =
        some iat →
      exp - iat = 3600 * expiresHours + (t1 / Second - t2 / Second) ∧
      (exp - iat = 3600 * expiresHours ↔ t1 / Second = t2 / Second) ∧
      (t1 ≤ t2 → exp - iat ≤ 3600 * expiresHours)) ∧
    (t1 = t2 → t2 = t3 →
      (GenerateJWT.claims userID email role expiresHours t1 t2 t3).Registered.IssuedAt =
        (GenerateJWT.claims userID email role expiresHours t1 t2 t3).Registered.NotBefore ∧
      ∀ exp iat : Int,
        (GenerateJWT.claims userID email role expiresHours t1 t2 t3).Registered.ExpiresAt =
          some exp →
        (GenerateJWT.claims userID email role expiresHours t1 t2 t3).Registered.IssuedAt =
          some iat →
        exp - iat = 3600 * expiresHours) ∧
    (GenerateJWT.claims userID email role expiresHours t1 t2 t3).UserID = userID ∧
    (GenerateJWT.claims userID email role expiresHours t1 t2 t3).Email = email ∧
    (GenerateJWT.claims userID email role expiresHours t1 t2 t3).Role = role ∧
    (NewWithClaimsHS256
      (GenerateJWT.claims userID email role expiresHours t1 t2 t3)).Method =
        SigningMethod.HMAC "HS256" ∧
    (NewWithClaimsHS256
      (GenerateJWT.claims userID email role expiresHours t1 t2 t3)).alg =
        some "HS256" := by
  have hexp := GenerateJWT_claims_expiry_aux userID email role expiresHours t1 t2 t3 hlo hhi
  have hiat : (GenerateJWT.claims userID email role expiresHours t1 t2 t3).Registered.IssuedAt =
      some (t2 / Second) := rfl
  have hnbf :
      (GenerateJWT.claims userID email role expiresHours t1 t2 t3).Registered.NotBefore =
        some (t3 / Second) := rfl
  refine ⟨hiat, hnbf, hexp, ?_, ?_, ?_, ?_, rfl, rfl, rfl, rfl, rfl⟩
  · intro t
    unfold Second
    omega
  · rw [hiat, hnbf]
    exact Option.some_inj
  · intro exp iat he hi
    rw [hexp] at he
    rw [hiat] at hi
    have he1 := Option.some.inj he
    have hi1 := Option.some.inj hi
    subst he1
    subst hi1
    refine ⟨by omega, by omega, ?_⟩
    intro hle
    have hmono : t1 / Second ≤ t2 / Second := by
      unfold Second
      omega
    omega
  · intro h12 h23
    subst h12
    subst h23
    refine ⟨rfl, ?_⟩
    intro exp iat he hi
    rw [hexp] at he
    rw [hiat] at hi
    have he1 := Option.some.inj he
    have hi1 := Option.some.inj hi
    omega

/-- C18 (amended) at a concrete call: 24 hours, the clock advancing between the three
reads within one whole second. -/
theorem GenerateJWT_claims_timestamps_witness :
    (GenerateJWT.claims "u1" "u1@example.com" "user" 24 1700000000500000000
        1700000000500001000 1700000000500002000).Registered.IssuedAt =
      some (1700000000500001000 / Second) ∧
    (GenerateJWT.claims "u1" "u1@example.com" "user" 24 1700000000500000000
        1700000000500001000 1700000000500002000).Registered.NotBefore =
      some (1700000000500002000 / Second) ∧
    (GenerateJWT.claims "u1" "u1@example.com" "user" 24 1700000000500000000
        1700000000500001000 1700000000500002000).Registered.ExpiresAt =
      some (1700000000500000000 / Second + 3600 * 24) :=
  have h := GenerateJWT_claims_timestamps "u1" "u1@example.com" "user" 24
    1700000000500000000 1700000000500001000 1700000000500002000 (by decide) (by decide)
  ⟨h.1, h.2.1, h.2.2.1⟩

/-- C19 as stated fails: with `expiresHours = 0` the claims have `expires_at = issued_at`,
with `expiresHours = -1` and with the overflowing `expiresHours = 2562048` they have
`expires_at < issued_at`. -/
theorem GenerateJWT_expiry_not_after_issue :
    (GenerateJWT.claims "u1" "u1@example.com" "user" 0 1700000000000000000
        1700000000000000000 1700000000000000000).Registered.ExpiresAt = some 1700000000 ∧
    (GenerateJWT.claims "u1" "u1@example.com" "user" 0 1700000000000000000
        1700000000000000000 1700000000000000000).Registered.IssuedAt = some 1700000000 ∧
    (GenerateJWT.claims "u1" "u1@example.com" "user" (-1) 1700000000000000000
        1700000000000000000 1700000000000000000).Registered.ExpiresAt = some 1699996400 ∧
    (GenerateJWT.claims "u1" "u1@example.com" "user" 2562048 1700000000000000000
        1700000000000000000 1700000000000000000).Registered.ExpiresAt =
      some (-7523371274) ∧
    ¬ ((1700000000 : Int) > 1700000000) ∧ ¬ ((1699996400 : Int) > 1700000000) ∧
    ¬ ((-7523371274 : Int) > 1700000000) := by
  decide

/-- C19 (amended): the claims built by `GenerateJWT` have `expires_at` the whole second of
the first clock read `t1` plus the int64 product `time.Hour * expiresHours`, and
`issued_at` the whole second of the second read `t2`.  For `expiresHours` between 1 and
2562047 (a positive expiry whose duration fits in int64), and when at most an hour less a
second passes between the two reads, `expires_at > issued_at`.  The invariant does not
hold for every `expiresHours`: when the clock does not go back between the two reads,
`expires_at <= issued_at` for every `expiresHours` between -2562047 and 0 and for every
`expiresHours` between 2562048 and 5124095, where the product wraps to a negative
duration.  Beyond these ranges the sign of the wrapped product decides: a product that
wraps to zero or below gives `expires_at <= issued_at`, one that wraps to a second or more
beyond the time between the reads gives `expires_at > issued_at`, as for -2562048 and
5124096. -/
theorem GenerateJWT_expiry_after_issue (userID email role : String)
    (expiresHours t1 t2 t3 : Int) :
    (GenerateJWT.claims userID email role expiresHours t1 t2 t3).Registered.ExpiresAt =
      some ((t1 + hoursDuration expiresHours) / Second) ∧
    (GenerateJWT.claims userID email role expiresHours t1 t2 t3).Registered.IssuedAt =
      some (t2 / Second) ∧
    (1 ≤ expiresHours → expiresHours ≤ 2562047 → t2 - t1 ≤ Hour - Second →
      ∃ exp iat : Int,
        (GenerateJWT.claims userID email role expiresHours t1 t2 t3).Registered.ExpiresAt =
          some exp ∧
        (GenerateJWT.claims userID email role expiresHours t1 t2 t3).Registered.IssuedAt =
          some iat ∧
        exp > iat) ∧
    (-2562047 ≤ expiresHours → expiresHours ≤ 0 → t1 ≤ t2 →
      ∃ exp iat : Int,
        (GenerateJWT.claims userID email role expiresHours t1 t2 t3).Registered.ExpiresAt =
          some exp ∧
        (GenerateJWT.claims userID email role expiresHours t1 t2 t3).Registered.IssuedAt =
          some iat ∧
        exp ≤ iat) ∧
    (2562048 ≤ expiresHours → expiresHours ≤ 5124095 → t1 ≤ t2 →
      hoursDuration expiresHours < 0 ∧
      ∃ exp iat : Int,
        (GenerateJWT.claims userID email role expiresHours t1 t2 t3).Registered.ExpiresAt =
          some exp ∧
        (GenerateJWT.claims userID email role expiresHours t1 t2 t3).Registered.IssuedAt =
          some iat ∧
        exp ≤ iat) ∧
    (hoursDuration expiresHours ≤ 0 → t1 ≤ t2 →
      (t1 + hoursDuration expiresHours) / Second ≤ t2 / Second) ∧
    (t2 - t1 ≤ hoursDuration expiresHours - Second →
      (t1 + hoursDuration expiresHours) / Second > t2 / Second) ∧
    hoursDuration (-2562048) = 9223371273709551616 ∧
    hoursDuration 5124096 = 1526290448384 := by
  refine ⟨rfl, rfl, ?_, ?_, ?_, ?_, ?_, by decide, by decide⟩
  · intro hlo hhi hclock
    have hd := hoursDuration_in_range expiresHours (by omega) hhi
    refine ⟨_, _, rfl, rfl, ?_⟩
    simp only [NewNumericDate, hd, Second]
    unfold Hour Second at hclock
    omega
  · intro hlo hhi hclock
    have hd := hoursDuration_in_range expiresHours hlo (by omega)
    refine ⟨_, _, rfl, rfl, ?_⟩
    simp only [NewNumericDate, hd, Second]
    omega
  · intro hlo hhi hclock
    have hd := hoursDuration_wrapped_once expiresHours hlo hhi
    refine ⟨by omega, _, _, rfl, rfl, ?_⟩
    simp only [NewNumericDate, hd, Second]
    omega
  · intro hd hclock
    unfold Second
    omega
  · intro hclock
    unfold Second at hclock ⊢
    omega

/-- C19 (amended) at a concrete call: one hour, the clock advancing between the reads. -/
theorem GenerateJWT_expiry_after_issue_witness :
    ∃ exp iat : Int,
      (GenerateJWT.claims "u1" "u1@example.com" "user" 1 1700000000900000000
        1700000001100000000 1700000001200000000).Registered.ExpiresAt = some exp ∧
      (GenerateJWT.claims "u1" "u1@example.com" "user" 1 1700000000900000000
        1700000001100000000 1700000001200000000).Registered.IssuedAt = some iat ∧
      exp > iat :=
  (GenerateJWT_expiry_after_issue "u1" "u1@example.com" "user" 1 1700000000900000000
    1700000001100000000 1700000001200000000).2.2.1 (by decide) (by decide) (by decide)

/-! ## The token codec: ValidateJWT over the library model -/

theorem GetSigningMethod_hmac (alg : String) (h : alg ∈ ["HS256", "HS384", "HS512"]) :
    GetSigningMethod alg = some (SigningMethod.HMAC alg) := by
  unfold GetSigningMethod
  rw [if_pos h]

theorem GetSigningMethod_not_hmac (alg : String) (h : alg ∉ ["HS256", "HS384", "HS512"])
    (m : SigningMethod) (hm : GetSigningMethod alg = some m) :
    m = SigningMethod.other alg := by
  unfold GetSigningMethod at hm
  rw [if_neg h] at hm
  split at hm
  · exact (Option.some.inj hm).symm
  · exact absurd hm (by simp)

theorem ValidateJWT_hmac_token (codec : JWTCodec) (now : Int) (tokenString secret : String)
    (seg : Segments) (alg : String) (sig : Bytes)
    (hdec : codec.decode tokenString = Except.ok seg) (halg : seg.alg = some alg)
    (hfam : alg ∈ ["HS256", "HS384", "HS512"]) (hsig : seg.signature = some sig) :
    ValidateJWT (ParseWithClaims codec now) tokenString secret =
      if codec.hmac alg (toBytes secret) (toBytes seg.signingInput) = sig then
        (match Validate now seg.claims with
          | Except.error err =>
              Except.error ("invalid token: " ++ ("token has invalid claims: " ++ err))
          | Except.ok _ => Except.ok seg.claims)
      else Except.error "invalid token: token signature is invalid: signature is invalid" := by
  have hm := GetSigningMethod_hmac alg hfam
  unfold ValidateJWT ParseWithClaims
  simp only [hdec, halg, hm, hsig, keyFunc, SigningMethod.Verify]
  by_cases hmac : codec.hmac alg (toBytes secret) (toBytes seg.signingInput) = sig
  · simp only [hmac, if_true]
    cases hv : Validate now seg.claims with
    | error err => simp
    | ok u => simp
  · simp only [hmac, if_false]
    rfl

theorem ValidateJWT_keyfunc_refuses (codec : JWTCodec) (now : Int)
    (tokenString secret : String) (seg : Segments) (alg : String) (sig : Bytes)
    (hdec : codec.decode tokenString = Except.ok seg) (halg : seg.alg = some alg)
    (hm : GetSigningMethod alg = some (SigningMethod.other alg))
    (hsig : seg.signature = some sig) :
    ValidateJWT (ParseWithClaims codec now) tokenString secret =
      Except.error ("invalid token: token is unverifiable: error while executing keyfunc: " ++
        ("unexpected signing method: " ++ alg)) := by
  unfold ValidateJWT ParseWithClaims
  simp only [hdec, halg, hm, hsig, keyFunc, Option.getD_some]
  rw [← String.append_assoc]
  rfl

theorem ValidateJWT_fails_of_not_hmac (codec : JWTCodec) (now : Int)
    (tokenString secret : String) (seg : Segments)
    (hdec : codec.decode tokenString = Except.ok seg)
    (hnot : ∀ alg : String, seg.alg = some alg → alg ∉ ["HS256", "HS384", "HS512"]) :
    ∃ err : String,
      ValidateJWT (ParseWithClaims codec now) tokenString secret = Except.error err := by
  cases halg : seg.alg with
  | none =>
      refine ⟨"invalid token: token is unverifiable: signing method (alg) is unspecified", ?_⟩
      unfold ValidateJWT ParseWithClaims
      simp only [hdec, halg]
      rfl
  | some alg =>
      have hn := hnot alg halg
      cases hm : GetSigningMethod alg with
      | none =>
          refine ⟨"invalid token: token is unverifiable: signing method (alg) is unavailable",
            ?_⟩
          unfold ValidateJWT ParseWithClaims
          simp only [hdec, halg, hm]
          rfl
      | some m =>
          have hother := GetSigningMethod_not_hmac alg hn m hm
          subst hother
          cases hsig : seg.signature with
          | none =>
              refine ⟨"invalid token: token is malformed: could not base64 decode signature",
                ?_⟩
              unfold ValidateJWT ParseWithClaims
              simp only [hdec, halg, hm, hsig]
              rfl
          | some sig =>
              exact ⟨_, ValidateJWT_keyfunc_refuses codec now tokenString secret seg alg sig
                hdec halg hm hsig⟩

theorem Validate_expired (now : Int) (claims : JWTClaim) (exp : Int)
    (hexp : claims.Registered.ExpiresAt = some exp) (hpast : exp * Second < now) :
    ∃ rest : String, Validate now claims = Except.error ("token is expired" ++ rest) := by
  have hnot : ¬ now < exp * Second := by omega
  unfold Validate
  simp only [hexp, hnot, if_false]
  cases hnbf : claims.Registered.NotBefore with
  | none => exact ⟨"", by simp [Join]⟩
  | some nbf =>
      by_cases hlt : now < nbf * Second
      · refine ⟨", token is not valid yet", ?_⟩
        simp [hlt, Join]
      · exact ⟨"", by simp [hlt, Join]⟩

theorem Validate_fresh (now : Int) (claims : JWTClaim) (exp nbf : Int)
    (hexp : claims.Registered.ExpiresAt = some exp)
    (hnbf : claims.Registered.NotBefore = some nbf)
    (h1 : now < exp * Second) (h2 : nbf * Second ≤ now) :
    Validate now claims = Except.ok () := by
  have hnot : ¬ now < nbf * Second := by omega
  unfold Validate
  simp [hexp, hnbf, h1, hnot]

set_option maxRecDepth 100000

/-! ## C14: the signing method check of the key function -/

/-- C14 as stated fails for the HMAC variants HS384 and HS512: the key function tests only
that the method is of the HMAC type, so it returns the secret for them, and a token whose
header names HS384 (or HS512) and whose MAC verifies under the secret is accepted. -/
theorem keyFunc_accepts_other_hmac_variants :
    GetSigningMethod "HS384" = some (SigningMethod.HMAC "HS384") ∧
    GetSigningMethod "HS512" = some (SigningMethod.HMAC "HS512") ∧
    keyFunc "secret"
        { Method := SigningMethod.HMAC "HS384", alg := some "HS384",
          Claims := sampleClaims "admin", Valid := false } = Except.ok "secret" ∧
    keyFunc "secret"
        { Method := SigningMethod.HMAC "HS512", alg := some "HS512",
          Claims := sampleClaims "admin", Valid := false } = Except.ok "secret" ∧
    Token.SignedString (sampleCodec (sampleClaims "admin"))
        { Method := SigningMethod.HMAC "HS384", alg := some "HS384",
          Claims := sampleClaims "admin", Valid := false } "secret" =
      Except.ok "HS384.claims.ckcn" ∧
    ValidateJWT (ParseWithClaims (sampleCodec (sampleClaims "admin")) 5000000000000)
        "HS384.claims.ckcn" "secret" = Except.ok (sampleClaims "admin") ∧
    ValidateJWT (ParseWithClaims (sampleCodec (sampleClaims "admin")) 5000000000000)
        "HS512.claims.vhrr" "secret" = Except.ok (sampleClaims "admin") := by
  decide

/-- C14 (amended): for every token whose header names a signing algorithm outside the HMAC
family HS256, HS384, HS512 (or names none), `ValidateJWT` fails; when the algorithm is a
registered one, the key function returns the error `unexpected signing method` with the
algorithm name instead of the secret.  Tokens naming HS384 or HS512 are not covered: the
key function hands them the secret. -/
theorem ValidateJWT_rejects_non_hmac_alg (codec : JWTCodec) (now : Int)
    (tokenString secret : String) (seg : Segments)
    (hdec : codec.decode tokenString = Except.ok seg)
    (hnot : ∀ alg : String, seg.alg = some alg → alg ∉ ["HS256", "HS384", "HS512"]) :
    (∃ err : String,
      ValidateJWT (ParseWithClaims codec now) tokenString secret = Except.error err) ∧
    (∀ (alg : String) (m : SigningMethod), seg.alg = some alg →
      GetSigningMethod alg = some m →
      keyFunc secret { Method := m, alg := some alg, Claims := seg.claims, Valid := false } =
        Except.error ("unexpected signing method: " ++ alg)) := by
  refine ⟨ValidateJWT_fails_of_not_hmac codec now tokenString secret seg hdec hnot, ?_⟩
  intro alg m halg hm
  have hother := GetSigningMethod_not_hmac alg (hnot alg halg) m hm
  subst hother
  simp [keyFunc]

/-- C14 (amended) at a concrete token: a header naming `none` with an empty signature. -/
theorem ValidateJWT_rejects_non_hmac_alg_witness :
    (∃ err : String,
      ValidateJWT (ParseWithClaims (sampleCodec (sampleClaims "admin")) 5000000000000)
        "none.claims." "secret" = Except.error err) ∧
    keyFunc "secret"
        { Method := SigningMethod.other "none", alg := some "none",
          Claims := sampleClaims "admin", Valid := false } =
      Except.error ("unexpected signing method: " ++ "none") :=
  have h := ValidateJWT_rejects_non_hmac_alg (sampleCodec (sampleClaims "admin"))
    5000000000000 "none.claims." "secret"
    { alg := some "none", claims := sampleClaims "admin", signingInput := "none.claims",
      signature := some [] }
    (by decide)
    (by intro alg halg; cases halg; decide)
  ⟨h.1, h.2 "none" (SigningMethod.other "none") rfl (by decide)⟩

/-! ## C15: the round trip of GenerateJWT and ValidateJWT -/

theorem GenerateJWT_eq (codec : JWTCodec) (userID email role secret : String)
    (expiresHours t1 t2 t3 : Int) :
    GenerateJWT codec userID email role secret expiresHours t1 t2 t3 =
      Except.ok (codec.attach
        (codec.SigningString
          (NewWithClaimsHS256 (GenerateJWT.claims userID email role expiresHours t1 t2 t3)))
        (codec.hmac "HS256" (toBytes secret)
          (toBytes (codec.SigningString
            (NewWithClaimsHS256
              (GenerateJWT.claims userID email role expiresHours t1 t2 t3)))))) := by
  simp [GenerateJWT, Token.SignedString, SigningMethod.Sign, NewWithClaimsHS256]

theorem ValidateJWT_generated_aux (codec : JWTCodec) (userID email role secret : String)
    (expiresHours t1 t2 t3 now : Int)
    (hlo : 1 ≤ expiresHours) (hhi : expiresHours ≤ 2562047)
    (hcodec : codec.RoundTrips
      (NewWithClaimsHS256 (GenerateJWT.claims userID email role expiresHours t1 t2 t3))
      (codec.hmac "HS256" (toBytes secret)
        (toBytes (codec.SigningString
          (NewWithClaimsHS256
            (GenerateJWT.claims userID email role expiresHours t1 t2 t3))))))
    (hafter : t3 ≤ now) (hbefore : now - t1 ≤ Hour * expiresHours - Second) :
    ValidateJWT (ParseWithClaims codec now)
        (codec.attach
          (codec.SigningString
            (NewWithClaimsHS256
              (GenerateJWT.claims userID email role expiresHours t1 t2 t3)))
          (codec.hmac "HS256" (toBytes secret)
            (toBytes (codec.SigningString
              (NewWithClaimsHS256
                (GenerateJWT.claims userID email role expiresHours t1 t2 t3))))))
        secret =
      Except.ok (GenerateJWT.claims userID email role expiresHours t1 t2 t3) := by
  have hts := GenerateJWT_claims_expiry_aux userID email role expiresHours t1 t2 t3
    (by omega) hhi
  rw [ValidateJWT_hmac_token codec now _ secret _ "HS256" _ hcodec rfl (by decide) rfl]
  simp only [NewWithClaimsHS256, if_true]
  have hv : Validate now (GenerateJWT.claims userID email role expiresHours t1 t2 t3) =
      Except.ok () := by
    apply Validate_fresh now _ (t1 / Second + 3600 * expiresHours) (t3 / Second) hts rfl
    · unfold Hour Second at hbefore
      unfold Second
      omega
    · unfold Second
      omega
  rw [hv]

/-- C15 as stated fails for a large positive expiry: with `expiresHours = 2562048` the
duration wraps to a negative one, the token is issued already expired (its `exp` is a date
before 1970), and `ValidateJWT` rejects it at the same clock reading with the same
secret. -/
theorem roundtrip_fails_on_overflowing_expiry :
    (0 : Int) < 2562048 ∧
    GenerateJWT wireCodec "u1" "u1@example.com" "user" "secret" 2562048
        1700000000000000000 1700000000000000000 1700000000000000000 =
      Except.ok "HS256.u1,u1@example.com,user,-7523371274,1700000000,1700000000.fwlf" ∧
    ValidateJWT (ParseWithClaims wireCodec 1700000000000000000)
        "HS256.u1,u1@example.com,user,-7523371274,1700000000,1700000000.fwlf" "secret" =
      Except.error "invalid token: token has invalid claims: token is expired" := by
  decide

/-- C15 (amended): for every user id, email, role, secret and expiry between 1 and 2562047
hours (so that `time.Hour * expiresHours` fits in int64), and for a wire encoding that
decodes the token `GenerateJWT` signs back to the header, claims, signing string and
signature that were encoded, `GenerateJWT` returns a token on which `ValidateJWT` with the
same secret succeeds and returns the claims `GenerateJWT` built, at every instant `now`
that is not before the clock read `t3` for `not_before` and at most the expiry less a
second after the clock read `t1` for `expires_at`, and so when the clock is unchanged
between the two calls.  In the returned claims `UserID`, `Email`, `Role` are the inputs,
`issued_at` and `not_before` are the clock reads `t2` and `t3` in whole seconds and
`expires_at` is the whole second of `t1` plus `expiresHours` hours. -/
theorem GenerateJWT_ValidateJWT_roundtrip (codec : JWTCodec)
    (userID email role secret : String) (expiresHours t1 t2 t3 : Int)
    (hlo : 1 ≤ expiresHours) (hhi : expiresHours ≤ 2562047)
    (hcodec : codec.RoundTrips
      (NewWithClaimsHS256 (GenerateJWT.claims userID email role expiresHours t1 t2 t3))
      (codec.hmac "HS256" (toBytes secret)
        (toBytes (codec.SigningString
          (NewWithClaimsHS256
            (GenerateJWT.claims userID email role expiresHours t1 t2 t3)))))) :
    ∃ token : String,
      GenerateJWT codec userID email role secret expiresHours t1 t2 t3 = Except.ok token ∧
      (∀ now : Int, t3 ≤ now → now - t1 ≤ Hour * expiresHours - Second →
        ValidateJWT (ParseWithClaims codec now) token secret =
          Except.ok (GenerateJWT.claims userID email role expiresHours t1 t2 t3)) ∧
      (t1 = t2 → t2 = t3 →
        ValidateJWT (ParseWithClaims codec t1) token secret =
          Except.ok (GenerateJWT.claims userID email role expiresHours t1 t2 t3)) ∧
      (GenerateJWT.claims userID email role expiresHours t1 t2 t3).UserID = userID ∧
      (GenerateJWT.claims userID email role expiresHours t1 t2 t3).Email = email ∧
      (GenerateJWT.claims userID email role expiresHours t1 t2 t3).Role = role ∧
      (GenerateJWT.claims userID email role expiresHours t1 t2 t3).Registered.IssuedAt =
        some (t2 / Second) ∧
      (GenerateJWT.claims userID email role expiresHours t1 t2 t3).Registered.NotBefore =
        some (t3 / Second) ∧
      (GenerateJWT.claims userID email role expiresHours t1 t2 t3).Registered.ExpiresAt =
        some (t1 / Second + 3600 * expiresHours) := by
  have hts := GenerateJWT_claims_expiry_aux userID email role expiresHours t1 t2 t3
    (by omega) hhi
  refine ⟨_, GenerateJWT_eq codec userID email role secret expiresHours t1 t2 t3, ?_, ?_,
    rfl, rfl, rfl, rfl, rfl, hts⟩
  · intro now hafter hbefore
    exact ValidateJWT_generated_aux codec userID email role secret expiresHours t1 t2 t3 now
      hlo hhi hcodec hafter hbefore
  · intro h12 h23
    apply ValidateJWT_generated_aux codec userID email role secret expiresHours t1 t2 t3 t1
      hlo hhi hcodec
    · omega
    · unfold Hour Second
      omega

/-- C15 (amended) at a concrete call: a 24 hour token of the sample wire format, which
carries the claims in the token text, validates half a second after it was generated and
gives back the claims. -/
theorem GenerateJWT_ValidateJWT_roundtrip_witness :
    GenerateJWT wireCodec "u1" "u1@example.com" "user" "secret" 24
        1700000000500000000 1700000000600000000 1700000000700000000 =
      Except.ok "HS256.u1,u1@example.com,user,1700086400,1700000000,1700000000.oigw" ∧
    ∃ token : String,
      GenerateJWT wireCodec "u1" "u1@example.com" "user" "secret" 24
          1700000000500000000 1700000000600000000 1700000000700000000 = Except.ok token ∧
      ValidateJWT (ParseWithClaims wireCodec 1700000001000000000) token "secret" =
        Except.ok (GenerateJWT.claims "u1" "u1@example.com" "user" 24
          1700000000500000000 1700000000600000000 1700000000700000000) ∧
      (GenerateJWT.claims "u1" "u1@example.com" "user" 24
        1700000000500000000 1700000000600000000 1700000000700000000).UserID = "u1" ∧
      (GenerateJWT.claims "u1" "u1@example.com" "user" 24
        1700000000500000000 1700000000600000000 1700000000700000000).Registered.ExpiresAt =
        some (1700000000500000000 / Second + 3600 * 24) :=
  ⟨by decide,
    match GenerateJWT_ValidateJWT_roundtrip wireCodec "u1" "u1@example.com" "user" "secret" 24
      1700000000500000000 1700000000600000000 1700000000700000000
      (by decide) (by decide) (by unfold JWTCodec.RoundTrips; decide) with
    | ⟨token, hgen, hval, _, huid, _, _, _, _, hexp⟩ =>
        ⟨token, hgen, hval 1700000001000000000 (by decide) (by decide), huid, hexp⟩⟩

/-! ## C16: validation under another secret -/

theorem toBytes_length_secret : (toBytes "secret").length = 6 := by decide

theorem hmacKeyBlock_zero_padded (H : Bytes → Bytes) :
    hmacKeyBlock H 64 (toBytes "secret\x00") = hmacKeyBlock H 64 (toBytes "secret") := by
  have h1 : toBytes "secret\x00" = toBytes "secret" ++ [0] := by decide
  have h2 : (toBytes "secret").length = 6 := by decide
  unfold hmacKeyBlock
  rw [h1]
  simp only [List.length_append, h2, List.length_singleton]
  have ha : ¬ (6 + 1 > 64) := by omega
  have hb : ¬ (6 > 64) := by omega
  rw [if_neg ha, if_neg hb]
  simp only [List.length_append, h2, List.length_singleton, List.append_assoc]
  rfl

theorem HMAC_zero_padded_key (H : Bytes → Bytes) (msg : Bytes) :
    HMAC H 64 (toBytes "secret\x00") msg = HMAC H 64 (toBytes "secret") msg := by
  unfold HMAC
  rw [hmacKeyBlock_zero_padded]

/-- C16 as stated fails: HMAC pads a short key with zero bytes, so the secret `secret`
followed by a zero byte is a different secret with the same MAC, whatever the hash
function is.  A token generated with `secret` validates under it: for every codec whose
MAC is the RFC 2104 construction, and concretely for the toy codec. -/
theorem other_secret_with_same_mac_validates :
    ("secret\x00" : String) ≠ "secret" ∧
    (∀ (H : Bytes → Bytes) (msg : Bytes),
      HMAC H 64 (toBytes "secret\x00") msg = HMAC H 64 (toBytes "secret") msg) ∧
    (∀ (codec : JWTCodec) (H : String → Bytes → Bytes)
        (userID email role : String) (expiresHours now : Int),
      (∀ (alg : String) (key msg : Bytes),
        codec.hmac alg key msg = HMAC (H alg) (hmacBlockSize alg) key msg) →
      1 ≤ expiresHours → expiresHours ≤ 2562047 →
      codec.RoundTrips
        (NewWithClaimsHS256 (GenerateJWT.claims userID email role expiresHours now now now))
        (codec.hmac "HS256" (toBytes "secret")
          (toBytes (codec.SigningString
            (NewWithClaimsHS256
              (GenerateJWT.claims userID email role expiresHours now now now))))) →
      ∃ token : String,
        GenerateJWT codec userID email role "secret" expiresHours now now now =
          Except.ok token ∧
        ValidateJWT (ParseWithClaims codec now) token "secret\x00" =
          Except.ok (GenerateJWT.claims userID email role expiresHours now now now)) ∧
    GenerateJWT
        (sampleCodec (GenerateJWT.claims "u1" "u1@example.com" "user" 24
          1700000000000000000 1700000000000000000 1700000000000000000))
        "u1" "u1@example.com" "user" "secret" 24
        1700000000000000000 1700000000000000000 1700000000000000000 =
      Except.ok "HS256.claims.uwqi" ∧
    ValidateJWT
        (ParseWithClaims
          (sampleCodec (GenerateJWT.claims "u1" "u1@example.com" "user" 24
            1700000000000000000 1700000000000000000 1700000000000000000))
          1700000000000000000)
        "HS256.claims.uwqi" "secret\x00" =
      Except.ok (GenerateJWT.claims "u1" "u1@example.com" "user" 24
        1700000000000000000 1700000000000000000 1700000000000000000) := by
  refine ⟨by decide, HMAC_zero_padded_key, ?_, by decide, by decide⟩
  intro codec H userID email role expiresHours now hmac hlo hhi hcodec
  have hts := GenerateJWT_claims_timestamps_aux userID email role expiresHours now
    (by omega) hhi
  refine ⟨_, GenerateJWT_eq codec userID email role "secret" expiresHours now now now, ?_⟩
  rw [ValidateJWT_hmac_token codec now _ "secret\x00" _ "HS256" _ hcodec rfl (by decide) rfl]
  have hsame : codec.hmac "HS256" (toBytes "secret\x00")
      (toBytes (codec.SigningString (NewWithClaimsHS256
        (GenerateJWT.claims userID email role expiresHours now now now)))) =
      codec.hmac "HS256" (toBytes "secret")
        (toBytes (codec.SigningString (NewWithClaimsHS256
          (GenerateJWT.claims userID email role expiresHours now now now)))) := by
    rw [hmac, hmac]
    exact HMAC_zero_padded_key _ _
  rw [if_pos hsame]
  simp only [NewWithClaimsHS256]
  have hv : Validate now (GenerateJWT.claims userID email role expiresHours now now now) =
      Except.ok () := by
    apply Validate_fresh now _ (now / Second + 3600 * expiresHours) (now / Second) hts rfl
    · unfold Second
      omega
    · unfold Second
      omega
  rw [hv]

/-- C16 (amended): for every token produced by `GenerateJWT` with secret `S1` and every
secret `S2` under which the HS256 MAC of the token's signing string differs from the MAC
under `S1`, `ValidateJWT` with `S2` fails, at every instant, with the invalid-signature
error and returns no claims.  That `S2` differs from `S1` is not enough. -/
theorem ValidateJWT_wrong_secret (codec : JWTCodec) (userID email role S1 S2 : String)
    (expiresHours t1 t2 t3 : Int)
    (hcodec : codec.RoundTrips
      (NewWithClaimsHS256 (GenerateJWT.claims userID email role expiresHours t1 t2 t3))
      (codec.hmac "HS256" (toBytes S1)
        (toBytes (codec.SigningString
          (NewWithClaimsHS256
            (GenerateJWT.claims userID email role expiresHours t1 t2 t3))))))
    (hmac : codec.hmac "HS256" (toBytes S2)
        (toBytes (codec.SigningString
          (NewWithClaimsHS256
            (GenerateJWT.claims userID email role expiresHours t1 t2 t3)))) ≠
      codec.hmac "HS256" (toBytes S1)
        (toBytes (codec.SigningString
          (NewWithClaimsHS256
            (GenerateJWT.claims userID email role expiresHours t1 t2 t3))))) :
    ∃ token : String,
      GenerateJWT codec userID email role S1 expiresHours t1 t2 t3 = Except.ok token ∧
      ∀ now : Int, ValidateJWT (ParseWithClaims codec now) token S2 =
        Except.error "invalid token: token signature is invalid: signature is invalid" := by
  refine ⟨_, GenerateJWT_eq codec userID email role S1 expiresHours t1 t2 t3, ?_⟩
  intro now
  rw [ValidateJWT_hmac_token codec now _ S2 _ "HS256" _ hcodec rfl (by decide) rfl]
  exact if_neg hmac

/-- C16 (amended) at a concrete call: a token of the toy codec generated with `secret` is
refused under `other`. -/
theorem ValidateJWT_wrong_secret_witness :
    ∃ token : String,
      GenerateJWT
          (sampleCodec (GenerateJWT.claims "u1" "u1@example.com" "user" 24
            1700000000000000000 1700000000000000000 1700000000000000000))
          "u1" "u1@example.com" "user" "secret" 24
          1700000000000000000 1700000000000000000 1700000000000000000 =
        Except.ok token ∧
      ∀ now : Int,
        ValidateJWT
            (ParseWithClaims
              (sampleCodec (GenerateJWT.claims "u1" "u1@example.com" "user" 24
                1700000000000000000 1700000000000000000 1700000000000000000))
              now)
            token "other" =
          Except.error "invalid token: token signature is invalid: signature is invalid" :=
  ValidateJWT_wrong_secret
    (sampleCodec (GenerateJWT.claims "u1" "u1@example.com" "user" 24
      1700000000000000000 1700000000000000000 1700000000000000000))
    "u1" "u1@example.com" "user" "secret" "other" 24
    1700000000000000000 1700000000000000000 1700000000000000000
    (by unfold JWTCodec.RoundTrips; decide) (by decide)

/-! ## C17: expired tokens -/

theorem ValidateJWT_alg_unspecified (codec : JWTCodec) (now : Int)
    (tokenString secret : String) (seg : Segments)
    (hdec : codec.decode tokenString = Except.ok seg) (halg : seg.alg = none) :
    ValidateJWT (ParseWithClaims codec now) tokenString secret =
      Except.error
        "invalid token: token is unverifiable: signing method (alg) is unspecified" := by
  unfold ValidateJWT ParseWithClaims
  simp only [hdec, halg]
  rfl

theorem ValidateJWT_alg_unavailable (codec : JWTCodec) (now : Int)
    (tokenString secret : String) (seg : Segments) (alg : String)
    (hdec : codec.decode tokenString = Except.ok seg) (halg : seg.alg = some alg)
    (hm : GetSigningMethod alg = none) :
    ValidateJWT (ParseWithClaims codec now) tokenString secret =
      Except.error
        "invalid token: token is unverifiable: signing method (alg) is unavailable" := by
  unfold ValidateJWT ParseWithClaims
  simp only [hdec, halg, hm]
  rfl

theorem ValidateJWT_signature_undecodable (codec : JWTCodec) (now : Int)
    (tokenString secret : String) (seg : Segments) (alg : String) (m : SigningMethod)
    (hdec : codec.decode tokenString = Except.ok seg) (halg : seg.alg = some alg)
    (hm : GetSigningMethod alg = some m) (hsig : seg.signature = none) :
    ValidateJWT (ParseWithClaims codec now) tokenString secret =
      Except.error "invalid token: token is malformed: could not base64 decode signature" := by
  unfold ValidateJWT ParseWithClaims
  simp only [hdec, halg, hm, hsig]
  rfl

/-- C17 as stated fails for a token whose signature is not valid: the signature is checked
before the claims, so an expired token with a wrong signature fails with the
invalid-signature error and not with the Expired kind; with a registered algorithm outside
the HMAC family it fails in the key function, and with an unregistered algorithm or none
the parser fails before it asks the key function.  The same expired token with its valid
signature fails with `token is expired`. -/
theorem expired_token_with_bad_signature :
    Token.SignedString wireCodec (NewWithClaimsHS256 (sampleClaims "user")) "secret" =
      Except.ok "HS256.u1,u1@example.com,user,7200,3600,3600.hliq" ∧
    (sampleClaims "user").Registered.ExpiresAt = some 7200 ∧
    (7200 : Int) * Second < 9000000000000 ∧
    ValidateJWT (ParseWithClaims wireCodec 9000000000000)
        "HS256.u1,u1@example.com,user,7200,3600,3600.zzzz" "secret" =
      Except.error "invalid token: token signature is invalid: signature is invalid" ∧
    ValidateJWT (ParseWithClaims wireCodec 9000000000000)
        "RS256.u1,u1@example.com,user,7200,3600,3600.zzzz" "secret" =
      Except.error ("invalid token: token is unverifiable: error while executing keyfunc: " ++
        "unexpected signing method: RS256") ∧
    ValidateJWT (ParseWithClaims wireCodec 9000000000000)
        "FOO.u1,u1@example.com,user,7200,3600,3600.zzzz" "secret" =
      Except.error
        "invalid token: token is unverifiable: signing method (alg) is unavailable" ∧
    ValidateJWT (ParseWithClaims wireCodec 9000000000000)
        ".u1,u1@example.com,user,7200,3600,3600.zzzz" "secret" =
      Except.error
        "invalid token: token is unverifiable: signing method (alg) is unspecified" ∧
    ValidateJWT (ParseWithClaims wireCodec 9000000000000)
        "HS256.u1,u1@example.com,user,7200,3600,3600.hliq" "secret" =
      Except.error "invalid token: token has invalid claims: token is expired" := by
  decide

/-- C17 (amended): every three-segment token that decodes and whose `exp` claim is earlier
than the current time is refused by `ValidateJWT`, with the error of the first check of
the parser that fails.  A header without `alg` gives `signing method (alg) is
unspecified` and an unregistered `alg` gives `signing method (alg) is unavailable`, both
before the key function is asked; with a registered algorithm, a third segment that does
not decode gives the malformed-token error; with a signature that decodes, a registered
algorithm outside the HMAC family fails in the key function with `unexpected signing
method` and the algorithm name, an HMAC algorithm with a signature that is not valid for
the supplied secret gives the invalid-signature error, and
only an HMAC algorithm with a valid signature gives the Expired kind (the text `token has
invalid claims: token is expired`, possibly followed by further claim failures). -/
theorem ValidateJWT_expired (codec : JWTCodec) (now : Int) (tokenString secret : String)
    (seg : Segments) (exp : Int)
    (hdec : codec.decode tokenString = Except.ok seg)
    (hexp : seg.claims.Registered.ExpiresAt = some exp) (hpast : exp * Second < now) :
    (∃ err : String,
      ValidateJWT (ParseWithClaims codec now) tokenString secret = Except.error err) ∧
    (∀ (alg : String) (sig : Bytes), seg.alg = some alg →
      alg ∈ ["HS256", "HS384", "HS512"] → seg.signature = some sig →
      codec.hmac alg (toBytes secret) (toBytes seg.signingInput) = sig →
      ∃ rest : String,
        ValidateJWT (ParseWithClaims codec now) tokenString secret =
          Except.error
            ("invalid token: " ++ ("token has invalid claims: " ++
              ("token is expired" ++ rest)))) ∧
    (∀ (alg : String) (sig : Bytes), seg.alg = some alg →
      alg ∈ ["HS256", "HS384", "HS512"] → seg.signature = some sig →
      codec.hmac alg (toBytes secret) (toBytes seg.signingInput) ≠ sig →
      ValidateJWT (ParseWithClaims codec now) tokenString secret =
        Except.error "invalid token: token signature is invalid: signature is invalid") ∧
    (∀ (alg : String) (sig : Bytes), seg.alg = some alg →
      alg ∉ ["HS256", "HS384", "HS512"] → GetSigningMethod alg ≠ none →
      seg.signature = some sig →
      keyFunc secret
          { Method := SigningMethod.other alg, alg := some alg, Claims := seg.claims,
            Valid := false } =
        Except.error ("unexpected signing method: " ++ alg) ∧
      ValidateJWT (ParseWithClaims codec now) tokenString secret =
        Except.error
          ("invalid token: token is unverifiable: error while executing keyfunc: " ++
            ("unexpected signing method: " ++ alg))) ∧
    (∀ alg : String, seg.alg = some alg → GetSigningMethod alg = none →
      ValidateJWT (ParseWithClaims codec now) tokenString secret =
        Except.error
          "invalid token: token is unverifiable: signing method (alg) is unavailable") ∧
    (seg.alg = none →
      ValidateJWT (ParseWithClaims codec now) tokenString secret =
        Except.error
          "invalid token: token is unverifiable: signing method (alg) is unspecified") ∧
    (∀ alg : String, seg.alg = some alg → GetSigningMethod alg ≠ none →
      seg.signature = none →
      ValidateJWT (ParseWithClaims codec now) tokenString secret =
        Except.error
          "invalid token: token is malformed: could not base64 decode signature") := by
  have hgood : ∀ (alg : String) (sig : Bytes), seg.alg = some alg →
      alg ∈ ["HS256", "HS384", "HS512"] → seg.signature = some sig →
      codec.hmac alg (toBytes secret) (toBytes seg.signingInput) = sig →
      ∃ rest : String,
        ValidateJWT (ParseWithClaims codec now) tokenString secret =
          Except.error
            ("invalid token: " ++ ("token has invalid claims: " ++
              ("token is expired" ++ rest))) := by
    intro alg sig halg hfam hsig hmac
    obtain ⟨rest, hrest⟩ := Validate_expired now seg.claims exp hexp hpast
    refine ⟨rest, ?_⟩
    rw [ValidateJWT_hmac_token codec now tokenString secret seg alg sig hdec halg hfam hsig,
      if_pos hmac, hrest]
  have hbad : ∀ (alg : String) (sig : Bytes), seg.alg = some alg →
      alg ∈ ["HS256", "HS384", "HS512"] → seg.signature = some sig →
      codec.hmac alg (toBytes secret) (toBytes seg.signingInput) ≠ sig →
      ValidateJWT (ParseWithClaims codec now) tokenString secret =
        Except.error "invalid token: token signature is invalid: signature is invalid" := by
    intro alg sig halg hfam hsig hmac
    rw [ValidateJWT_hmac_token codec now tokenString secret seg alg sig hdec halg hfam hsig,
      if_neg hmac]
  refine ⟨?_, hgood, hbad, ?_, ?_, ?_, ?_⟩
  · by_cases hfam : ∃ alg : String, seg.alg = some alg ∧ alg ∈ ["HS256", "HS384", "HS512"]
    · obtain ⟨alg, halg, hmem⟩ := hfam
      cases hsig : seg.signature with
      | none =>
          exact ⟨_, ValidateJWT_signature_undecodable codec now tokenString secret seg alg _
            hdec halg (GetSigningMethod_hmac alg hmem) hsig⟩
      | some sig =>
          by_cases hmac : codec.hmac alg (toBytes secret) (toBytes seg.signingInput) = sig
          · obtain ⟨rest, hrest⟩ := hgood alg sig halg hmem hsig hmac
            exact ⟨_, hrest⟩
          · exact ⟨_, hbad alg sig halg hmem hsig hmac⟩
    · apply ValidateJWT_fails_of_not_hmac codec now tokenString secret seg hdec
      intro alg halg hmem
      exact hfam ⟨alg, halg, hmem⟩
  · intro alg sig halg hnot hreg hsig
    cases hm : GetSigningMethod alg with
    | none => exact absurd hm hreg
    | some m =>
        have hother := GetSigningMethod_not_hmac alg hnot m hm
        subst hother
        refine ⟨by simp [keyFunc], ?_⟩
        exact ValidateJWT_keyfunc_refuses codec now tokenString secret seg alg sig
          hdec halg hm hsig
  · intro alg halg hm
    exact ValidateJWT_alg_unavailable codec now tokenString secret seg alg hdec halg hm
  · intro halg
    exact ValidateJWT_alg_unspecified codec now tokenString secret seg hdec halg
  · intro alg halg hreg hsig
    cases hm : GetSigningMethod alg with
    | none => exact absurd hm hreg
    | some m =>
        exact ValidateJWT_signature_undecodable codec now tokenString secret seg alg m
          hdec halg hm hsig

/-- C17 (amended) at concrete tokens of the sample wire format, whose `exp` of 7200 is
read from the token text: the expired token with its valid signature is refused as
expired, and the one naming RS256 is refused by the key function. -/
theorem ValidateJWT_expired_witness :
    (∃ rest : String,
      ValidateJWT (ParseWithClaims wireCodec 9000000000000)
          "HS256.u1,u1@example.com,user,7200,3600,3600.hliq" "secret" =
        Except.error
          ("invalid token: " ++ ("token has invalid claims: " ++
            ("token is expired" ++ rest)))) ∧
    ValidateJWT (ParseWithClaims wireCodec 9000000000000)
        "RS256.u1,u1@example.com,user,7200,3600,3600.zzzz" "secret" =
      Except.error
        ("invalid token: token is unverifiable: error while executing keyfunc: " ++
          ("unexpected signing method: " ++ "RS256")) :=
  ⟨(ValidateJWT_expired wireCodec 9000000000000
      "HS256.u1,u1@example.com,user,7200,3600,3600.hliq" "secret"
      { alg := some "HS256", claims := sampleClaims "user",
        signingInput := "HS256.u1,u1@example.com,user,7200,3600,3600",
        signature := some [104, 108, 105, 113] }
      7200 (by decide) rfl (by decide)).2.1 "HS256" [104, 108, 105, 113] rfl (by decide) rfl
      (by decide),
    ((ValidateJWT_expired wireCodec 9000000000000
      "RS256.u1,u1@example.com,user,7200,3600,3600.zzzz" "secret"
      { alg := some "RS256", claims := sampleClaims "user",
        signingInput := "RS256.u1,u1@example.com,user,7200,3600,3600",
        signature := some [122, 122, 122, 122] }
      7200 (by decide) rfl (by decide)).2.2.2.1 "RS256" [122, 122, 122, 122] rfl (by decide)
      (by decide) rfl).2⟩

/-! ## C12: the ownership gate of UpdateProfile -/

theorem sendError_of_none {σ : Type} (h : UserHandler σ) (w : ResponseWriter)
    (message : String) (status : Nat) (hw : w.status = none) :
    h.sendError w message status =
      { header := w.header.Set "Content-Type" "application/json"
        status := some status
        body := w.body ++ [Chunk.json { Error := message }] } := by
  unfold UserHandler.sendError
  exact error_reply_of_none w status message hw

theorem UpdateProfile_no_claims {σ : Type} (h : UserHandler σ)
    (decodeBody : String → Except String UpdateProfileRequest)
    (w : ResponseWriter) (r : Request) (db : σ) (err : String)
    (herr : GetUserFromContext r.ctx = Except.error err) :
    h.UpdateProfile decodeBody w r db =
      { w := h.sendError w err StatusUnauthorized, db := db, calls := [],
        panicked := false } := by
  unfold UserHandler.UpdateProfile
  simp only [herr]

theorem UpdateProfile_mismatch {σ : Type} (h : UserHandler σ)
    (decodeBody : String → Except String UpdateProfileRequest)
    (w : ResponseWriter) (r : Request) (db : σ) (C : JWTClaim) (userID : ObjectID)
    (P : ProfileResponse)
    (hclaims : GetUserFromContext r.ctx = Except.ok (some C))
    (hid : ObjectIDFromHex (r.Var "id") = Except.ok userID)
    (hprofile : h.userService.GetProfile db userID = Except.ok P)
    (hne : P.UserProfile.AuthID.Hex ≠ C.UserID) :
    h.UpdateProfile decodeBody w r db =
      { w := h.sendError w "Unauthorized to modify this profile" StatusForbidden,
        db := db, calls := [ServiceCall.GetProfile userID], panicked := false } := by
  unfold UserHandler.UpdateProfile
  simp only [hclaims, hid, hprofile]
  rw [if_pos hne]

theorem UpdateProfile_bad_body {σ : Type} (h : UserHandler σ)
    (decodeBody : String → Except String UpdateProfileRequest)
    (w : ResponseWriter) (r : Request) (db : σ) (C : JWTClaim) (userID : ObjectID)
    (P : ProfileResponse) (e : String)
    (hclaims : GetUserFromContext r.ctx = Except.ok (some C))
    (hid : ObjectIDFromHex (r.Var "id") = Except.ok userID)
    (hprofile : h.userService.GetProfile db userID = Except.ok P)
    (heq : P.UserProfile.AuthID.Hex = C.UserID)
    (hbody : decodeBody r.Body = Except.error e) :
    h.UpdateProfile decodeBody w r db =
      { w := h.sendError w "Invalid request body" StatusBadRequest,
        db := db, calls := [ServiceCall.GetProfile userID], panicked := false } := by
  unfold UserHandler.UpdateProfile
  simp only [hclaims, hid, hprofile, hbody]
  rw [if_neg (not_not.mpr heq)]

theorem UpdateProfile_owner {σ : Type} (h : UserHandler σ)
    (decodeBody : String → Except String UpdateProfileRequest)
    (w : ResponseWriter) (r : Request) (db : σ) (C : JWTClaim) (userID : ObjectID)
    (P : ProfileResponse) (req : UpdateProfileRequest)
    (hclaims : GetUserFromContext r.ctx = Except.ok (some C))
    (hid : ObjectIDFromHex (r.Var "id") = Except.ok userID)
    (hprofile : h.userService.GetProfile db userID = Except.ok P)
    (heq : P.UserProfile.AuthID.Hex = C.UserID)
    (hbody : decodeBody r.Body = Except.ok req) :
    (h.UpdateProfile decodeBody w r db).calls =
        [ServiceCall.GetProfile userID, ServiceCall.UpdateProfile userID req] ∧
    (h.UpdateProfile decodeBody w r db).db = (h.userService.UpdateProfile db userID req).2 ∧
    (h.UpdateProfile decodeBody w r db).panicked = false := by
  unfold UserHandler.UpdateProfile
  simp only [hclaims, hid, hprofile, hbody]
  rw [if_neg (not_not.mpr heq)]
  cases hres : h.userService.UpdateProfile db userID req with
  | mk res db1 =>
      cases res with
      | error err => exact ⟨rfl, rfl, rfl⟩
      | ok u => exact ⟨rfl, rfl, rfl⟩

/-- C12 as stated fails when the body of the request does not decode: the claims of the
owner, a well-formed id and an existing profile are given, the subject id equals the
`auth_id`, and yet the handler answers 400 `Invalid request body` and the service's
`UpdateProfile` is not called. -/
theorem owner_update_stopped_by_body :
    GetUserFromContext
        (sampleProfileRequest "PUT" "bbbbbbbbbbbbbbbbbbbbbbbb" "user"
          "aaaaaaaaaaaaaaaaaaaaaaaa" "not json").ctx =
      Except.ok (some { sampleClaims "user" with UserID := "bbbbbbbbbbbbbbbbbbbbbbbb" }) ∧
    sampleService.GetProfile sampleStore { hex := "aaaaaaaaaaaaaaaaaaaaaaaa" } =
      Except.ok
        { UserProfile := sampleProfile "aaaaaaaaaaaaaaaaaaaaaaaa" "bbbbbbbbbbbbbbbbbbbbbbbb" } ∧
    (sampleProfile "aaaaaaaaaaaaaaaaaaaaaaaa" "bbbbbbbbbbbbbbbbbbbbbbbb").AuthID.Hex =
      "bbbbbbbbbbbbbbbbbbbbbbbb" ∧
    sampleHandler.UpdateProfile sampleDecodeBody freshWriter
        (sampleProfileRequest "PUT" "bbbbbbbbbbbbbbbbbbbbbbbb" "user"
          "aaaaaaaaaaaaaaaaaaaaaaaa" "not json") sampleStore =
      { w :=
          { header := [("Content-Type", ["application/json"])]
            status := some 400
            body := [Chunk.json { Error := "Invalid request body" }] }
        db := sampleStore
        calls := [ServiceCall.GetProfile { hex := "aaaaaaaaaaaaaaaaaaaaaaaa" }]
        panicked := false } := by
  decide

/-- C12 (amended): for every update-profile request with claims `C` in the context, a
well-formed profile id and an existing target profile `P`, the handler calls the service's
`UpdateProfile` (once, with the id and the decoded request) if and only if the hex
rendering of `P.AuthID` equals `C.UserID` and the request body decodes; when the two
differ it responds 403 with the error `Unauthorized to modify this profile`, whatever the
role, having called only `GetProfile` and leaving the store untouched.  When the context
holds no claims it responds 401 and makes no service call at all. -/
theorem UpdateProfile_owner_gate {σ : Type} (h : UserHandler σ)
    (decodeBody : String → Except String UpdateProfileRequest)
    (w : ResponseWriter) (r : Request) (db : σ) (C : JWTClaim) (userID : ObjectID)
    (P : ProfileResponse)
    (hw : w.status = none)
    (hclaims : GetUserFromContext r.ctx = Except.ok (some C))
    (hid : ObjectIDFromHex (r.Var "id") = Except.ok userID)
    (hprofile : h.userService.GetProfile db userID = Except.ok P) :
    (∀ (id : ObjectID) (req : UpdateProfileRequest),
      ServiceCall.UpdateProfile id req ∈ (h.UpdateProfile decodeBody w r db).calls ↔
        (id = userID ∧ P.UserProfile.AuthID.Hex = C.UserID ∧
          decodeBody r.Body = Except.ok req)) ∧
    (P.UserProfile.AuthID.Hex = C.UserID → ∀ req : UpdateProfileRequest,
      decodeBody r.Body = Except.ok req →
      (h.UpdateProfile decodeBody w r db).calls =
        [ServiceCall.GetProfile userID, ServiceCall.UpdateProfile userID req] ∧
      (h.UpdateProfile decodeBody w r db).db =
        (h.userService.UpdateProfile db userID req).2) ∧
    (P.UserProfile.AuthID.Hex ≠ C.UserID →
      h.UpdateProfile decodeBody w r db =
        { w :=
            { header := w.header.Set "Content-Type" "application/json"
              status := some 403
              body := w.body ++
                [Chunk.json { Error := "Unauthorized to modify this profile" }] }
          db := db
          calls := [ServiceCall.GetProfile userID]
          panicked := false }) ∧
    (∀ (r1 : Request) (err : String), GetUserFromContext r1.ctx = Except.error err →
      h.UpdateProfile decodeBody w r1 db =
        { w :=
            { header := w.header.Set "Content-Type" "application/json"
              status := some 401
              body := w.body ++ [Chunk.json { Error := err }] }
          db := db
          calls := []
          panicked := false }) := by
  refine ⟨?_, ?_, ?_, ?_⟩
  · intro id req
    by_cases heq : P.UserProfile.AuthID.Hex = C.UserID
    · cases hbody : decodeBody r.Body with
      | error e =>
          rw [UpdateProfile_bad_body h decodeBody w r db C userID P e hclaims hid hprofile
            heq hbody]
          simp
      | ok req0 =>
          rw [(UpdateProfile_owner h decodeBody w r db C userID P req0 hclaims hid hprofile
            heq hbody).1]
          simp only [List.mem_cons, List.mem_singleton, List.not_mem_nil, or_false,
            ServiceCall.UpdateProfile.injEq, heq, true_and, Except.ok.injEq]
          constructor
          · rintro (h1 | ⟨h1, h2⟩)
            · exact absurd h1 (by simp)
            · exact ⟨h1, h2.symm⟩
          · rintro ⟨h1, h2⟩
            exact Or.inr ⟨h1, h2.symm⟩
    · rw [UpdateProfile_mismatch h decodeBody w r db C userID P hclaims hid hprofile heq]
      simp [heq]
  · intro heq req hbody
    have := UpdateProfile_owner h decodeBody w r db C userID P req hclaims hid hprofile
      heq hbody
    exact ⟨this.1, this.2.1⟩
  · intro hne
    rw [UpdateProfile_mismatch h decodeBody w r db C userID P hclaims hid hprofile hne,
      sendError_of_none h w _ _ hw]
    rfl
  · intro r1 err herr
    rw [UpdateProfile_no_claims h decodeBody w r1 db err herr,
      sendError_of_none h w _ _ hw]
    rfl

/-- C12 (amended) at concrete requests: the owner renames the profile; another user with
role `admin` is refused with 403 and the store stays as it was. -/
theorem UpdateProfile_owner_gate_witness :
    (sampleHandler.UpdateProfile sampleDecodeBody freshWriter
        (sampleProfileRequest "PUT" "bbbbbbbbbbbbbbbbbbbbbbbb" "user"
          "aaaaaaaaaaaaaaaaaaaaaaaa" "rename neo2") sampleStore).calls =
      [ServiceCall.GetProfile { hex := "aaaaaaaaaaaaaaaaaaaaaaaa" },
        ServiceCall.UpdateProfile { hex := "aaaaaaaaaaaaaaaaaaaaaaaa" }
          { Username := some "neo2", FirstName := none, LastName := none,
            PhoneNumber := none, Address := none }] ∧
    sampleHandler.UpdateProfile sampleDecodeBody freshWriter
        (sampleProfileRequest "PUT" "cccccccccccccccccccccccc" "admin"
          "aaaaaaaaaaaaaaaaaaaaaaaa" "rename neo2") sampleStore =
      { w :=
          { header := [("Content-Type", ["application/json"])]
            status := some 403
            body := [Chunk.json { Error := "Unauthorized to modify this profile" }] }
        db := sampleStore
        calls := [ServiceCall.GetProfile { hex := "aaaaaaaaaaaaaaaaaaaaaaaa" }]
        panicked := false } :=
  ⟨((UpdateProfile_owner_gate sampleHandler sampleDecodeBody freshWriter
      (sampleProfileRequest "PUT" "bbbbbbbbbbbbbbbbbbbbbbbb" "user"
        "aaaaaaaaaaaaaaaaaaaaaaaa" "rename neo2") sampleStore
      { sampleClaims "user" with UserID := "bbbbbbbbbbbbbbbbbbbbbbbb" }
      { hex := "aaaaaaaaaaaaaaaaaaaaaaaa" }
      { UserProfile := sampleProfile "aaaaaaaaaaaaaaaaaaaaaaaa" "bbbbbbbbbbbbbbbbbbbbbbbb" }
      rfl (by decide) (by decide) (by decide)).2.1 (by decide) _ (by decide)).1,
    (UpdateProfile_owner_gate sampleHandler sampleDecodeBody freshWriter
      (sampleProfileRequest "PUT" "cccccccccccccccccccccccc" "admin"
        "aaaaaaaaaaaaaaaaaaaaaaaa" "rename neo2") sampleStore
      { sampleClaims "admin" with UserID := "cccccccccccccccccccccccc" }
      { hex := "aaaaaaaaaaaaaaaaaaaaaaaa" }
      { UserProfile := sampleProfile "aaaaaaaaaaaaaaaaaaaaaaaa" "bbbbbbbbbbbbbbbbbbbbbbbb" }
      rfl (by decide) (by decide) (by decide)).2.2.1 (by decide)⟩

/-! ## C13: the owner-or-admin gate of DeleteProfile -/

theorem DeleteProfile_denied {σ : Type} (h : UserHandler σ)
    (w : ResponseWriter) (r : Request) (db : σ) (C : JWTClaim) (userID : ObjectID)
    (P : ProfileResponse)
    (hclaims : GetUserFromContext r.ctx = Except.ok (some C))
    (hid : ObjectIDFromHex (r.Var "id") = Except.ok userID)
    (hprofile : h.userService.GetProfile db userID = Except.ok P)
    (hdeny : P.UserProfile.AuthID.Hex ≠ C.UserID ∧ C.Role ≠ "admin") :
    h.DeleteProfile w r db =
      { w := h.sendError w "Unauthorized to delete this profile" StatusForbidden,
        db := db, calls := [ServiceCall.GetProfile userID], panicked := false } := by
  unfold UserHandler.DeleteProfile
  simp only [hclaims, hid, hprofile]
  rw [if_pos hdeny]

theorem DeleteProfile_allowed {σ : Type} (h : UserHandler σ)
    (w : ResponseWriter) (r : Request) (db : σ) (C : JWTClaim) (userID : ObjectID)
    (P : ProfileResponse)
    (hclaims : GetUserFromContext r.ctx = Except.ok (some C))
    (hid : ObjectIDFromHex (r.Var "id") = Except.ok userID)
    (hprofile : h.userService.GetProfile db userID = Except.ok P)
    (hallow : ¬ (P.UserProfile.AuthID.Hex ≠ C.UserID ∧ C.Role ≠ "admin")) :
    (h.DeleteProfile w r db).calls =
        [ServiceCall.GetProfile userID, ServiceCall.DeleteProfile userID] ∧
    (h.DeleteProfile w r db).db = (h.userService.DeleteProfile db userID).2 ∧
    (h.DeleteProfile w r db).panicked = false := by
  unfold UserHandler.DeleteProfile
  simp only [hclaims, hid, hprofile]
  rw [if_neg hallow]
  cases hres : h.userService.DeleteProfile db userID with
  | mk res db1 =>
      cases res with
      | error err => exact ⟨rfl, rfl, rfl⟩
      | ok u => exact ⟨rfl, rfl, rfl⟩

/-- C13: for every delete-profile request with claims `C` in the context, a well-formed
profile id and an existing target profile `P`, the handler calls the service's
`DeleteProfile` (once, with the id, after `GetProfile`) if and only if the hex rendering
of `P.AuthID` equals `C.UserID` or `C.Role` is exactly `admin`; otherwise it responds 403
with the error `Unauthorized to delete this profile`, having called only `GetProfile` and
leaving the store untouched. -/
theorem DeleteProfile_owner_or_admin {σ : Type} (h : UserHandler σ)
    (w : ResponseWriter) (r : Request) (db : σ) (C : JWTClaim) (userID : ObjectID)
    (P : ProfileResponse)
    (hw : w.status = none)
    (hclaims : GetUserFromContext r.ctx = Except.ok (some C))
    (hid : ObjectIDFromHex (r.Var "id") = Except.ok userID)
    (hprofile : h.userService.GetProfile db userID = Except.ok P) :
    (∀ id : ObjectID,
      ServiceCall.DeleteProfile id ∈ (h.DeleteProfile w r db).calls ↔
        (id = userID ∧ (P.UserProfile.AuthID.Hex = C.UserID ∨ C.Role = "admin"))) ∧
    ((P.UserProfile.AuthID.Hex = C.UserID ∨ C.Role = "admin") →
      (h.DeleteProfile w r db).calls =
        [ServiceCall.GetProfile userID, ServiceCall.DeleteProfile userID] ∧
      (h.DeleteProfile w r db).db = (h.userService.DeleteProfile db userID).2) ∧
    (¬ (P.UserProfile.AuthID.Hex = C.UserID ∨ C.Role = "admin") →
      h.DeleteProfile w r db =
        { w :=
            { header := w.header.Set "Content-Type" "application/json"
              status := some 403
              body := w.body ++
                [Chunk.json { Error := "Unauthorized to delete this profile" }] }
          db := db
          calls := [ServiceCall.GetProfile userID]
          panicked := false }) := by
  have hiff : (¬ (P.UserProfile.AuthID.Hex ≠ C.UserID ∧ C.Role ≠ "admin")) ↔
      (P.UserProfile.AuthID.Hex = C.UserID ∨ C.Role = "admin") := by
    constructor
    · intro hn
      by_cases h1 : P.UserProfile.AuthID.Hex = C.UserID
      · exact Or.inl h1
      · by_cases h2 : C.Role = "admin"
        · exact Or.inr h2
        · exact absurd ⟨h1, h2⟩ hn
    · rintro (h1 | h1) ⟨h2, h3⟩
      · exact h2 h1
      · exact h3 h1
  refine ⟨?_, ?_, ?_⟩
  · intro id
    by_cases hallow : P.UserProfile.AuthID.Hex = C.UserID ∨ C.Role = "admin"
    · rw [(DeleteProfile_allowed h w r db C userID P hclaims hid hprofile
        (hiff.mpr hallow)).1]
      simp [hallow]
    · have hdeny : P.UserProfile.AuthID.Hex ≠ C.UserID ∧ C.Role ≠ "admin" := by
        by_contra hc
        exact hallow (hiff.mp hc)
      rw [DeleteProfile_denied h w r db C userID P hclaims hid hprofile hdeny]
      simp [hallow]
  · intro hallow
    have := DeleteProfile_allowed h w r db C userID P hclaims hid hprofile (hiff.mpr hallow)
    exact ⟨this.1, this.2.1⟩
  · intro hno
    have hdeny : P.UserProfile.AuthID.Hex ≠ C.UserID ∧ C.Role ≠ "admin" := by
      by_contra hc
      exact hno (hiff.mp hc)
    rw [DeleteProfile_denied h w r db C userID P hclaims hid hprofile hdeny,
      sendError_of_none h w _ _ hw]
    rfl

/-- C13 at concrete requests: an `admin` who is not the owner deletes the profile; a `user`
who is not the owner is refused with 403 and the store stays as it was. -/
theorem DeleteProfile_owner_or_admin_witness :
    (sampleHandler.DeleteProfile freshWriter
        (sampleProfileRequest "DELETE" "cccccccccccccccccccccccc" "admin"
          "aaaaaaaaaaaaaaaaaaaaaaaa" "") sampleStore).calls =
      [ServiceCall.GetProfile { hex := "aaaaaaaaaaaaaaaaaaaaaaaa" },
        ServiceCall.DeleteProfile { hex := "aaaaaaaaaaaaaaaaaaaaaaaa" }] ∧
    sampleHandler.DeleteProfile freshWriter
        (sampleProfileRequest "DELETE" "cccccccccccccccccccccccc" "user"
          "aaaaaaaaaaaaaaaaaaaaaaaa" "") sampleStore =
      { w :=
          { header := [("Content-Type", ["application/json"])]
            status := some 403
            body := [Chunk.json { Error := "Unauthorized to delete this profile" }] }
        db := sampleStore
        calls := [ServiceCall.GetProfile { hex := "aaaaaaaaaaaaaaaaaaaaaaaa" }]
        panicked := false } :=
  ⟨((DeleteProfile_owner_or_admin sampleHandler freshWriter
      (sampleProfileRequest "DELETE" "cccccccccccccccccccccccc" "admin"
        "aaaaaaaaaaaaaaaaaaaaaaaa" "") sampleStore
      { sampleClaims "admin" with UserID := "cccccccccccccccccccccccc" }
      { hex := "aaaaaaaaaaaaaaaaaaaaaaaa" }
      { UserProfile := sampleProfile "aaaaaaaaaaaaaaaaaaaaaaaa" "bbbbbbbbbbbbbbbbbbbbbbbb" }
      rfl (by decide) (by decide) (by decide)).2.1 (by decide)).1,
    (DeleteProfile_owner_or_admin sampleHandler freshWriter
      (sampleProfileRequest "DELETE" "cccccccccccccccccccccccc" "user"
        "aaaaaaaaaaaaaaaaaaaaaaaa" "") sampleStore
      { sampleClaims "user" with UserID := "cccccccccccccccccccccccc" }
      { hex := "aaaaaaaaaaaaaaaaaaaaaaaa" }
      { UserProfile := sampleProfile "aaaaaaaaaaaaaaaaaaaaaaaa" "bbbbbbbbbbbbbbbbbbbbbbbb" }
      rfl (by decide) (by decide) (by decide)).2.2 (by decide)⟩

/-! ## C20: ValidateCredentials -/

/-- C20: when the repository returns an active user whose stored hash matches the password,
`ValidateCredentials` returns that user without error whether `UpdateLastLogin` succeeds or
fails (a failure is only logged); for an inactive user it fails with `user is not active`
after the lookup alone, with no password check and no last-login update; for a failed
lookup and for a non-matching password it fails with `invalid credentials` without a
last-login update and with the store untouched. -/
theorem ValidateCredentials_outcomes {σ : Type} (s : service.UserService σ)
    (compare : String → String → Except String Unit) (db : σ) (email password : String) :
    (∀ user : User, s.repo.GetByEmail db email = Except.ok user → user.IsActive = true →
      compare user.Password password = Except.ok () →
      (s.ValidateCredentials compare db email password).result = Except.ok user ∧
      (s.ValidateCredentials compare db email password).db =
        (s.repo.UpdateLastLogin db user.ID).2 ∧
      (s.ValidateCredentials compare db email password).trace.take 3 =
        [Effect.GetByEmail email, Effect.CompareHashAndPassword user.Password password,
          Effect.UpdateLastLogin user.ID] ∧
      (∀ err : String, (s.repo.UpdateLastLogin db user.ID).1 = Except.error err →
        (s.ValidateCredentials compare db email password).trace.drop 3 =
          [Effect.LogPrintf ("Failed to update last login: " ++ err)])) ∧
    (∀ user : User, s.repo.GetByEmail db email = Except.ok user → user.IsActive = false →
      s.ValidateCredentials compare db email password =
        { result := Except.error "user is not active", db := db,
          trace := [Effect.GetByEmail email] }) ∧
    (∀ err : String, s.repo.GetByEmail db email = Except.error err →
      s.ValidateCredentials compare db email password =
        { result := Except.error "invalid credentials", db := db,
          trace := [Effect.GetByEmail email] }) ∧
    (∀ (user : User) (err : String), s.repo.GetByEmail db email = Except.ok user →
      user.IsActive = true → compare user.Password password = Except.error err →
      s.ValidateCredentials compare db email password =
        { result := Except.error "invalid credentials", db := db,
          trace := [Effect.GetByEmail email,
            Effect.CompareHashAndPassword user.Password password] }) := by
  refine ⟨?_, ?_, ?_, ?_⟩
  · intro user hget hactive hcmp
    unfold service.UserService.ValidateCredentials
    simp only [hget, hactive, hcmp, Bool.not_true, Bool.false_eq_true, if_false]
    cases hres : s.repo.UpdateLastLogin db user.ID with
    | mk res db1 =>
        cases res with
        | error e =>
            refine ⟨rfl, rfl, rfl, ?_⟩
            intro err herr
            cases herr
            rfl
        | ok u =>
            refine ⟨rfl, rfl, rfl, ?_⟩
            intro err herr
            cases herr
  · intro user hget hinactive
    unfold service.UserService.ValidateCredentials
    simp [hget, hinactive]
  · intro err hget
    unfold service.UserService.ValidateCredentials
    simp [hget]
  · intro user err hget hactive hcmp
    unfold service.UserService.ValidateCredentials
    simp [hget, hactive, hcmp]

/-- C20 at concrete inputs: the login of an active user succeeds with the repository up
and with the last-login update failing, and an inactive user is refused before the
password is looked at. -/
theorem ValidateCredentials_outcomes_witness :
    ({ repo := sampleRepository false } : service.UserService (List User)).ValidateCredentials
        sampleCompare [sampleUser "t@example.com" "hash:pw" true] "t@example.com" "pw" =
      { result := Except.ok (sampleUser "t@example.com" "hash:pw" true)
        db := [{ sampleUser "t@example.com" "hash:pw" true with LastLoginAt := 1 }]
        trace := [Effect.GetByEmail "t@example.com",
          Effect.CompareHashAndPassword "hash:pw" "pw",
          Effect.UpdateLastLogin { hex := "dddddddddddddddddddddddd" }] } ∧
    (({ repo := sampleRepository true } :
        service.UserService (List User)).ValidateCredentials
        sampleCompare [sampleUser "t@example.com" "hash:pw" true] "t@example.com"
        "pw").result =
      Except.ok (sampleUser "t@example.com" "hash:pw" true) ∧
    ({ repo := sampleRepository false } : service.UserService (List User)).ValidateCredentials
        sampleCompare [sampleUser "t@example.com" "hash:pw" false] "t@example.com" "wrong" =
      { result := Except.error "user is not active"
        db := [sampleUser "t@example.com" "hash:pw" false]
        trace := [Effect.GetByEmail "t@example.com"] } :=
  ⟨by decide,
    ((ValidateCredentials_outcomes { repo := sampleRepository true } sampleCompare
      [sampleUser "t@example.com" "hash:pw" true] "t@example.com" "pw").1
      (sampleUser "t@example.com" "hash:pw" true) (by decide) rfl (by decide)).1,
    (ValidateCredentials_outcomes { repo := sampleRepository false } sampleCompare
      [sampleUser "t@example.com" "hash:pw" false] "t@example.com" "wrong").2.1
      (sampleUser "t@example.com" "hash:pw" false) (by decide) rfl⟩

/-! ## C23: the paging arguments of ListUsers -/

theorem wrapInt64_of_range (n : Int) (hlo : -9223372036854775808 ≤ n)
    (hhi : n ≤ 9223372036854775807) : wrapInt64 n = n := by
  unfold wrapInt64
  omega

/-- C23 (the code differs): `ListUsers` hands the repository a page `p ≥ 1` and a limit
`1 ≤ l ≤ 100` (a page below 1 becomes 1, a limit outside 1..100 becomes 10, other values
pass unchanged), but the page has no upper bound: for page 9223372036854775807 and limit
100 the int64 product `(page - 1) * limit` of the repository wraps to the skip offset
-200.  The offset is non-negative whenever the product fits in int64. -/
theorem ListUsers_skip_offset :
    (∀ (α : Type) (list : Int → Int → α) (page limit : Int),
      ∃ p l : Int,
        service.UserService.ListUsers list page limit = list p l ∧
        1 ≤ p ∧ 1 ≤ l ∧ l ≤ 100 ∧
        (page < 1 → p = 1) ∧ (1 ≤ page → p = page) ∧
        (limit < 1 ∨ limit > 100 → l = 10) ∧ (1 ≤ limit ∧ limit ≤ 100 → l = limit)) ∧
    service.UserService.ListUsers repository.UserRepository.listOptions
        9223372036854775807 100 =
      { Skip := -200, Limit := 100, SortKeys := [("created_at", -1)] } ∧
    (∀ page limit : Int, 1 ≤ page → page ≤ 9223372036854775807 → 1 ≤ limit → limit ≤ 100 →
      (page - 1) * limit ≤ 9223372036854775807 →
      (service.UserService.ListUsers repository.UserRepository.listOptions page limit).Skip =
          (page - 1) * limit ∧
        0 ≤ (service.UserService.ListUsers repository.UserRepository.listOptions
          page limit).Skip) := by
  refine ⟨?_, by decide, ?_⟩
  · intro α list page limit
    refine ⟨if page < 1 then 1 else page,
      if limit < 1 ∨ limit > 100 then 10 else limit, rfl, ?_, ?_, ?_, ?_, ?_, ?_, ?_⟩
    · split <;> omega
    · split <;> omega
    · split <;> omega
    · intro h; rw [if_pos h]
    · intro h; rw [if_neg (by omega)]
    · intro h; rw [if_pos h]
    · intro h; rw [if_neg (by omega)]
  · intro page limit hp1 hp2 hl1 hl2 hfit
    have hpage : ¬ page < 1 := by omega
    have hlimit : ¬ (limit < 1 ∨ limit > 100) := by omega
    have hnonneg : 0 ≤ (page - 1) * limit := Int.mul_nonneg (by omega) (by omega)
    have hskip : (service.UserService.ListUsers repository.UserRepository.listOptions
        page limit).Skip = (page - 1) * limit := by
      simp only [service.UserService.ListUsers, repository.UserRepository.listOptions,
        if_neg hpage, if_neg hlimit]
      rw [wrapInt64_of_range (page - 1) (by omega) (by omega)]
      exact wrapInt64_of_range _ (by omega) hfit
    exact ⟨hskip, by rw [hskip]; exact hnonneg⟩

/-! ## C24: ValidatePassword -/

theorem utf8_length_ascii (c : Char) (h : c.val ≤ 127) :
    (String.utf8EncodeChar c).length = 1 := by
  unfold String.utf8EncodeChar
  simp [h]

theorem utf8_length_pos (c : Char) : 1 ≤ (String.utf8EncodeChar c).length := by
  simp only [String.utf8EncodeChar]
  split_ifs <;> simp

theorem toBytes_cons (c : Char) (cs : List Char) :
    (toBytes (String.mk (c :: cs))).length =
      (String.utf8EncodeChar c).length + (toBytes (String.mk cs)).length := by
  simp [toBytes]

theorem len_of_ascii (l : List Char) (h : ∀ c ∈ l, c.val ≤ 127) :
    len (String.mk l) = l.length := by
  induction l with
  | nil => rfl
  | cons c cs ih =>
      unfold len at ih ⊢
      rw [toBytes_cons, utf8_length_ascii c (h c (List.mem_cons_self _ _)),
        ih (fun d hd => h d (List.mem_cons_of_mem _ hd))]
      simp [Nat.add_comm]

theorem length_le_len (l : List Char) : l.length ≤ len (String.mk l) := by
  induction l with
  | nil => simp
  | cons c cs ih =>
      unfold len at ih ⊢
      rw [toBytes_cons]
      have := utf8_length_pos c
      simp only [List.length_cons]
      omega

/-- C24 (the code differs): `ValidatePassword` measures the length with `len`, the number
of bytes, not of characters: the password of three two-byte letters followed by `1a` has 5
characters and 8 bytes and is accepted.  `ValidatePassword` returns nil exactly when the
password has at least 8 bytes and contains an ASCII letter and an ASCII digit; on
passwords of ASCII characters, where bytes and characters coincide, this is the claim. -/
theorem ValidatePassword_counts_bytes :
    ("ééé1a" : String).length = 5 ∧
    len "ééé1a" = 8 ∧
    ValidatePassword "ééé1a" = Except.ok () ∧
    (∀ p : String, ValidatePassword p = Except.ok () ↔
      (8 ≤ len p ∧ (∃ c ∈ p.data, c.isAlpha = true) ∧ (∃ c ∈ p.data, c.isDigit = true))) ∧
    (∀ p : String, len p < 8 →
      ValidatePassword p = Except.error "password must be at least 8 characters") ∧
    (∀ p : String, 8 ≤ len p →
      ((¬ ∃ c ∈ p.data, c.isAlpha = true) ∨ (¬ ∃ c ∈ p.data, c.isDigit = true)) →
      ValidatePassword p = Except.error "password must contain both letters and numbers") ∧
    (∀ p : String, (∀ c ∈ p.data, c.val ≤ 127) → len p = p.length) ∧
    (∀ p : String, p.length ≤ len p) := by
  have hletter : ∀ p : String, matchLetter p = true ↔ ∃ c ∈ p.data, c.isAlpha = true := by
    intro p
    simp [matchLetter, List.any_eq_true]
  have hdigit : ∀ p : String, matchDigit p = true ↔ ∃ c ∈ p.data, c.isDigit = true := by
    intro p
    simp [matchDigit, List.any_eq_true]
  refine ⟨by decide, by decide, by decide, ?_, ?_, ?_, ?_, ?_⟩
  · intro p
    rw [← hletter, ← hdigit]
    unfold ValidatePassword
    by_cases hlen : len p < 8
    · simp [hlen]
    · have h8 : 8 ≤ len p := by omega
      cases hl : matchLetter p <;> cases hd : matchDigit p <;> simp [hlen, hl, hd, h8]
  · intro p hlen
    simp [ValidatePassword, hlen]
  · intro p h8 hmiss
    rw [← hletter, ← hdigit] at hmiss
    have hlen : ¬ len p < 8 := by omega
    unfold ValidatePassword
    rw [if_neg hlen]
    cases hl : matchLetter p <;> cases hd : matchDigit p <;> simp_all
  · intro p hp
    exact len_of_ascii p.data hp
  · intro p
    exact length_le_len p.data

/-! ## C22: validateUsername -/

theorem isUsernameChar_ascii (c : Char) (h : isUsernameChar c = true) : c.val ≤ 127 := by
  simp only [isUsernameChar, Bool.or_eq_true, decide_eq_true_eq] at h
  rcases h with ((h | h) | h) | h
  · simp [Char.isAlpha, Char.isUpper, Char.isLower] at h
    rcases h with h | h
    · exact UInt32.le_trans h.2 (by decide)
    · exact UInt32.le_trans h.2 (by decide)
  · simp [Char.isDigit] at h
    exact UInt32.le_trans h.2 (by decide)
  · rw [h]; decide
  · rw [h]; decide

theorem username_rule (t : String) :
    (¬ (len t < 3 ∨ len t > 30) ∧ matchUsername t = true) ↔
      (3 ≤ t.length ∧ t.length ≤ 30 ∧ ∀ c ∈ t.data, isUsernameChar c = true) := by
  constructor
  · rintro ⟨hlen, hmatch⟩
    simp only [matchUsername, Bool.and_eq_true, List.all_eq_true] at hmatch
    have hascii : ∀ c ∈ t.data, c.val ≤ 127 := fun c hc =>
      isUsernameChar_ascii c (hmatch.2 c hc)
    have hl : len t = t.length := len_of_ascii t.data hascii
    rw [hl] at hlen
    exact ⟨by omega, by omega, hmatch.2⟩
  · rintro ⟨h3, h30, hall⟩
    have hascii : ∀ c ∈ t.data, c.val ≤ 127 := fun c hc =>
      isUsernameChar_ascii c (hall c hc)
    have hl : len t = t.length := len_of_ascii t.data hascii
    refine ⟨by rw [hl]; omega, ?_⟩
    simp only [matchUsername, Bool.and_eq_true, List.all_eq_true]
    refine ⟨?_, hall⟩
    have hne : t.data ≠ [] := by
      intro hnil
      have : t.length = 0 := by simp [String.length, hnil]
      omega
    cases hd : t.data with
    | nil => exact absurd hd hne
    | cons a l => rfl

theorem validateUsername_ok_iff (u : String) :
    validateUsername u = Except.ok () ↔
      (¬ (len (TrimSpace u) < 3 ∨ len (TrimSpace u) > 30) ∧
        matchUsername (TrimSpace u) = true) := by
  unfold validateUsername
  by_cases hlen : len (TrimSpace u) < 3 ∨ len (TrimSpace u) > 30
  · simp [hlen]
  · cases hm : matchUsername (TrimSpace u) <;> simp [hlen, hm]

theorem ValidateUsername_ok_iff (u : String) :
    ValidateUsername u = Except.ok () ↔
      (¬ (u.length < 3 ∨ u.length > 30) ∧ matchUsername u = true) := by
  unfold ValidateUsername
  have hr : RuneCountInString u = u.length := rfl
  simp only [hr]
  by_cases hlen : u.length < 3 ∨ u.length > 30
  · simp [hlen]
  · cases hm : matchUsername u <;> simp [hlen, hm]

/-- C22 as stated fails on a padded name: ` bob ` has five characters, two of them spaces,
and `validateUsername` returns nil because it checks the name with the white space trimmed
off.  The service then hands the name as supplied to the repository: a rename to ` neo2 `
reaches `UpdateProfile` of the repository with the spaces. -/
theorem validateUsername_accepts_padded :
    validateUsername " bob " = Except.ok () ∧
    (" bob " : String).length = 5 ∧
    ' ' ∈ (" bob " : String).data ∧
    isUsernameChar ' ' = false ∧
    (({ repo := sampleProfileRepository } :
        services.UserService (List UserProfile)).UpdateProfile sampleStore
        { hex := "aaaaaaaaaaaaaaaaaaaaaaaa" } (renameRequest " neo2 ")).calls =
      [RepoCall.GetProfileByID { hex := "aaaaaaaaaaaaaaaaaaaaaaaa" },
        RepoCall.GetProfileByUsername " neo2 ",
        RepoCall.UpdateProfile { hex := "aaaaaaaaaaaaaaaaaaaaaaaa" }
          [("username", UpdateValue.str " neo2 ")]] := by
  decide

/-- C22 (amended): for every string `u`, the profile service's `validateUsername u`
returns nil if and only if `u` with its leading and trailing white space removed has
between 3 and 30 characters, each of them an ASCII letter, digit, underscore or hyphen; so
on a `u` without surrounding white space it returns nil exactly when `u` itself is such a
name.  The function `ValidateUsername` of package `utils`, which does not trim, returns
nil exactly when `u` itself is such a name. -/
theorem validateUsername_trimmed (u : String) :
    (validateUsername u = Except.ok () ↔
      (3 ≤ (TrimSpace u).length ∧ (TrimSpace u).length ≤ 30 ∧
        ∀ c ∈ (TrimSpace u).data, isUsernameChar c = true)) ∧
    (TrimSpace u = u →
      (validateUsername u = Except.ok () ↔
        (3 ≤ u.length ∧ u.length ≤ 30 ∧ ∀ c ∈ u.data, isUsernameChar c = true))) ∧
    (ValidateUsername u = Except.ok () ↔
      (3 ≤ u.length ∧ u.length ≤ 30 ∧ ∀ c ∈ u.data, isUsernameChar c = true)) ∧
    (∀ c : Char, isUsernameChar c = true ↔
      (c.isAlpha = true ∨ c.isDigit = true ∨ c = '_' ∨ c = '-')) := by
  have h1 : validateUsername u = Except.ok () ↔
      (3 ≤ (TrimSpace u).length ∧ (TrimSpace u).length ≤ 30 ∧
        ∀ c ∈ (TrimSpace u).data, isUsernameChar c = true) := by
    rw [validateUsername_ok_iff, username_rule]
  refine ⟨h1, ?_, ?_, ?_⟩
  · intro htrim
    rw [htrim] at h1
    exact h1
  · rw [ValidateUsername_ok_iff]
    constructor
    · rintro ⟨hlen, hm⟩
      simp only [matchUsername, Bool.and_eq_true, List.all_eq_true] at hm
      exact ⟨by omega, by omega, hm.2⟩
    · rintro ⟨h3, h30, hall⟩
      exact ⟨by omega, ((username_rule u).mpr ⟨h3, h30, hall⟩).2⟩
  · intro c
    simp [isUsernameChar, or_assoc]

/-! ## C21: the repository write of the service's UpdateProfile -/

theorem usernameBlock_accepted {σ : Type} (s : services.UserService σ) (db : σ)
    (userID : ObjectID) (req : UpdateProfileRequest) (update : UpdateSet)
    (h : UsernameAccepted s db userID req) :
    s.usernameBlock db userID req update =
      (Except.ok (update ++
        (match req.Username with
          | some v => [("username", UpdateValue.str v)]
          | none => [])), usernameLookups req) := by
  cases hU : req.Username with
  | none => simp [services.UserService.usernameBlock, usernameLookups, hU]
  | some u =>
      obtain ⟨hv, hl⟩ := h u hU
      rcases hl with hnone | ⟨p, hp, hid⟩
      · simp [services.UserService.usernameBlock, usernameLookups, hU, hv, hnone]
      · simp [services.UserService.usernameBlock, usernameLookups, hU, hv, hp, hid]

theorem usernameBlock_refused {σ : Type} (s : services.UserService σ) (db : σ)
    (userID : ObjectID) (req : UpdateProfileRequest) (update : UpdateSet)
    (h : ¬ UsernameAccepted s db userID req) :
    ∃ (err : String) (calls : List RepoCall),
      s.usernameBlock db userID req update = (Except.error err, calls) ∧
      ∀ (id : ObjectID) (upd : UpdateSet), RepoCall.UpdateProfile id upd ∉ calls := by
  unfold UsernameAccepted at h
  push_neg at h
  obtain ⟨u, hU, hbad⟩ := h
  cases hv : validateUsername u with
  | error e =>
      exact ⟨e, [], by simp [services.UserService.usernameBlock, hU, hv], by simp⟩
  | ok x =>
      have hx : validateUsername u = Except.ok () := hv
      obtain ⟨hnone, hsome⟩ := hbad hx
      cases hl : s.repo.GetProfileByUsername db u with
      | error e =>
          exact ⟨e, [RepoCall.GetProfileByUsername u],
            by simp [services.UserService.usernameBlock, hU, hv, hl], by simp⟩
      | ok found =>
          cases found with
          | none => exact absurd hl hnone
          | some p =>
              have hid : p.ID ≠ userID := hsome p hl
              exact ⟨"username already exists", [RepoCall.GetProfileByUsername u],
                by simp [services.UserService.usernameBlock, hU, hv, hl, hid], by simp⟩

theorem usernameBlock_invalid {σ : Type} (s : services.UserService σ) (db : σ)
    (userID : ObjectID) (req : UpdateProfileRequest) (update : UpdateSet)
    (u err : String) (hU : req.Username = some u)
    (hv : validateUsername u = Except.error err) :
    s.usernameBlock db userID req update = (Except.error err, []) := by
  simp [services.UserService.usernameBlock, hU, hv]

theorem fieldBlocks_valid (req : UpdateProfileRequest) (update : UpdateSet)
    (h : FieldsValid req) :
    services.UserService.fieldBlocks req update =
      Except.ok (update ++
        (match req.FirstName with
          | some v => [("first_name", UpdateValue.str v)]
          | none => []) ++
        (match req.LastName with
          | some v => [("last_name", UpdateValue.str v)]
          | none => []) ++
        (match req.PhoneNumber with
          | some v => [("phone_number", UpdateValue.str v)]
          | none => []) ++
        (match req.Address with
          | some a => [("address", UpdateValue.address a)]
          | none => [])) := by
  obtain ⟨h1, h2, h3, h4⟩ := h
  cases hF : req.FirstName <;> cases hL : req.LastName <;> cases hP : req.PhoneNumber <;>
    cases hA : req.Address <;>
    simp_all [services.UserService.fieldBlocks]

theorem fieldBlocks_first_invalid (req : UpdateProfileRequest) (update : UpdateSet)
    (v err : String) (hF : req.FirstName = some v)
    (hv : validateName v = Except.error err) :
    services.UserService.fieldBlocks req update = Except.error err := by
  simp [services.UserService.fieldBlocks, hF, hv]

theorem fieldBlocks_last_invalid (req : UpdateProfileRequest) (update : UpdateSet)
    (v err : String)
    (h1 : ∀ w : String, req.FirstName = some w → validateName w = Except.ok ())
    (hL : req.LastName = some v) (hv : validateName v = Except.error err) :
    services.UserService.fieldBlocks req update = Except.error err := by
  cases hF : req.FirstName <;> simp_all [services.UserService.fieldBlocks]

theorem fieldBlocks_phone_invalid (req : UpdateProfileRequest) (update : UpdateSet)
    (v err : String)
    (h1 : ∀ w : String, req.FirstName = some w → validateName w = Except.ok ())
    (h2 : ∀ w : String, req.LastName = some w → validateName w = Except.ok ())
    (hP : req.PhoneNumber = some v) (hv : validatePhoneNumber v = Except.error err) :
    services.UserService.fieldBlocks req update = Except.error err := by
  cases hF : req.FirstName <;> cases hL : req.LastName <;>
    simp_all [services.UserService.fieldBlocks]

theorem fieldBlocks_address_invalid (req : UpdateProfileRequest) (update : UpdateSet)
    (a : Address) (err : String)
    (h1 : ∀ w : String, req.FirstName = some w → validateName w = Except.ok ())
    (h2 : ∀ w : String, req.LastName = some w → validateName w = Except.ok ())
    (h3 : ∀ w : String, req.PhoneNumber = some w → validatePhoneNumber w = Except.ok ())
    (hA : req.Address = some a) (hv : validateAddress (some a) = Except.error err) :
    services.UserService.fieldBlocks req update = Except.error err := by
  cases hF : req.FirstName <;> cases hL : req.LastName <;> cases hP : req.PhoneNumber <;>
    simp_all [services.UserService.fieldBlocks]

theorem fieldBlocks_invalid (req : UpdateProfileRequest) (update : UpdateSet)
    (h : ¬ FieldsValid req) :
    ∃ err : String, services.UserService.fieldBlocks req update = Except.error err := by
  by_cases h1 : ∀ w : String, req.FirstName = some w → validateName w = Except.ok ()
  · by_cases h2 : ∀ w : String, req.LastName = some w → validateName w = Except.ok ()
    · by_cases h3 : ∀ w : String, req.PhoneNumber = some w →
          validatePhoneNumber w = Except.ok ()
      · have h4 : ¬ ∀ a : Address, req.Address = some a →
            validateAddress (some a) = Except.ok () := fun h4 => h ⟨h1, h2, h3, h4⟩
        push_neg at h4
        obtain ⟨a, hA, hbad⟩ := h4
        cases hv : validateAddress (some a) with
        | ok x => exact absurd hv hbad
        | error err =>
            exact ⟨err, fieldBlocks_address_invalid req update a err h1 h2 h3 hA hv⟩
      · push_neg at h3
        obtain ⟨v, hP, hbad⟩ := h3
        cases hv : validatePhoneNumber v with
        | ok x => exact absurd hv hbad
        | error err => exact ⟨err, fieldBlocks_phone_invalid req update v err h1 h2 hP hv⟩
    · push_neg at h2
      obtain ⟨v, hL, hbad⟩ := h2
      cases hv : validateName v with
      | ok x => exact absurd hv hbad
      | error err => exact ⟨err, fieldBlocks_last_invalid req update v err h1 hL hv⟩
  · push_neg at h1
    obtain ⟨v, hF, hbad⟩ := h1
    cases hv : validateName v with
    | ok x => exact absurd hv hbad
    | error err => exact ⟨err, fieldBlocks_first_invalid req update v err hF hv⟩

theorem suppliedUpdate_eq_nil_iff (req : UpdateProfileRequest) :
    suppliedUpdate req = [] ↔ ¬ SomeFieldSupplied req := by
  unfold suppliedUpdate SomeFieldSupplied
  cases hU : req.Username <;> cases hF : req.FirstName <;> cases hL : req.LastName <;>
    cases hP : req.PhoneNumber <;> cases hA : req.Address <;> simp


theorem UpdateProfile_accepted_aux {σ : Type} (s : services.UserService σ) (db : σ)
    (userID : ObjectID) (req : UpdateProfileRequest) (P : UserProfile)
    (hexists : s.repo.GetProfileByID db userID = Except.ok (some P))
    (hU : UsernameAccepted s db userID req) (hF : FieldsValid req) :
    s.UpdateProfile db userID req =
      if (suppliedUpdate req).length = 0 then
        { result := Except.ok (), db := db,
          calls := RepoCall.GetProfileByID userID :: usernameLookups req }
      else
        { result := (s.repo.UpdateProfile db userID (suppliedUpdate req)).1
          db := (s.repo.UpdateProfile db userID (suppliedUpdate req)).2
          calls := RepoCall.GetProfileByID userID ::
            (usernameLookups req ++ [RepoCall.UpdateProfile userID (suppliedUpdate req)]) } := by
  have h1 := usernameBlock_accepted s db userID req [] hU
  have h2 := fieldBlocks_valid req ([] ++
    (match req.Username with
      | some v => [("username", UpdateValue.str v)]
      | none => [])) hF
  rw [List.nil_append] at h1 h2
  unfold services.UserService.UpdateProfile
  simp only [hexists, h1, h2]
  rfl

theorem UpdateProfile_refused_aux {σ : Type} (s : services.UserService σ) (db : σ)
    (userID : ObjectID) (req : UpdateProfileRequest) (P : UserProfile)
    (hexists : s.repo.GetProfileByID db userID = Except.ok (some P))
    (h : ¬ (UsernameAccepted s db userID req ∧ FieldsValid req)) :
    ∃ (err : String) (calls : List RepoCall),
      s.UpdateProfile db userID req =
        { result := Except.error err, db := db,
          calls := RepoCall.GetProfileByID userID :: calls } ∧
      ∀ (id : ObjectID) (upd : UpdateSet), RepoCall.UpdateProfile id upd ∉ calls := by
  by_cases hU : UsernameAccepted s db userID req
  · have hF : ¬ FieldsValid req := fun hF => h ⟨hU, hF⟩
    have h1 := usernameBlock_accepted s db userID req [] hU
    obtain ⟨err, h2⟩ := fieldBlocks_invalid req ([] ++
      (match req.Username with
        | some v => [("username", UpdateValue.str v)]
        | none => [])) hF
    refine ⟨err, usernameLookups req, ?_, ?_⟩
    · unfold services.UserService.UpdateProfile
      simp only [hexists, h1, h2]
    · intro id upd
      unfold usernameLookups
      cases req.Username <;> simp
  · obtain ⟨err, calls, h1, hc⟩ := usernameBlock_refused s db userID req [] hU
    refine ⟨err, calls, ?_, hc⟩
    unfold services.UserService.UpdateProfile
    simp only [hexists, h1]


theorem usernameLookups_no_write (req : UpdateProfileRequest) (id : ObjectID)
    (upd : UpdateSet) : RepoCall.UpdateProfile id upd ∉ usernameLookups req := by
  unfold usernameLookups
  cases req.Username <;> simp

theorem suppliedUpdate_length_aux (req : UpdateProfileRequest) :
    (suppliedUpdate req).length = 0 ↔ ¬ SomeFieldSupplied req := by
  rw [List.length_eq_zero]
  exact suppliedUpdate_eq_nil_iff req

theorem UpdateProfile_fields_error_aux {σ : Type} (s : services.UserService σ) (db : σ)
    (userID : ObjectID) (req : UpdateProfileRequest) (P : UserProfile) (err : String)
    (hexists : s.repo.GetProfileByID db userID = Except.ok (some P))
    (hU : UsernameAccepted s db userID req)
    (hF : ∀ update : UpdateSet,
      services.UserService.fieldBlocks req update = Except.error err) :
    s.UpdateProfile db userID req =
      { result := Except.error err, db := db,
        calls := RepoCall.GetProfileByID userID :: usernameLookups req } := by
  have h1 := usernameBlock_accepted s db userID req [] hU
  unfold services.UserService.UpdateProfile
  simp only [hexists, h1, hF]

/-- C21 (counterexample): a supplied, valid username that no profile of the store holds does
not lead to the repository's `UpdateProfile` when the lookup by username fails: the call
returns the lookup's error after the two reads.  And with an invalid username and an
invalid first name the call returns the username's error, not the first name's. -/
theorem UpdateProfile_lookup_failure_blocks_write :
    failingLookupRepository.GetProfileByID sampleStore { hex := "aaaaaaaaaaaaaaaaaaaaaaaa" } =
      Except.ok (some (sampleProfile "aaaaaaaaaaaaaaaaaaaaaaaa" "bbbbbbbbbbbbbbbbbbbbbbbb")) ∧
    SomeFieldSupplied (renameRequest "neo2") ∧
    validateUsername "neo2" = Except.ok () ∧
    FieldsValid (renameRequest "neo2") ∧
    ¬ HeldByOther sampleStore { hex := "aaaaaaaaaaaaaaaaaaaaaaaa" } "neo2" ∧
    ({ repo := failingLookupRepository } : services.UserService (List UserProfile)).UpdateProfile
        sampleStore { hex := "aaaaaaaaaaaaaaaaaaaaaaaa" } (renameRequest "neo2") =
      { result := Except.error "context deadline exceeded"
        db := sampleStore
        calls := [RepoCall.GetProfileByID { hex := "aaaaaaaaaaaaaaaaaaaaaaaa" },
          RepoCall.GetProfileByUsername "neo2"] } ∧
    validateName "" = Except.error "name must be between 1 and 50 characters" ∧
    ({ repo := sampleProfileRepository } : services.UserService (List UserProfile)).UpdateProfile
        sampleStore { hex := "aaaaaaaaaaaaaaaaaaaaaaaa" }
        { renameRequest "ab" with FirstName := some "" } =
      { result := Except.error "username must be between 3 and 30 characters"
        db := sampleStore
        calls := [RepoCall.GetProfileByID { hex := "aaaaaaaaaaaaaaaaaaaaaaaa" }] } := by
  refine ⟨by decide, ?_, by decide, ?_, by decide, by decide, by decide, by decide⟩
  · exact Or.inl (by simp [renameRequest])
  · refine ⟨?_, ?_, ?_, ?_⟩ <;> intro v hv <;> simp [renameRequest] at hv


/-- C21 (amended): for an existing profile id, the service's `UpdateProfile` calls the
repository's `UpdateProfile` if and only if at least one field is supplied, every supplied
field passes its validator, and for a supplied username the lookup by username succeeds and
finds no profile or the profile being updated; the call is then made once, after the reads,
with the id and with the update set of exactly the supplied fields and their supplied
values, and its result and store are what the service returns.  Otherwise the service
returns an error and leaves the store as it was: the error of the first failing check in the
order username (validator, failed lookup, name held by another profile), first_name,
last_name, phone_number, address.  With no field supplied it returns nil after the one
read, without a repository write. -/
theorem UpdateProfile_service_writes {σ : Type} (s : services.UserService σ) (db : σ)
    (userID : ObjectID) (req : UpdateProfileRequest) (P : UserProfile)
    (hexists : s.repo.GetProfileByID db userID = Except.ok (some P)) :
    (∀ (id : ObjectID) (upd : UpdateSet),
      RepoCall.UpdateProfile id upd ∈ (s.UpdateProfile db userID req).calls ↔
        (id = userID ∧ upd = suppliedUpdate req ∧ SomeFieldSupplied req ∧
          UsernameAccepted s db userID req ∧ FieldsValid req)) ∧
    (SomeFieldSupplied req → UsernameAccepted s db userID req → FieldsValid req →
      s.UpdateProfile db userID req =
        { result := (s.repo.UpdateProfile db userID (suppliedUpdate req)).1
          db := (s.repo.UpdateProfile db userID (suppliedUpdate req)).2
          calls := RepoCall.GetProfileByID userID ::
            (usernameLookups req ++
              [RepoCall.UpdateProfile userID (suppliedUpdate req)]) }) ∧
    (¬ (UsernameAccepted s db userID req ∧ FieldsValid req) →
      (∃ err : String, (s.UpdateProfile db userID req).result = Except.error err) ∧
      (s.UpdateProfile db userID req).db = db) ∧
    (∀ u err : String, req.Username = some u → validateUsername u = Except.error err →
      s.UpdateProfile db userID req =
        { result := Except.error err, db := db,
          calls := [RepoCall.GetProfileByID userID] }) ∧
    (∀ u err : String, req.Username = some u → validateUsername u = Except.ok () →
      s.repo.GetProfileByUsername db u = Except.error err →
      s.UpdateProfile db userID req =
        { result := Except.error err, db := db,
          calls := [RepoCall.GetProfileByID userID, RepoCall.GetProfileByUsername u] }) ∧
    (∀ (u : String) (p : UserProfile), req.Username = some u →
      validateUsername u = Except.ok () →
      s.repo.GetProfileByUsername db u = Except.ok (some p) → p.ID ≠ userID →
      s.UpdateProfile db userID req =
        { result := Except.error "username already exists", db := db,
          calls := [RepoCall.GetProfileByID userID, RepoCall.GetProfileByUsername u] }) ∧
    (UsernameAccepted s db userID req →
      (∀ v err : String, req.FirstName = some v → validateName v = Except.error err →
        s.UpdateProfile db userID req =
          { result := Except.error err, db := db,
            calls := RepoCall.GetProfileByID userID :: usernameLookups req }) ∧
      ((∀ w : String, req.FirstName = some w → validateName w = Except.ok ()) →
        (∀ v err : String, req.LastName = some v → validateName v = Except.error err →
          s.UpdateProfile db userID req =
            { result := Except.error err, db := db,
              calls := RepoCall.GetProfileByID userID :: usernameLookups req }) ∧
        ((∀ w : String, req.LastName = some w → validateName w = Except.ok ()) →
          (∀ v err : String, req.PhoneNumber = some v →
            validatePhoneNumber v = Except.error err →
            s.UpdateProfile db userID req =
              { result := Except.error err, db := db,
                calls := RepoCall.GetProfileByID userID :: usernameLookups req }) ∧
          ((∀ w : String, req.PhoneNumber = some w →
              validatePhoneNumber w = Except.ok ()) →
            ∀ (a : Address) (err : String), req.Address = some a →
              validateAddress (some a) = Except.error err →
              s.UpdateProfile db userID req =
                { result := Except.error err, db := db,
                  calls := RepoCall.GetProfileByID userID :: usernameLookups req })))) ∧
    (¬ SomeFieldSupplied req →
      s.UpdateProfile db userID req =
        { result := Except.ok (), db := db, calls := [RepoCall.GetProfileByID userID] }) := by
  refine ⟨?_, ?_, ?_, ?_, ?_, ?_, ?_, ?_⟩
  · intro id upd
    by_cases hA : UsernameAccepted s db userID req ∧ FieldsValid req
    · rw [UpdateProfile_accepted_aux s db userID req P hexists hA.1 hA.2]
      by_cases hS : SomeFieldSupplied req
      · have hlen : ¬ (suppliedUpdate req).length = 0 := by
          rw [suppliedUpdate_length_aux]
          exact not_not.mpr hS
        rw [if_neg hlen]
        have hno := usernameLookups_no_write req id upd
        constructor
        · intro hmem
          simp only [List.mem_cons, List.mem_append, List.not_mem_nil, or_false] at hmem
          rcases hmem with h | h | h
          · cases h
          · exact absurd h hno
          · injection h with h1 h2
            exact ⟨h1, h2, hS, hA.1, hA.2⟩
        · rintro ⟨rfl, rfl, -, -, -⟩
          simp
      · have hlen : (suppliedUpdate req).length = 0 := (suppliedUpdate_length_aux req).mpr hS
        rw [if_pos hlen]
        have hno := usernameLookups_no_write req id upd
        constructor
        · intro hmem
          simp only [List.mem_cons] at hmem
          rcases hmem with h | h
          · cases h
          · exact absurd h hno
        · rintro ⟨-, -, hS2, -, -⟩
          exact absurd hS2 hS
    · obtain ⟨err, calls, heq, hc⟩ := UpdateProfile_refused_aux s db userID req P hexists hA
      rw [heq]
      constructor
      · intro hmem
        simp only [List.mem_cons] at hmem
        rcases hmem with h | h
        · cases h
        · exact absurd h (hc id upd)
      · rintro ⟨-, -, -, hU, hF⟩
        exact absurd ⟨hU, hF⟩ hA
  · intro hS hU hF
    rw [UpdateProfile_accepted_aux s db userID req P hexists hU hF]
    have hlen : ¬ (suppliedUpdate req).length = 0 := by
      rw [suppliedUpdate_length_aux]
      exact not_not.mpr hS
    rw [if_neg hlen]
  · intro hA
    obtain ⟨err, calls, heq, -⟩ := UpdateProfile_refused_aux s db userID req P hexists hA
    rw [heq]
    exact ⟨⟨err, rfl⟩, rfl⟩
  · intro u err hU hv
    have h1 := usernameBlock_invalid s db userID req [] u err hU hv
    unfold services.UserService.UpdateProfile
    simp only [hexists, h1]
  · intro u err hU hv hl
    unfold services.UserService.UpdateProfile
    simp [hexists, services.UserService.usernameBlock, hU, hv, hl]
  · intro u p hU hv hl hid
    unfold services.UserService.UpdateProfile
    simp [hexists, services.UserService.usernameBlock, hU, hv, hl, hid]
  · intro hU
    refine ⟨?_, ?_⟩
    · intro v err hF hv
      exact UpdateProfile_fields_error_aux s db userID req P err hexists hU
        (fun update => fieldBlocks_first_invalid req update v err hF hv)
    · intro h1
      refine ⟨?_, ?_⟩
      · intro v err hL hv
        exact UpdateProfile_fields_error_aux s db userID req P err hexists hU
          (fun update => fieldBlocks_last_invalid req update v err h1 hL hv)
      · intro h2
        refine ⟨?_, ?_⟩
        · intro v err hP hv
          exact UpdateProfile_fields_error_aux s db userID req P err hexists hU
            (fun update => fieldBlocks_phone_invalid req update v err h1 h2 hP hv)
        · intro h3 a err hA hv
          exact UpdateProfile_fields_error_aux s db userID req P err hexists hU
            (fun update => fieldBlocks_address_invalid req update a err h1 h2 h3 hA hv)
  · intro hS
    have hS2 := hS
    unfold SomeFieldSupplied at hS2
    push_neg at hS2
    obtain ⟨hu, hf, hl, hp, ha⟩ := hS2
    have hU : UsernameAccepted s db userID req := by
      intro u h
      rw [hu] at h
      cases h
    have hF : FieldsValid req := by
      refine ⟨?_, ?_, ?_, ?_⟩
      · intro v h
        rw [hf] at h
        cases h
      · intro v h
        rw [hl] at h
        cases h
      · intro v h
        rw [hp] at h
        cases h
      · intro v h
        rw [ha] at h
        cases h
    rw [UpdateProfile_accepted_aux s db userID req P hexists hU hF]
    rw [if_pos ((suppliedUpdate_length_aux req).mpr hS)]
    simp [usernameLookups, hu]

theorem UpdateProfile_service_writes_witness :
    sampleProfileRepository.GetProfileByID sampleStore { hex := "aaaaaaaaaaaaaaaaaaaaaaaa" } =
      Except.ok (some (sampleProfile "aaaaaaaaaaaaaaaaaaaaaaaa" "bbbbbbbbbbbbbbbbbbbbbbbb")) ∧
    RepoCall.UpdateProfile { hex := "aaaaaaaaaaaaaaaaaaaaaaaa" }
        [("username", UpdateValue.str "neo2")] ∈
      (({ repo := sampleProfileRepository } :
          services.UserService (List UserProfile)).UpdateProfile
        sampleStore { hex := "aaaaaaaaaaaaaaaaaaaaaaaa" } (renameRequest "neo2")).calls ∧
    (RepoCall.UpdateProfile { hex := "aaaaaaaaaaaaaaaaaaaaaaaa" }
        [("username", UpdateValue.str "neo2")] ∈
      (({ repo := sampleProfileRepository } :
          services.UserService (List UserProfile)).UpdateProfile
        sampleStore { hex := "aaaaaaaaaaaaaaaaaaaaaaaa" } (renameRequest "neo2")).calls ↔
      ({ hex := "aaaaaaaaaaaaaaaaaaaaaaaa" } : ObjectID) = { hex := "aaaaaaaaaaaaaaaaaaaaaaaa" } ∧
        [("username", UpdateValue.str "neo2")] = suppliedUpdate (renameRequest "neo2") ∧
        SomeFieldSupplied (renameRequest "neo2") ∧
        UsernameAccepted ({ repo := sampleProfileRepository } :
          services.UserService (List UserProfile)) sampleStore
          { hex := "aaaaaaaaaaaaaaaaaaaaaaaa" } (renameRequest "neo2") ∧
        FieldsValid (renameRequest "neo2")) :=
  ⟨by decide, by decide,
    (UpdateProfile_service_writes
      ({ repo := sampleProfileRepository } : services.UserService (List UserProfile))
      sampleStore { hex := "aaaaaaaaaaaaaaaaaaaaaaaa" } (renameRequest "neo2")
      (sampleProfile "aaaaaaaaaaaaaaaaaaaaaaaa" "bbbbbbbbbbbbbbbbbbbbbbbb") (by decide)).1
      { hex := "aaaaaaaaaaaaaaaaaaaaaaaa" } [("username", UpdateValue.str "neo2")]⟩

end PrismaUser
